import Mathlib

/-!
# pgbridge: a verification development

A shallow embedding of the core of `pgbridge` (connection manager, audit
logger, listener dispatch loop, bridge start-up and shut-down, the
catch-up / notification paths and the schema initialisation of the modules,
the configuration parser and the mail message builder), followed by
theorems about it.

Conventions of the embedding:

* Go `error` values are `Option String` (`none` is `nil`).
* `time.Duration` is an `Int` count of nanoseconds; Go `int` / `int64`
  arithmetic wraps through `wrapInt64`.
* Everything outside the repository (PostgreSQL, SMTP, the Go scheduler,
  concurrent goroutines) is an explicit environment argument: an oracle that
  says what each external call returned or which case a `select` took.
* Every function returns, besides its Go result, the list of observable
  events it performed, in program order.
-/

namespace PgBridge

/-! ## Shared vocabulary -/

/-- Go `time.Duration`: nanoseconds. -/
abbrev Duration := Int

/-- The constant `time.Second`. -/
def Second : Duration := 1000000000

/-- Two's-complement wrap-around of Go's `int64` (and of `int` on 64-bit targets). -/
def wrapInt64 (x : Int) : Int := (x + 2 ^ 63) % 2 ^ 64 - 2 ^ 63

/-- The type `logger.LogLevel`. -/
inductive LogLevel
  | Debug | Info | Warn | Error
  deriving DecidableEq, Repr

/-- The two `*logger.Logger` values `main` ever creates: `systemLogger`
(no pool, never started) and `mainLogger` (pool of the first database). -/
inductive LoggerRef
  | system | main
  deriving DecidableEq, Repr

/-- One call of a logging method of `logger.Logger`, with the arguments the
call site passes.  `LogSystemf` keeps the format string and the rendered
arguments apart; every other constructor is the helper of the same name, all
of which go through `Logger.Log` (local line plus durable enqueue). -/
inductive LogCall
  | LogSystemf (level : LogLevel) (component : String) (format : String) (args : List String)
  | Log (level : LogLevel) (component : String) (eventType : String) (message : String)
  | LogDBConnect (dbName : String)
  | LogDBConnectError (dbName : String) (err : String)
  | LogDBDisconnect (dbName : String)
  | LogDBReconnect (dbName : String) (attempt : Int) (delay : Duration)
  | LogModuleInit (dbName moduleName : String)
  | LogModuleStart (dbName moduleName : String)
  | LogModuleError (dbName moduleName operation err : String)
  | LogMailSent (dbName : String) (mailID : Int) (recipient : String)
  | LogMailFailed (dbName : String) (mailID : Int) (err : String)
  | LogNotifyForwarded (dbName : String) (notifyID centralID : Int)
  | LogNotifyFailed (dbName : String) (notifyID : Int) (err : String)
  | LogListenerStarted (dbName channel : String)
  | LogListenerError (dbName channel err : String)
  | LogHealthCheck (dbName : String)
  | LogHealthCheckFail (dbName err : String)
  deriving DecidableEq, Repr

/-- Whether the call goes through `Logger.Log` and so also enqueues a
durable entry (`LogSystem` / `LogSystemf` only print). -/
def LogCall.durable : LogCall → Bool
  | .LogSystemf _ _ _ _ => false
  | _ => true

/-- Observable events, in program order. -/
inductive Event
  /-- A logging call on one of the two loggers. -/
  | log (lg : LoggerRef) (c : LogCall)
  /-- Entry into `ConnectionManager.Disconnect` of the named database. -/
  | cmDisconnect (db : String)
  /-- Entry into `ConnectionManager.Connect` of the named database. -/
  | cmConnect (db : String)
  /-- The call `pgxpool.NewWithConfig` returned pool `p`. -/
  | poolOpen (p : Nat)
  /-- The call `pool.Ping` on pool `p`, and whether it succeeded. -/
  | poolPing (p : Nat) (ok : Bool)
  /-- The call `pool.Close()` on pool `p`. -/
  | poolClose (p : Nat)
  /-- The timer `time.After(d)` fired: the goroutine waited `d`. -/
  | sleep (d : Duration)
  /-- A statement `INSERT INTO pgb.pgb_log` issued on pool `p` by `writeLogEntry`. -/
  | logWrite (p : Nat) (eventType : String)
  /-- Entry into `ConnectionManager.Shutdown` of the named database. -/
  | cmShutdown (db : String)
  /-- The call `ConnectionManager.StartHealthCheck` of the named database. -/
  | healthCheckStart (db : String)
  /-- The call `SchemaInitializer.Initialize` for the named database. -/
  | schemaInit (db : String)
  /-- The calls `logger.NewLogger(serviceName, pool)` and `mainLogger.Start`. -/
  | loggerStart (p : Option Nat)
  /-- The call `config.LoadCentralConfig` made for a `pgb_notify` module. -/
  | loadCentralConfig (db : String)
  /-- The call `pgxpool.New` for the central database of a `pgb_notify` module. -/
  | centralPoolOpen (db : String)
  /-- The call `module.Initialize`. -/
  | moduleInitialize (db moduleName : String)
  /-- The call `module.Start`. -/
  | moduleStart (db moduleName : String)
  /-- The call `module.ProcessQueue`. -/
  | moduleProcessQueue (db moduleName : String)
  /-- The call `module.Stop`. -/
  | moduleStop (db moduleName : String)
  /-- The call `listener.Start` (dedicated connection plus `LISTEN channel`). -/
  | listenerStart (db channel : String)
  /-- The call `listener.Stop`. -/
  | listenerStop (db channel : String)
  /-- A handler goroutine spawned by the dispatch loop for one payload. -/
  | spawnHandler (db channel payload : String)
  /-- A line written to standard error by `main`. -/
  | stderr (msg : String)
  /-- A line written to standard output by `main`. -/
  | stdout (msg : String)
  /-- The receive `<-sigChan` in `main`: a termination signal arrived. -/
  | signal
  /-- The statement `go cm.Reconnect()` of `handleConnectionLoss`. -/
  | reconnectLaunch (db : String)
  /-- The call `os.Exit(code)`. -/
  | exit (code : Int)
  /-- The statement `SELECT id FROM pgb.pgb_notify WHERE is_sent = false ORDER BY created_at ASC`. -/
  | notifyPending
  /-- The statement `SELECT ... FROM pgb.pgb_notify WHERE id = $1` of `getNotification`. -/
  | notifySelect (id : Int)
  /-- The statement `INSERT INTO public.ps_notifications ... RETURNING id` for source row `id`. -/
  | centralInsert (id : Int)
  /-- The statement `UPDATE pgb.pgb_notify SET is_sent = true ... WHERE id = $1`. -/
  | notifyMarkSent (id : Int)
  /-- The statement `SELECT id FROM pgb.pgb_mail WHERE is_sent = false AND retry_count < $1 ...`. -/
  | mailPending
  /-- The statement `SELECT ... FROM pgb.pgb_mail WHERE id = $1` of `getMailMessage`. -/
  | mailSelect (id : Int)
  /-- The statement `SELECT ... FROM pgb.pgb_mail_settings WHERE id = $1` of `getMailSettings`. -/
  | mailSettingsSelect (settingID : Int)
  /-- One SMTP transmission of mail `id` to the given recipients. -/
  | smtpSend (id : Int) (recipients : List String)
  /-- The statement `UPDATE pgb.pgb_mail SET is_sent = true ... WHERE id = $1`. -/
  | mailMarkSent (id : Int)
  /-- The statement `UPDATE pgb.pgb_mail SET error_message = $2 ... WHERE id = $1`. -/
  | mailRecordError (id : Int) (errorMsg : String)
  /-- The statement `UPDATE pgb.pgb_mail SET retry_count = retry_count + 1 ... WHERE id = $1`. -/
  | mailIncrementRetry (id : Int)
  deriving DecidableEq, Repr

/-- The guard `if x.logger != nil { x.logger.<call> }`. -/
def logIf (lg : Option LoggerRef) (c : LogCall) : List Event :=
  match lg with
  | some l => [Event.log l c]
  | none => []

/-! ## `internal/database/connection.go` -/

/-- The struct `ConnectionConfig`. -/
structure ConnectionConfig where
  Name : String
  ConnectionString : String
  MaxConnections : Int
  MinConnections : Int
  HealthCheckPeriod : Duration
  deriving DecidableEq, Repr

/-- The struct `ConnectionManager`.  `pool` is the handle of the open pool
(`none` is `nil`); `shutdown` and `ctxDone` say whether the `shutdown`
channel is closed and the context cancelled; `shutdownOnce` whether the
`sync.Once` has fired; `wg` is the wait-group counter. -/
structure ConnectionManager where
  config : ConnectionConfig
  pool : Option Nat
  isConnected : Bool
  isShutdown : Bool
  shutdownOnce : Bool
  shutdown : Bool
  ctxDone : Bool
  wg : Nat
  logger : Option LoggerRef
  deriving DecidableEq, Repr

/-- The constructor `NewConnectionManager`: fills in the defaults. -/
def NewConnectionManager (config : ConnectionConfig) (log : Option LoggerRef) : ConnectionManager :=
  let config := if config.MaxConnections = 0 then { config with MaxConnections := 10 } else config
  let config := if config.MinConnections = 0 then { config with MinConnections := 2 } else config
  let config := if config.HealthCheckPeriod = 0 then { config with HealthCheckPeriod := 30 * Second } else config
  { config := config
    pool := none
    isConnected := false
    isShutdown := false
    shutdownOnce := false
    shutdown := false
    ctxDone := false
    wg := 0
    logger := log }

/-- What the outside world answers to one connection attempt: the stage at
which it fails, or the pool it yields. -/
inductive ConnectOutcome
  /-- The call `pgxpool.ParseConfig` fails. -/
  | parseFail (err : String)
  /-- The call `pgxpool.NewWithConfig` fails. -/
  | poolFail (err : String)
  /-- The pool `p` is created but the liveness probe fails. -/
  | pingFail (p : Nat) (err : String)
  /-- The pool `p` is created and the probe succeeds. -/
  | ok (p : Nat)
  deriving DecidableEq, Repr

/-- Whether the attempt succeeds at every stage. -/
def ConnectOutcome.succeeds : ConnectOutcome → Bool
  | .ok _ => true
  | _ => false

/-- The method `ConnectionManager.Connect`. -/
def ConnectionManager.Connect (cm : ConnectionManager) (o : ConnectOutcome) :
    Option String × ConnectionManager × List Event :=
  if cm.isConnected then
    (none, cm, [Event.cmConnect cm.config.Name])
  else
    let t0 := Event.cmConnect cm.config.Name ::
      logIf cm.logger (.LogSystemf .Info "database" "Connecting to database: %s" [cm.config.Name])
    match o with
    | .parseFail err =>
      let connErr := "failed to parse connection string: " ++ err
      (some connErr, cm, t0 ++ logIf cm.logger (.LogDBConnectError cm.config.Name connErr))
    | .poolFail err =>
      let connErr := "failed to create connection pool: " ++ err
      (some connErr, cm, t0 ++ logIf cm.logger (.LogDBConnectError cm.config.Name connErr))
    | .pingFail p err =>
      let connErr := "failed to ping database: " ++ err
      (some connErr, cm,
        t0 ++ [Event.poolOpen p, Event.poolPing p false, Event.poolClose p]
          ++ logIf cm.logger (.LogDBConnectError cm.config.Name connErr))
    | .ok p =>
      (none, { cm with pool := some p, isConnected := true },
        t0 ++ [Event.poolOpen p, Event.poolPing p true]
          ++ logIf cm.logger (.LogDBConnect cm.config.Name))

/-- The method `ConnectionManager.Disconnect`. -/
def ConnectionManager.Disconnect (cm : ConnectionManager) : ConnectionManager × List Event :=
  match cm.pool with
  | some p =>
    ({ cm with pool := none, isConnected := false },
      Event.cmDisconnect cm.config.Name ::
        (logIf cm.logger (.LogDBDisconnect cm.config.Name) ++ [Event.poolClose p]))
  | none =>
    ({ cm with isConnected := false }, [Event.cmDisconnect cm.config.Name])

/-- Which case a `select` over the `shutdown` channel and `ctx.Done()`
takes: `none` when neither is ready (the `default` case, or the timer). -/
inductive Signal
  | none | shutdown | ctxDone
  deriving DecidableEq, Repr

/-- The environment of one run of `Reconnect`, per loop iteration
(0-based): what the `select` at the top of the loop observes, what the
connection attempt meets, and what the `select` around `time.After`
observes. -/
structure ReconnectEnv where
  selectTop : Nat → Signal
  connect : Nat → ConnectOutcome
  selectWait : Nat → Signal

/-- The result of `Reconnect`. -/
structure ReconnectResult where
  err : Option String
  cm : ConnectionManager
  trace : List Event
  deriving DecidableEq, Repr

/-- The constant `maxDelay` of `Reconnect`. -/
def maxDelay : Duration := 60 * Second

/-- The constant `initialDelay` of `Reconnect`. -/
def initialDelay : Duration := 1 * Second

/-- The backoff update after a wait: `currentDelay *= 2`, capped at `maxDelay`. -/
def nextDelay (currentDelay : Duration) : Duration :=
  let d := wrapInt64 (currentDelay * 2)
  if d > maxDelay then maxDelay else d

/-- The `for` loop of `ConnectionManager.Reconnect`, from iteration `i`
with the loop variables `currentDelay` and `attempt`; `fuel` bounds the
number of iterations run. -/
def ConnectionManager.reconnectLoop (env : ReconnectEnv) :
    Nat → Nat → ConnectionManager → Duration → Int → Option ReconnectResult
  | 0, _, _, _, _ => none
  | fuel + 1, i, cm, currentDelay, attempt =>
    match env.selectTop i with
    | .shutdown => some { err := some "shutdown requested", cm := cm, trace := [] }
    | .ctxDone => some { err := some "context cancelled", cm := cm, trace := [] }
    | .none =>
      let attempt := wrapInt64 (attempt + 1)
      let t1 := logIf cm.logger (.LogDBReconnect cm.config.Name attempt currentDelay)
      let d := cm.Disconnect
      let c := d.1.Connect (env.connect i)
      let t := t1 ++ d.2 ++ c.2.2
      match c.1 with
      | none =>
        some { err := none, cm := c.2.1,
               trace := t ++ logIf c.2.1.logger
                 (.LogSystemf .Info "database" "Successfully reconnected to %s after %d attempts"
                   [cm.config.Name, toString attempt]) }
      | some _ =>
        match env.selectWait i with
        | .shutdown => some { err := some "shutdown requested", cm := c.2.1, trace := t }
        | .ctxDone => some { err := some "context cancelled", cm := c.2.1, trace := t }
        | .none =>
          (reconnectLoop env fuel (i + 1) c.2.1 (nextDelay currentDelay) attempt).map
            fun r => { r with trace := t ++ Event.sleep currentDelay :: r.trace }

/-- The method `ConnectionManager.Reconnect`. -/
def ConnectionManager.Reconnect (env : ReconnectEnv) (fuel : Nat) (cm : ConnectionManager) :
    Option ReconnectResult :=
  cm.reconnectLoop env fuel 0 initialDelay 0

/-- How far a run of `Reconnect` has got: the value it has returned
(`none` while its loop is still running), the manager, and the events
performed so far. -/
structure ReconnectProgress where
  result : Option (Option String)
  cm : ConnectionManager
  trace : List Event
  deriving DecidableEq, Repr

/-- The `for` loop of `ConnectionManager.Reconnect`, from iteration `i`
with the loop variables `currentDelay` and `attempt`, followed for at most
`fuel` iterations: a run that is still going after them keeps the events
it has performed. -/
def ConnectionManager.reconnectProgress (env : ReconnectEnv) :
    Nat → Nat → ConnectionManager → Duration → Int → ReconnectProgress
  | 0, _, cm, _, _ => { result := none, cm := cm, trace := [] }
  | fuel + 1, i, cm, currentDelay, attempt =>
    match env.selectTop i with
    | .shutdown => { result := some (some "shutdown requested"), cm := cm, trace := [] }
    | .ctxDone => { result := some (some "context cancelled"), cm := cm, trace := [] }
    | .none =>
      let attempt := wrapInt64 (attempt + 1)
      let t1 := logIf cm.logger (.LogDBReconnect cm.config.Name attempt currentDelay)
      let d := cm.Disconnect
      let c := d.1.Connect (env.connect i)
      let t := t1 ++ d.2 ++ c.2.2
      match c.1 with
      | none =>
        { result := some none, cm := c.2.1,
          trace := t ++ logIf c.2.1.logger
            (.LogSystemf .Info "database" "Successfully reconnected to %s after %d attempts"
              [cm.config.Name, toString attempt]) }
      | some _ =>
        match env.selectWait i with
        | .shutdown => { result := some (some "shutdown requested"), cm := c.2.1, trace := t }
        | .ctxDone => { result := some (some "context cancelled"), cm := c.2.1, trace := t }
        | .none =>
          let rest := reconnectProgress env fuel (i + 1) c.2.1 (nextDelay currentDelay) attempt
          { rest with trace := t ++ Event.sleep currentDelay :: rest.trace }

/-- The method `ConnectionManager.Reconnect`, followed for at most `fuel`
iterations of its loop. -/
def ConnectionManager.reconnectSoFar (env : ReconnectEnv) (fuel : Nat) (cm : ConnectionManager) :
    ReconnectProgress :=
  cm.reconnectProgress env fuel 0 initialDelay 0

/-- The method `ConnectionManager.StartHealthCheck`: `cm.wg.Add(1)` and the
launch of the health-check goroutine. -/
def ConnectionManager.StartHealthCheck (cm : ConnectionManager) : ConnectionManager × List Event :=
  ({ cm with wg := cm.wg + 1 }, [Event.healthCheckStart cm.config.Name])

/-- The method `ConnectionManager.Shutdown`.  The body runs under
`shutdownOnce`; `cm.wg.Wait()` returns once the health-check goroutines,
which watch the channel closed just before, have called `wg.Done()`. -/
def ConnectionManager.Shutdown (cm : ConnectionManager) : ConnectionManager × List Event :=
  if cm.shutdownOnce then
    (cm, [Event.cmShutdown cm.config.Name])
  else
    let cm1 := { cm with shutdownOnce := true, isShutdown := true }
    let cm2 := { cm1 with shutdown := true, ctxDone := true }
    let cm3 := { cm2 with wg := 0 }
    match cm3.Disconnect with
    | (cm4, t) => (cm4, Event.cmShutdown cm.config.Name :: t)

/-- The events the backoff contract speaks of: entries into `Disconnect`
and `Connect`, and waits. -/
def Event.isAttemptStep : Event → Bool
  | .cmDisconnect _ => true
  | .cmConnect _ => true
  | .sleep _ => true
  | _ => false

/-- The attempt steps of the `k`-th failed iteration: disconnect, connect, wait. -/
def failedIteration (db : String) (k : Nat) : List Event :=
  [Event.cmDisconnect db, Event.cmConnect db,
    Event.sleep (((min (2 ^ k) 60 : Nat) : Int) * Second)]

/-- A sample environment: two failed probes, then success with pool 7, no signal. -/
def sampleReconnectEnv : ReconnectEnv :=
  { selectTop := fun _ => Signal.none
    connect := fun i => if i < 2 then ConnectOutcome.pingFail i "connection refused" else ConnectOutcome.ok 7
    selectWait := fun _ => Signal.none }

/-- A sample manager, as `main` builds it. -/
def sampleManager : ConnectionManager :=
  NewConnectionManager
    { Name := "db1", ConnectionString := "postgres://h/db1", MaxConnections := 0,
      MinConnections := 0, HealthCheckPeriod := 0 }
    (some LoggerRef.system)

/-! ## `internal/logger/logger.go` -/

/-- Go's `select` statement.  `ready` lists the cases whose channel
operation can proceed, in source order; `dflt` is the `default` case when
there is one.  With several cases ready the runtime picks one at random,
here by `pick`; with none ready the `default` case runs, and without a
`default` the goroutine blocks (`none`). -/
def goSelect {α : Type} (ready : List α) (dflt : Option α) (pick : Nat) : Option α :=
  match ready with
  | [] => dflt
  | a :: as => some ((a :: as).getD (pick % (as.length + 1)) a)

/-- The struct `LogEntry` (the `Details` map is not modelled). -/
structure LogEntry where
  EventType : String
  DatabaseName : String
  ModuleName : String
  Message : String
  deriving DecidableEq, Repr

/-- One line printed by `LogSystem` on the local stream: the arguments of
`systemLogger.Printf("[%s] [%s] %s", level, component, message)`. -/
structure SystemLine where
  level : LogLevel
  component : String
  message : String
  deriving DecidableEq, Repr

/-- The struct `Logger`.  `logChan` holds the entries buffered in the
channel, oldest first, and `logChanCap` its capacity; `shutdown` says
whether the `shutdown` channel is closed and `shutdownOnce` whether the
`sync.Once` has fired; `wg` is the wait-group counter (the writer goroutine,
once started); `systemLog` collects the lines written to the local stream,
oldest first. -/
structure Logger where
  serviceName : String
  dbPool : Option Nat
  logChan : List LogEntry
  logChanCap : Nat
  shutdown : Bool
  shutdownOnce : Bool
  wg : Nat
  systemLog : List SystemLine
  deriving DecidableEq, Repr

/-- The constructor `NewLogger`: an empty channel of capacity 1000. -/
def NewLogger (serviceName : String) (dbPool : Option Nat) : Logger :=
  { serviceName := serviceName
    dbPool := dbPool
    logChan := []
    logChanCap := 1000
    shutdown := false
    shutdownOnce := false
    wg := 0
    systemLog := [] }

/-- The method `Logger.LogSystem`. -/
def Logger.LogSystem (l : Logger) (level : LogLevel) (component message : String) : Logger :=
  { l with systemLog := l.systemLog ++ [{ level := level, component := component, message := message }] }

/-- The cases of the `select` in `LogDatabase`. -/
inductive LogDatabaseCase
  | send | shutdown | dflt
  deriving DecidableEq, Repr

/-- The cases of the `select` in `LogDatabase` that can proceed: the send
when the buffer has room, the receive on `shutdown` when it is closed. -/
def Logger.logDatabaseReady (l : Logger) : List LogDatabaseCase :=
  (if l.logChan.length < l.logChanCap then [LogDatabaseCase.send] else [])
    ++ (if l.shutdown then [LogDatabaseCase.shutdown] else [])

/-- The method `Logger.LogDatabase`; `none` would mean the call blocks. -/
def Logger.LogDatabase (l : Logger) (entry : LogEntry) (pick : Nat) : Option Logger :=
  match goSelect l.logDatabaseReady (some LogDatabaseCase.dflt) pick with
  | none => none
  | some LogDatabaseCase.send => some { l with logChan := l.logChan ++ [entry] }
  | some LogDatabaseCase.shutdown =>
    some (l.LogSystem .Warn "logger" "Cannot log to database during shutdown, logging to system")
  | some LogDatabaseCase.dflt =>
    some (l.LogSystem .Warn "logger" "Database log channel full, dropping log entry")

/-- A sequence of `LogDatabase` calls by one producer, with no consumer
running in between: each call comes with the runtime's `pick`. -/
def Logger.logDatabaseAll (l : Logger) : List (LogEntry × Nat) → Option Logger
  | [] => some l
  | (entry, pick) :: rest =>
    match l.LogDatabase entry pick with
    | none => none
    | some l1 => l1.logDatabaseAll rest

/-- The method `Logger.Start`: `l.wg.Add(1)` and the launch of the writer goroutine. -/
def Logger.Start (l : Logger) : Logger :=
  { l with wg := l.wg + 1 }

/-- The method `Logger.writeLogEntry`; `exec` is the error the `INSERT`
returns when it is issued. -/
def Logger.writeLogEntry (l : Logger) (entry : LogEntry) (exec : Option String) :
    Option String × List Event :=
  match l.dbPool with
  | none => (some "database pool is nil", [])
  | some p => (exec, [Event.logWrite p entry.EventType])

/-- The environment of the writer goroutine while it flushes, per `select`
of `flushLogs` (0-based): the error of the `INSERT` issued there, whether
the flush deadline has passed, and the runtime's pick among ready cases. -/
structure WriterEnv where
  exec : Nat → Option String
  deadline : Nat → Bool
  pick : Nat → Nat

/-- The cases of the `select` in `flushLogs`. -/
inductive FlushCase
  | recv | deadline | dflt
  deriving DecidableEq, Repr

/-- The loop of `Logger.flushLogs` from its `k`-th `select`.  Each
iteration that does not return takes one entry off the channel, so
`fuel` above the channel length is never used up. -/
def Logger.flushLoop (env : WriterEnv) : Nat → Nat → Logger → Logger × List Event
  | 0, _, l => (l, [])
  | fuel + 1, k, l =>
    let ready := (if l.logChan.length > 0 then [FlushCase.recv] else [])
      ++ (if env.deadline k then [FlushCase.deadline] else [])
    match goSelect ready (some FlushCase.dflt) (env.pick k) with
    | some FlushCase.recv =>
      match l.logChan with
      | [] => (l, [])
      | entry :: rest =>
        let l1 := { l with logChan := rest }
        match l1.writeLogEntry entry (env.exec k) with
        | (some err, t) =>
          match flushLoop env fuel (k + 1)
              (l1.LogSystem .Error "logger" ("Failed to flush log entry: " ++ err)) with
          | (l2, t2) => (l2, t ++ t2)
        | (none, t) =>
          match flushLoop env fuel (k + 1) l1 with
          | (l2, t2) => (l2, t ++ t2)
    | some FlushCase.deadline =>
      if l.logChan.length > 0 then
        (l.LogSystem .Warn "logger"
          ("Flush timeout: " ++ toString l.logChan.length ++ " log entries remaining"), [])
      else (l, [])
    | some FlushCase.dflt => (l, [])
    | none => (l, [])

/-- The method `Logger.flushLogs`. -/
def Logger.flushLogs (l : Logger) (env : WriterEnv) : Logger × List Event :=
  Logger.flushLoop env (l.logChan.length + 1) 0 l

/-- The method `Logger.Shutdown`.  The body runs under `shutdownOnce`:
it closes `shutdown` and waits for the writer goroutine, which (when it was
started) is taken to observe the closed channel at once, run `flushLogs`
and return. -/
def Logger.Shutdown (l : Logger) (env : WriterEnv) : Logger × List Event :=
  if l.shutdownOnce then (l, [])
  else
    let l1 := { l with shutdownOnce := true, shutdown := true }
    if l1.wg = 0 then (l1, [])
    else
      match l1.flushLogs env with
      | (l2, t) => ({ l2 with wg := 0 }, t)

/-- The warning `LogDatabase` prints for an entry dropped on a full channel. -/
def channelFullWarning : SystemLine :=
  { level := .Warn, component := "logger", message := "Database log channel full, dropping log entry" }

/-- A sample log entry. -/
def sampleEntry : LogEntry :=
  { EventType := "HEALTH_CHECK", DatabaseName := "db1", ModuleName := "", Message := "ok" }

/-! ## `cmd/pgbridge/main.go`: the listener -/

/-- The struct `Listener`: the module is kept by name; the dedicated
connection is part of the environment. -/
structure Listener where
  dbName : String
  channel : String
  module : String
  logger : Option LoggerRef
  deriving DecidableEq, Repr

/-- A non-nil error returned by `conn.WaitForNotification`, as far as
`listen` inspects it: the answers of `errors.Is(err, context.DeadlineExceeded)`
and `errors.Is(err, context.Canceled)`, and its text. -/
structure WaitError where
  isDeadlineExceeded : Bool
  isCanceled : Bool
  text : String
  deriving DecidableEq, Repr

/-- What `conn.WaitForNotification(waitCtx)` returns. -/
inductive WaitResult
  /-- A non-nil error. -/
  | err (e : WaitError)
  /-- A notification with its payload, and a nil error. -/
  | notification (payload : String)
  /-- A nil notification and a nil error. -/
  | nothing
  deriving DecidableEq, Repr

/-- The environment of one run of `listen`, per loop iteration (0-based):
what the `select` observes on `l.shutdown` and `ctx.Done()`, what the
bounded wait returns, and whether `ctx.Err() != nil` when the loop checks it. -/
structure ListenEnv where
  select : Nat → Signal
  wait : Nat → WaitResult
  ctxErr : Nat → Bool

/-- How far a run of `listen` has got: the events performed so far, and
whether the loop has returned. -/
structure ListenRun where
  trace : List Event
  returned : Bool
  deriving DecidableEq, Repr

/-- The method `Listener.listen`, from iteration `i`, followed for at most
`fuel` iterations of its `for` loop: the events of those iterations, and
whether the loop has returned within them.  A run that is still going
after `fuel` iterations keeps the events it has performed. -/
def Listener.listenLoop (l : Listener) (env : ListenEnv) : Nat → Nat → ListenRun
  | 0, _ => { trace := [], returned := false }
  | fuel + 1, i =>
    match env.select i with
    | .shutdown => { trace := [], returned := true }
    | .ctxDone => { trace := [], returned := true }
    | .none =>
      match env.wait i with
      | .err e =>
        if e.isDeadlineExceeded then
          l.listenLoop env fuel (i + 1)
        else if e.isCanceled || env.ctxErr i then
          { trace := [], returned := true }
        else
          let rest := l.listenLoop env fuel (i + 1)
          { trace := logIf l.logger (.LogListenerError l.dbName l.channel e.text) ++ rest.trace
            returned := rest.returned }
      | .notification payload =>
        let rest := l.listenLoop env fuel (i + 1)
        { trace :=
            logIf l.logger (.LogSystemf .Debug "listener" "Received notification on %s/%s: %s"
                [l.dbName, l.channel, payload])
              ++ Event.spawnHandler l.dbName l.channel payload :: rest.trace
          returned := rest.returned }
      | .nothing => l.listenLoop env fuel (i + 1)

/-- The method `Listener.listen`, followed for at most `fuel` iterations. -/
def Listener.listen (l : Listener) (env : ListenEnv) (fuel : Nat) : ListenRun :=
  l.listenLoop env fuel 0

/-- Iteration `i` ends a wait with a timeout: the `select` takes its
`default` case and the wait returns an error for which
`errors.Is(err, context.DeadlineExceeded)` holds. -/
def ListenEnv.timesOut (env : ListenEnv) (i : Nat) : Bool :=
  match env.select i, env.wait i with
  | .none, .err e => e.isDeadlineExceeded
  | _, _ => false

/-- Iteration `i` observes the shutdown signal or a cancellation: the
`select` receives from `l.shutdown` or `ctx.Done()`, or the wait fails with
an error that is not a timeout while `errors.Is(err, context.Canceled)`
holds or `ctx.Err()` is non-nil. -/
def ListenEnv.stops (env : ListenEnv) (i : Nat) : Bool :=
  match env.select i, env.wait i with
  | .shutdown, _ => true
  | .ctxDone, _ => true
  | .none, .err e => !e.isDeadlineExceeded && (e.isCanceled || env.ctxErr i)
  | .none, _ => false

/-- Iteration `i` meets a real wait error: the `select` takes its
`default` case, the wait fails, and the error is neither a timeout nor a
cancellation, with the context not cancelled. -/
def ListenEnv.realError (env : ListenEnv) (i : Nat) : Option WaitError :=
  match env.select i, env.wait i with
  | .none, .err e =>
    if !e.isDeadlineExceeded && !e.isCanceled && !env.ctxErr i then some e else none
  | _, _ => none

/-- A sample listener, as `main` builds it for the mail module. -/
def sampleListener : Listener :=
  { dbName := "db1", channel := "pgb_mail", module := "pgb_mail", logger := some LoggerRef.main }

/-- The error of a wait that hit its 10s deadline. -/
def timeoutError : WaitError :=
  { isDeadlineExceeded := true, isCanceled := false, text := "timeout: context deadline exceeded" }

/-- The error of a wait whose connection broke. -/
def brokenPipeError : WaitError :=
  { isDeadlineExceeded := false, isCanceled := false, text := "write: broken pipe" }

/-- A sample environment: three timeouts, a broken read, then shutdown. -/
def sampleListenEnv : ListenEnv :=
  { select := fun i => if i < 4 then Signal.none else Signal.shutdown
    wait := fun i => if i < 3 then WaitResult.err timeoutError else WaitResult.err brokenPipeError
    ctxErr := fun _ => false }

/-- A sample environment: a notification, a timeout, a broken read, a
timeout, then shutdown. -/
def busyListenEnv : ListenEnv :=
  { select := fun i => if i < 4 then Signal.none else Signal.shutdown
    wait := fun i =>
      if i = 0 then WaitResult.notification "7"
      else if i = 2 then WaitResult.err brokenPipeError
      else WaitResult.err timeoutError
    ctxErr := fun _ => false }

/-! ## Module payloads: `fmt.Sscanf(payload, "%d", &id)` -/

/-- The white-space runes of Go (`unicode.IsSpace`, and the `space` table of `fmt`). -/
def isSpaceRune (c : Char) : Bool :=
  let n := c.toNat
  (0x0009 ≤ n && n ≤ 0x000d) || n == 0x0020 || n == 0x0085 || n == 0x00a0 || n == 0x1680
    || (0x2000 ≤ n && n ≤ 0x200a) || n == 0x2028 || n == 0x2029 || n == 0x202f
    || n == 0x205f || n == 0x3000

/-- The leading-space skip of `Sscanf` before a number: spaces are
dropped, a newline is an error. -/
def scanSkipSpace : List Char → Except String (List Char)
  | [] => .ok []
  | c :: cs =>
    if c = '\n' then .error "unexpected newline"
    else if isSpaceRune c then scanSkipSpace cs
    else .ok (c :: cs)

/-- The value of a run of decimal digits, most significant first; `none`
when a rune is not a decimal digit (an underscore, say). -/
def decimalValue : List Char → Nat → Option Nat
  | [], acc => some acc
  | c :: cs, acc => if c.isDigit then decimalValue cs (acc * 10 + (c.toNat - 48)) else none

/-- The call `fmt.Sscanf(payload, "%d", &id)` as the modules use it: skip
leading spaces, accept one sign, take the longest run of digits and
underscores (for the verb `d` the scanner accepts the runes of
`decimalDigits + "_"`), and convert it with `strconv.ParseInt(tok, 10, 64)`,
which rejects an underscore in base 10; input after the number is left
unread.  The result is the integer stored, or the error. -/
def sscanfInt (payload : String) : Except String Int :=
  match scanSkipSpace payload.toList with
  | .error e => .error e
  | .ok [] => .error "unexpected EOF"
  | .ok (c :: cs) =>
    let neg := c = '-'
    let rest := if c = '+' ∨ c = '-' then cs else c :: cs
    let tok := rest.takeWhile fun d => d.isDigit || d = '_'
    if tok = [] then .error (if rest = [] then "unexpected EOF" else "expected integer")
    else
      match decimalValue tok 0 with
      | none => .error "invalid syntax"
      | some v =>
        if neg then
          if v ≤ 2 ^ 63 then .ok (-(v : Int)) else .error "value out of range"
        else
          if v < 2 ^ 63 then .ok (v : Int) else .error "value out of range"

/-! ## The databases the modules talk to -/

/-- What a multi-row query meets: the three error returns of the
`Query` / `Scan` / `rows.Err` sequence, or a complete result set. -/
inductive RowsOutcome
  | queryErr (e : String)
  | scanErr (e : String)
  | iterErr (e : String)
  | ok
  deriving DecidableEq, Repr

/-- The environment of a module call.  Every external operation (a SQL
statement, an SMTP transmission, a `select` on the context) takes the next
step number; the environment says whether that operation fails and with
what error (`fail`), what a multi-row query meets (`rows`), the value of
`CURRENT_TIMESTAMP` (`clock`), and whether the context is done (`ctxDone`). -/
structure DbEnv where
  fail : Nat → Option String
  rows : Nat → RowsOutcome
  clock : Nat → Nat
  ctxDone : Nat → Bool

/-! ## `internal/modules/notify/notify.go` -/

/-- The struct `Notification`: a row of `pgb.pgb_notify`. -/
structure Notification where
  ID : Int
  UserEmail : String
  SenderDB : String
  Message : String
  MessageLink : String
  Criticality : Int
  IsSent : Bool
  SentTS : Option Nat
  CreatedAt : Nat
  deriving DecidableEq, Repr

/-- A row of the central table `public.ps_notifications`. -/
structure CentralNotification where
  id : Int
  user_email : String
  sender_db : String
  original_id : Int
  message : String
  message_link : String
  criticality : Int
  received_ts : Nat
  deriving DecidableEq, Repr

/-- The persisted state a notify module works on: the source table, the
central table with its `id` sequence, and the count of external
operations performed so far. -/
structure NotifyDB where
  source : List Notification
  central : List CentralNotification
  centralSeq : Int
  step : Nat
  deriving DecidableEq, Repr

/-- The struct `NotifyModule` (the two pools are the tables of `NotifyDB`). -/
structure NotifyModule where
  sourceName : String
  logger : Option LoggerRef
  deriving DecidableEq, Repr

/-- The method `NotifyModule.getNotification`. -/
def NotifyModule.getNotification (_n : NotifyModule) (env : DbEnv) (db : NotifyDB)
    (notifyID : Int) : Except String Notification × NotifyDB × List Event :=
  let db1 := { db with step := db.step + 1 }
  match env.fail db.step with
  | some e => (.error ("failed to query notification: " ++ e), db1, [Event.notifySelect notifyID])
  | none =>
    match db.source.find? fun r => r.ID == notifyID with
    | none =>
      (.error "failed to query notification: no rows in result set", db1,
        [Event.notifySelect notifyID])
    | some r => (.ok r, db1, [Event.notifySelect notifyID])

/-- The method `NotifyModule.insertToCentral`. -/
def NotifyModule.insertToCentral (_n : NotifyModule) (env : DbEnv) (db : NotifyDB)
    (notification : Notification) : Except String Int × NotifyDB × List Event :=
  let db1 := { db with step := db.step + 1 }
  match env.fail db.step with
  | some e =>
    (.error ("failed to insert into central database: " ++ e), db1,
      [Event.centralInsert notification.ID])
  | none =>
    let centralID := db.centralSeq + 1
    (.ok centralID,
      { db1 with
        centralSeq := centralID
        central := db.central ++
          [{ id := centralID
             user_email := notification.UserEmail
             sender_db := notification.SenderDB
             original_id := notification.ID
             message := notification.Message
             message_link := notification.MessageLink
             criticality := notification.Criticality
             received_ts := env.clock db.step }] },
      [Event.centralInsert notification.ID])

/-- The method `NotifyModule.markAsSent`. -/
def NotifyModule.markAsSent (_n : NotifyModule) (env : DbEnv) (db : NotifyDB) (notifyID : Int) :
    Option String × NotifyDB × List Event :=
  let db1 := { db with step := db.step + 1 }
  match env.fail db.step with
  | some e => (some ("failed to mark notification as sent: " ++ e), db1, [Event.notifyMarkSent notifyID])
  | none =>
    (none,
      { db1 with
        source := db.source.map fun r =>
          if r.ID == notifyID then { r with IsSent := true, SentTS := some (env.clock db.step) }
          else r },
      [Event.notifyMarkSent notifyID])

/-- The method `NotifyModule.forwardNotification`. -/
def NotifyModule.forwardNotification (n : NotifyModule) (env : DbEnv) (db : NotifyDB)
    (notifyID : Int) : Option String × NotifyDB × List Event :=
  match n.getNotification env db notifyID with
  | (.error err, db1, t1) =>
    let notifyErr := "failed to retrieve notification " ++ toString notifyID ++ ": " ++ err
    (some notifyErr, db1, t1 ++ logIf n.logger (.LogNotifyFailed n.sourceName notifyID notifyErr))
  | (.ok notification, db1, t1) =>
    if notification.IsSent then
      (none, db1, t1)
    else
      match n.insertToCentral env db1 notification with
      | (.error err, db2, t2) =>
        let insertErr := "failed to insert to central database: " ++ err
        (some insertErr, db2,
          t1 ++ t2 ++ logIf n.logger (.LogNotifyFailed n.sourceName notifyID insertErr))
      | (.ok centralID, db2, t2) =>
        match n.markAsSent env db2 notifyID with
        | (some err, db3, t3) =>
          let markErr := "failed to mark as sent: " ++ err
          (some markErr, db3,
            t1 ++ t2 ++ t3 ++ logIf n.logger (.LogNotifyFailed n.sourceName notifyID markErr))
        | (none, db3, t3) =>
          (none, db3,
            t1 ++ t2 ++ t3 ++ logIf n.logger (.LogNotifyForwarded n.sourceName notifyID centralID))

/-- The method `NotifyModule.ProcessNotification`. -/
def NotifyModule.ProcessNotification (n : NotifyModule) (env : DbEnv) (db : NotifyDB)
    (payload : String) : Option String × NotifyDB × List Event :=
  match sscanfInt payload with
  | .error err =>
    (some ("invalid notification ID in payload '" ++ payload ++ "': " ++ err), db, [])
  | .ok notifyID => n.forwardNotification env db notifyID

/-- The result set of `SELECT id FROM pgb.pgb_notify WHERE is_sent = false
ORDER BY created_at ASC` (rows of equal `created_at` keep their table order). -/
def NotifyDB.pending (db : NotifyDB) : List Int :=
  ((db.source.filter fun r => !r.IsSent).insertionSort fun a b => a.CreatedAt ≤ b.CreatedAt).map
    fun r => r.ID

/-- The loop `for _, notifyID := range notifyIDs` of `NotifyModule.ProcessQueue`. -/
def NotifyModule.forwardAll (n : NotifyModule) (env : DbEnv) :
    NotifyDB → List Int → NotifyDB × List Event
  | db, [] => (db, [])
  | db, notifyID :: rest =>
    match n.forwardNotification env db notifyID with
    | (_, db1, t1) =>
      match forwardAll n env db1 rest with
      | (db2, t2) => (db2, t1 ++ t2)

/-- The method `NotifyModule.ProcessQueue`. -/
def NotifyModule.ProcessQueue (n : NotifyModule) (env : DbEnv) (db : NotifyDB) :
    Option String × NotifyDB × List Event :=
  let db1 := { db with step := db.step + 1 }
  match env.rows db.step with
  | .queryErr e => (some ("failed to query unsent notifications: " ++ e), db1, [Event.notifyPending])
  | .scanErr e => (some ("failed to scan notification ID: " ++ e), db1, [Event.notifyPending])
  | .iterErr e => (some ("error iterating notification rows: " ++ e), db1, [Event.notifyPending])
  | .ok =>
    match n.forwardAll env db1 db.pending with
    | (db2, t) => (none, db2, Event.notifyPending :: t)

/-- The ids on which a trace starts a forwarding attempt: the row reads of
`getNotification`, in order. -/
def notifyAttempts (tr : List Event) : List Int :=
  tr.filterMap fun e =>
    match e with
    | .notifySelect id => some id
    | _ => none

/-- An environment in which every external operation succeeds. -/
def calmEnv : DbEnv :=
  { fail := fun _ => none, rows := fun _ => RowsOutcome.ok, clock := fun k => 1000 + k,
    ctxDone := fun _ => false }

/-- A sample notify module. -/
def sampleNotify : NotifyModule := { sourceName := "db1", logger := some LoggerRef.main }

/-- A sample source row, already forwarded. -/
def sentNotification : Notification :=
  { ID := 7, UserEmail := "a@example.org", SenderDB := "db1", Message := "hello",
    MessageLink := "", Criticality := 1, IsSent := true, SentTS := some 900, CreatedAt := 800 }

/-- A sample state: row 7 forwarded, row 8 pending. -/
def sampleNotifyDB : NotifyDB :=
  { source := [sentNotification, { sentNotification with ID := 8, IsSent := false, SentTS := none }]
    central := []
    centralSeq := 0
    step := 0 }

/-! ## `internal/modules/mail/mail.go` -/

/-- The constant `maxRetries`. -/
def maxRetries : Nat := 3

/-- The constant `retryDelay`. -/
def retryDelay : Duration := 5 * Second

/-- The struct `MailSettings`: a row of `pgb.pgb_mail_settings`. -/
structure MailSettings where
  ID : Int
  SMTPServer : String
  SMTPPort : Int
  IsTLS : Bool
  IsSSL : Bool
  SMTPUser : String
  SMTPPassword : String
  SMTPToken : String
  deriving DecidableEq, Repr

/-- The struct `MailMessage`: a row of `pgb.pgb_mail`, with the columns
`error_message` (nullable), `retry_count` and `created_at` of the table. -/
structure MailMessage where
  ID : Int
  MailSettingID : Int
  HeaderFrom : String
  HeaderTo : String
  HeaderCC : String
  HeaderBCC : String
  Subject : String
  BodyText : String
  IsSent : Bool
  SentTS : Option Nat
  ErrorMessage : Option String
  RetryCount : Int
  CreatedAt : Nat
  deriving DecidableEq, Repr

/-- The persisted state a mail module works on: the two tables, and the
count of external operations performed so far. -/
structure MailDB where
  mails : List MailMessage
  settings : List MailSettings
  step : Nat
  deriving DecidableEq, Repr

/-- The struct `MailModule` (the pool is the tables of `MailDB`). -/
structure MailModule where
  dbName : String
  logger : Option LoggerRef
  deriving DecidableEq, Repr

/-- The call `strings.Split(s, ",")` on the runes of `s`. -/
def splitComma : List Char → List (List Char)
  | [] => [[]]
  | c :: cs =>
    if c = ',' then [] :: splitComma cs
    else
      match splitComma cs with
      | [] => [[c]]
      | piece :: pieces => (c :: piece) :: pieces

/-- The call `strings.TrimSpace` on the runes of a string. -/
def trimSpace (s : List Char) : List Char :=
  ((s.dropWhile isSpaceRune).reverse.dropWhile isSpaceRune).reverse

/-- The method `MailModule.parseEmailList`. -/
def MailModule.parseEmailList (emailList : String) : List String :=
  ((splitComma emailList.toList).map fun part => String.mk (trimSpace part)).filter
    fun email => email != ""

/-- The method `MailModule.collectRecipients`. -/
def MailModule.collectRecipients (mail : MailMessage) : List String :=
  let recipients : List String := []
  let recipients :=
    if mail.HeaderTo != "" then recipients ++ MailModule.parseEmailList mail.HeaderTo else recipients
  let recipients :=
    if mail.HeaderCC != "" then recipients ++ MailModule.parseEmailList mail.HeaderCC else recipients
  let recipients :=
    if mail.HeaderBCC != "" then recipients ++ MailModule.parseEmailList mail.HeaderBCC else recipients
  recipients

/-- An `UPDATE pgb.pgb_mail ... WHERE id = $1`: the statement takes one
step; when it does not fail, `f` is applied to the rows with that id.  The
result carries the error the statement returns. -/
def MailDB.update (env : DbEnv) (db : MailDB) (mailID : Int) (f : MailMessage → MailMessage) :
    Option String × MailDB :=
  match env.fail db.step with
  | some e => (some e, { db with step := db.step + 1 })
  | none =>
    (none,
      { db with
        step := db.step + 1
        mails := db.mails.map fun r => if r.ID == mailID then f r else r })

/-- The method `MailModule.getMailMessage`. -/
def MailModule.getMailMessage (_m : MailModule) (env : DbEnv) (db : MailDB) (mailID : Int) :
    Except String MailMessage × MailDB × List Event :=
  let db1 := { db with step := db.step + 1 }
  match env.fail db.step with
  | some e => (.error ("failed to query mail: " ++ e), db1, [Event.mailSelect mailID])
  | none =>
    match db.mails.find? fun r => r.ID == mailID with
    | none => (.error "failed to query mail: no rows in result set", db1, [Event.mailSelect mailID])
    | some r => (.ok r, db1, [Event.mailSelect mailID])

/-- The method `MailModule.getMailSettings`. -/
def MailModule.getMailSettings (_m : MailModule) (env : DbEnv) (db : MailDB) (settingID : Int) :
    Except String MailSettings × MailDB × List Event :=
  let db1 := { db with step := db.step + 1 }
  match env.fail db.step with
  | some e =>
    (.error ("failed to query mail settings: " ++ e), db1, [Event.mailSettingsSelect settingID])
  | none =>
    match db.settings.find? fun r => r.ID == settingID with
    | none =>
      (.error "failed to query mail settings: no rows in result set", db1,
        [Event.mailSettingsSelect settingID])
    | some r => (.ok r, db1, [Event.mailSettingsSelect settingID])

/-- The method `MailModule.markAsSent`. -/
def MailModule.markAsSent (_m : MailModule) (env : DbEnv) (db : MailDB) (mailID : Int) :
    Option String × MailDB × List Event :=
  match db.update env mailID fun r =>
      { r with IsSent := true, SentTS := some (env.clock db.step), ErrorMessage := none } with
  | (some e, db1) => (some ("failed to mark mail as sent: " ++ e), db1, [Event.mailMarkSent mailID])
  | (none, db1) => (none, db1, [Event.mailMarkSent mailID])

/-- The method `MailModule.recordError`. -/
def MailModule.recordError (_m : MailModule) (env : DbEnv) (db : MailDB) (mailID : Int)
    (errorMsg : String) : Option String × MailDB × List Event :=
  match db.update env mailID fun r => { r with ErrorMessage := some errorMsg } with
  | (err, db1) => (err, db1, [Event.mailRecordError mailID errorMsg])

/-- The method `MailModule.incrementRetryCount`. -/
def MailModule.incrementRetryCount (_m : MailModule) (env : DbEnv) (db : MailDB) (mailID : Int) :
    Option String × MailDB × List Event :=
  match db.update env mailID fun r => { r with RetryCount := r.RetryCount + 1 } with
  | (err, db1) => (err, db1, [Event.mailIncrementRetry mailID])

/-- The method `MailModule.sendSMTP`: no transmission without recipients;
otherwise one transmission, whose error (a server error, or the context
ending first) the environment gives. -/
def MailModule.sendSMTP (_m : MailModule) (env : DbEnv) (db : MailDB) (mail : MailMessage)
    (_settings : MailSettings) : Option String × MailDB × List Event :=
  let recipients := MailModule.collectRecipients mail
  if recipients.length = 0 then
    (some "no recipients specified", db, [])
  else
    (env.fail db.step, { db with step := db.step + 1 }, [Event.smtpSend mail.ID recipients])

/-- The head of one iteration of the retry loop of `sendMail`:
`if attempt > 0 { log; select { case <-ctx.Done(): return ctx.Err(); case <-time.After(retryDelay): } }`.
The first component says whether the context ended the wait. -/
def MailModule.retryWait (m : MailModule) (env : DbEnv) (mailID : Int) (attempt : Nat)
    (db : MailDB) : Bool × MailDB × List Event :=
  if attempt > 0 then
    let t0 := logIf m.logger
      (.LogSystemf .Info "mail" "Retrying email send for mail_id=%d (attempt %d/%d)"
        [toString mailID, toString (attempt + 1), toString maxRetries])
    if env.ctxDone db.step then (true, { db with step := db.step + 1 }, t0)
    else (false, { db with step := db.step + 1 }, t0 ++ [Event.sleep retryDelay])
  else (false, db, [])

/-- The retry loop `for attempt := 0; attempt < maxRetries; attempt++` of
`MailModule.sendMail` together with the code after it, entered at
`attempt` with `remaining = maxRetries - attempt` iterations to go and
`lastErr` the text of the last SMTP error. -/
def MailModule.sendLoop (m : MailModule) (env : DbEnv) (mail : MailMessage)
    (settings : MailSettings) (mailID : Int) :
    Nat → Nat → String → MailDB → Option String × MailDB × List Event
  | 0, _, lastErr, db =>
    let errMsg := "Failed after " ++ toString maxRetries ++ " attempts: " ++ lastErr
    match m.recordError env db mailID errMsg with
    | (_, db1, t1) =>
      let finalErr := "failed to send mail " ++ toString mailID ++ ": " ++ lastErr
      (some finalErr, db1, t1 ++ logIf m.logger (.LogMailFailed m.dbName mailID finalErr))
  | remaining + 1, attempt, _, db =>
    match m.retryWait env mailID attempt db with
    | (true, db0, t0) => (some "context canceled", db0, t0)
    | (false, db0, t0) =>
      match m.sendSMTP env db0 mail settings with
      | (some err, db1, t1) =>
        match m.incrementRetryCount env db1 mailID with
        | (_, db2, t2) =>
          match sendLoop m env mail settings mailID remaining (attempt + 1) err db2 with
          | (r, db3, t3) => (r, db3, t0 ++ t1 ++ t2 ++ t3)
      | (none, db1, t1) =>
        match m.markAsSent env db1 mailID with
        | (r, db2, t2) =>
          (r, db2, t0 ++ t1 ++ logIf m.logger (.LogMailSent m.dbName mailID mail.HeaderTo) ++ t2)

/-- The method `MailModule.sendMail`. -/
def MailModule.sendMail (m : MailModule) (env : DbEnv) (db : MailDB) (mailID : Int) :
    Option String × MailDB × List Event :=
  match m.getMailMessage env db mailID with
  | (.error err, db1, t1) =>
    let mailErr := "failed to retrieve mail " ++ toString mailID ++ ": " ++ err
    (some mailErr, db1, t1 ++ logIf m.logger (.LogMailFailed m.dbName mailID mailErr))
  | (.ok mail, db1, t1) =>
    match m.getMailSettings env db1 mail.MailSettingID with
    | (.error err, db2, t2) =>
      let settingsErr := "failed to retrieve mail settings: " ++ err
      match m.recordError env db2 mailID ("Failed to retrieve mail settings: " ++ err) with
      | (_, db3, t3) =>
        (some settingsErr, db3,
          t1 ++ t2 ++ t3 ++ logIf m.logger (.LogMailFailed m.dbName mailID settingsErr))
    | (.ok settings, db2, t2) =>
      match m.sendLoop env mail settings mailID maxRetries 0 "" db2 with
      | (r, db3, t3) => (r, db3, t1 ++ t2 ++ t3)

/-- The method `MailModule.ProcessNotification`. -/
def MailModule.ProcessNotification (m : MailModule) (env : DbEnv) (db : MailDB)
    (payload : String) : Option String × MailDB × List Event :=
  match sscanfInt payload with
  | .error err => (some ("invalid mail ID in payload '" ++ payload ++ "': " ++ err), db, [])
  | .ok mailID => m.sendMail env db mailID

/-- The result set of `SELECT id FROM pgb.pgb_mail WHERE is_sent = false AND
retry_count < $1 ORDER BY created_at ASC` with `$1 = maxRetries` (rows of
equal `created_at` keep their table order). -/
def MailDB.pending (db : MailDB) : List Int :=
  ((db.mails.filter fun r => !r.IsSent && decide (r.RetryCount < (maxRetries : Int))).insertionSort
      fun a b => a.CreatedAt ≤ b.CreatedAt).map
    fun r => r.ID

/-- The loop `for _, mailID := range mailIDs` of `MailModule.ProcessQueue`. -/
def MailModule.sendAll (m : MailModule) (env : DbEnv) : MailDB → List Int → MailDB × List Event
  | db, [] => (db, [])
  | db, mailID :: rest =>
    match m.sendMail env db mailID with
    | (_, db1, t1) =>
      match sendAll m env db1 rest with
      | (db2, t2) => (db2, t1 ++ t2)

/-- The method `MailModule.ProcessQueue`. -/
def MailModule.ProcessQueue (m : MailModule) (env : DbEnv) (db : MailDB) :
    Option String × MailDB × List Event :=
  let db1 := { db with step := db.step + 1 }
  match env.rows db.step with
  | .queryErr e => (some ("failed to query unsent mails: " ++ e), db1, [Event.mailPending])
  | .scanErr e => (some ("failed to scan mail ID: " ++ e), db1, [Event.mailPending])
  | .iterErr e => (some ("error iterating mail rows: " ++ e), db1, [Event.mailPending])
  | .ok =>
    match m.sendAll env db1 db.pending with
    | (db2, t) => (none, db2, Event.mailPending :: t)

/-- The ids on which a trace starts a send attempt: the row reads of
`getMailMessage`, in order. -/
def mailAttempts (tr : List Event) : List Int :=
  tr.filterMap fun e =>
    match e with
    | .mailSelect id => some id
    | _ => none

/-- A sample mail module. -/
def sampleMail : MailModule := { dbName := "db1", logger := some LoggerRef.main }

/-- A sample mail row, already sent. -/
def sentMail : MailMessage :=
  { ID := 1, MailSettingID := 1, HeaderFrom := "noreply@example.org", HeaderTo := "a@example.org",
    HeaderCC := "", HeaderBCC := "", Subject := "hi", BodyText := "hello", IsSent := true,
    SentTS := some 900, ErrorMessage := none, RetryCount := 0, CreatedAt := 800 }

/-- A sample state: mail 1 already sent, mail 2 pending, one SMTP setting. -/
def sampleMailDB : MailDB :=
  { mails := [sentMail, { sentMail with ID := 2, IsSent := false, SentTS := none }]
    settings := [{ ID := 1, SMTPServer := "smtp.example.org", SMTPPort := 587, IsTLS := true,
                   IsSSL := false, SMTPUser := "", SMTPPassword := "", SMTPToken := "" }]
    step := 0 }

/-- A sample mail with two To addresses, one Cc address and two Bcc
addresses. -/
def recipientsMail : MailMessage :=
  { sentMail with
    HeaderTo := "to1@example.com, to2@example.com"
    HeaderCC := "cc1@example.com"
    HeaderBCC := "bcc1@example.com, bcc2@example.com" }

/-! ## `cmd/pgbridge/main.go`: the bridge -/

/-- The struct `config.DatabaseConfig`. -/
structure DatabaseConfig where
  Name : String
  ConnectionString : String
  ActiveModules : List String
  deriving DecidableEq, Repr

/-- The struct `config.Config`. -/
structure Config where
  Databases : List DatabaseConfig
  deriving DecidableEq, Repr

/-- The three implementations of the interface `Module` that `main` can
construct. -/
inductive Module
  | mail | notify | roles
  deriving DecidableEq, Repr

/-- The method `Name` of the three modules (their constant `moduleName`). -/
def Module.Name : Module → String
  | .mail => "pgb_mail"
  | .notify => "pgb_notify"
  | .roles => "pgb_instance_roles"

/-- The method `GetChannelName` of the three modules (their constant `channelName`). -/
def Module.GetChannelName : Module → String
  | .mail => "pgb_mail"
  | .notify => "pgb_notify"
  | .roles => "pgb_instance_roles"

/-- The method `Stop` of the three modules: each returns `nil`. -/
def Module.Stop : Module → Option String
  | .mail => none
  | .notify => none
  | .roles => none

/-- The `switch moduleName` of `main`: the module built for a configured
identifier, `none` in the `default` case. -/
def moduleOfName (moduleName : String) : Option Module :=
  if moduleName = "pgb_mail" then some .mail
  else if moduleName = "pgb_notify" then some .notify
  else if moduleName = "pgb_instance_roles" then some .roles
  else none

/-- The struct `DatabaseManager`.  The map `listeners` is kept as the list
of its key/value pairs; the order of the list stands for the order in which
a `range` over the map happens to visit them. -/
structure DatabaseManager where
  name : String
  connMgr : ConnectionManager
  modules : List Module
  listeners : List (String × Listener)
  logger : Option LoggerRef
  deriving DecidableEq, Repr

/-- The map assignment `m[key] = value` on the list of pairs of a map. -/
def mapInsert {α : Type} (m : List (String × α)) (key : String) (value : α) : List (String × α) :=
  if m.any (fun kv => kv.1 == key) then
    m.map fun kv => if kv.1 == key then (key, value) else kv
  else m ++ [(key, value)]

/-- The loop `for channel, listener := range mgr.listeners` of `cleanup`. -/
def stopListeners (mgr : DatabaseManager) (log : Option LoggerRef) :
    List (String × Listener) → List Event
  | [] => []
  | (channel, listener) :: rest =>
    logIf log (.LogSystemf .Info "main" "Stopping listener %s/%s" [mgr.name, channel])
      ++ Event.listenerStop listener.dbName listener.channel :: stopListeners mgr log rest

/-- The loop `for _, module := range mgr.modules` of `cleanup`. -/
def stopModules (mgr : DatabaseManager) (log : Option LoggerRef) : List Module → List Event
  | [] => []
  | module :: rest =>
    logIf log (.LogSystemf .Info "main" "Stopping module %s/%s" [mgr.name, module.Name])
      ++ Event.moduleStop mgr.name module.Name ::
        ((match module.Stop with
          | some err => logIf log (.LogModuleError mgr.name module.Name "stop" err)
          | none => [])
          ++ stopModules mgr log rest)

/-- The body of the loop `for _, mgr := range managers` of `cleanup`. -/
def cleanupManager (mgr : DatabaseManager) (log : Option LoggerRef) :
    DatabaseManager × List Event :=
  match mgr.connMgr.Shutdown with
  | (cm, t) =>
    ({ mgr with connMgr := cm },
      logIf log (.LogSystemf .Info "main" "Shutting down database: %s" [mgr.name])
        ++ stopListeners mgr log mgr.listeners
        ++ stopModules mgr log mgr.modules
        ++ t)

/-- The function `cleanup`. -/
def cleanup (managers : List DatabaseManager) (log : Option LoggerRef) :
    List DatabaseManager × List Event :=
  match managers with
  | [] => ([], [])
  | mgr :: rest =>
    match cleanupManager mgr log with
    | (mgr1, t1) =>
      match cleanup rest log with
      | (rest1, t2) => (mgr1 :: rest1, t1 ++ t2)

/-- The steps the shutdown order speaks of: a listener stopped, a module
stopped, a connection manager shut down, a pool closed. -/
def Event.isShutdownStep : Event → Bool
  | .listenerStop _ _ => true
  | .moduleStop _ _ => true
  | .cmShutdown _ => true
  | .poolClose _ => true
  | _ => false

/-- The pools `ConnectionManager.Shutdown` closes: the open pool, on the
first call. -/
def ConnectionManager.poolsClosedByShutdown (cm : ConnectionManager) : List Event :=
  if cm.shutdownOnce then []
  else
    match cm.pool with
    | some p => [Event.poolClose p]
    | none => []

/-- The shutdown steps of one database, in the order the shutdown contract
gives: every listener, then every module, then the connection manager and
its pool. -/
def shutdownOrder (mgr : DatabaseManager) : List Event :=
  (mgr.listeners.map fun kv => Event.listenerStop kv.2.dbName kv.2.channel)
    ++ (mgr.modules.map fun module => Event.moduleStop mgr.name module.Name)
    ++ Event.cmShutdown mgr.connMgr.config.Name :: mgr.connMgr.poolsClosedByShutdown

/-- The environment of start-up: what each fallible step meets, per
database index `i` and, for the steps of a module, per position `j` in
`ActiveModules` (`none` is a `nil` error). -/
structure StartupEnv where
  connect : Nat → ConnectOutcome
  schemaInit : Nat → Option String
  loadCentralConfig : Nat → Nat → Option String
  centralPool : Nat → Nat → Option String
  moduleInitialize : Nat → Nat → Option String
  moduleStart : Nat → Nat → Option String
  processQueue : Nat → Nat → Option String
  listenerStart : Nat → Nat → Option String

/-- The exit path of a failed start-up step inside the module loop:
`cleanup(dbManagers, mainLogger); os.Exit(1)`. -/
def abortStartup (dbManagers : List DatabaseManager) (log : LoggerRef) : List Event :=
  (cleanup dbManagers (some log)).2 ++ [Event.exit 1]

/-- The construction of the module in the `switch moduleName` of `main`:
for `pgb_notify` the central configuration is loaded and the central pool
opened, either of which may fail; the other two are plain constructor
calls.  The second component is `false` when `main` exits here. -/
def constructModule (env : StartupEnv) (dbManagers : List DatabaseManager) (i j : Nat)
    (dbConfig : DatabaseConfig) : Module → List Event × Bool
  | .mail => ([], true)
  | .roles => ([], true)
  | .notify =>
    match env.loadCentralConfig i j with
    | some err =>
      (Event.loadCentralConfig dbConfig.Name ::
        Event.log .main (.LogSystemf .Error "main"
          "Failed to load central config for pgb_notify: %v" [err]) ::
        Event.stderr ("Failed to load central config: " ++ err) ::
        abortStartup dbManagers .main, false)
    | none =>
      match env.centralPool i j with
      | some err =>
        (Event.loadCentralConfig dbConfig.Name :: Event.centralPoolOpen dbConfig.Name ::
          Event.log .main (.LogSystemf .Error "main"
            "Failed to connect to central database: %v" [err]) ::
          abortStartup dbManagers .main, false)
      | none => ([Event.loadCentralConfig dbConfig.Name, Event.centralPoolOpen dbConfig.Name], true)

/-- The loop `for _, moduleName := range dbConfig.ActiveModules` of `main`,
from position `j`.  The second component is `none` when `main` exits
inside the loop. -/
def startModules (env : StartupEnv) (dbManagers : List DatabaseManager) (i : Nat)
    (dbConfig : DatabaseConfig) :
    Nat → List String → DatabaseManager → List Event × Option DatabaseManager
  | _, [], dbMgr => ([], some dbMgr)
  | j, moduleName :: rest, dbMgr =>
    match moduleOfName moduleName with
    | none =>
      match startModules env dbManagers i dbConfig (j + 1) rest dbMgr with
      | (t, r) =>
        (Event.log .main (.LogSystemf .Warn "main" "Unknown module: %s" [moduleName]) :: t, r)
    | some module =>
      match constructModule env dbManagers i j dbConfig module with
      | (t0, false) => (t0, none)
      | (t0, true) =>
        match env.moduleInitialize i j with
        | some err =>
          (t0 ++ Event.moduleInitialize dbConfig.Name module.Name ::
            Event.log .main (.LogModuleError dbConfig.Name moduleName "initialize" err) ::
            Event.stderr ("Failed to initialize module " ++ moduleName ++ " for "
              ++ dbConfig.Name ++ ": " ++ err) ::
            abortStartup dbManagers .main, none)
        | none =>
          match env.moduleStart i j with
          | some err =>
            (t0 ++ Event.moduleInitialize dbConfig.Name module.Name ::
              Event.moduleStart dbConfig.Name module.Name ::
              Event.log .main (.LogModuleError dbConfig.Name moduleName "start" err) ::
              Event.stderr ("Failed to start module " ++ moduleName ++ " for "
                ++ dbConfig.Name ++ ": " ++ err) ::
              abortStartup dbManagers .main, none)
          | none =>
            let dbMgr1 := { dbMgr with modules := dbMgr.modules ++ [module] }
            let t1 := t0 ++ [Event.moduleInitialize dbConfig.Name module.Name,
              Event.moduleStart dbConfig.Name module.Name,
              Event.log .main (.LogModuleStart dbConfig.Name moduleName),
              Event.moduleProcessQueue dbConfig.Name module.Name]
              ++ (match env.processQueue i j with
                  | some err =>
                    [Event.log .main (.LogSystemf .Warn "main"
                      "Queue processing for %s/%s had errors: %v" [dbConfig.Name, moduleName, err])]
                  | none => [])
            let listener : Listener :=
              { dbName := dbConfig.Name, channel := module.GetChannelName, module := module.Name,
                logger := some .main }
            match env.listenerStart i j with
            | some err =>
              (t1 ++ Event.listenerStart dbConfig.Name module.GetChannelName ::
                Event.log .main (.LogListenerError dbConfig.Name module.GetChannelName err) ::
                Event.stderr ("Failed to start listener for " ++ dbConfig.Name ++ "/"
                  ++ moduleName ++ ": " ++ err) ::
                abortStartup dbManagers .main, none)
            | none =>
              let dbMgr2 :=
                { dbMgr1 with
                  listeners := mapInsert dbMgr1.listeners module.GetChannelName listener }
              match startModules env dbManagers i dbConfig (j + 1) rest dbMgr2 with
              | (t, r) =>
                (t1 ++ Event.listenerStart dbConfig.Name module.GetChannelName ::
                  Event.log .main (.LogListenerStarted dbConfig.Name module.GetChannelName) :: t,
                  r)

/-- The body of the loop `for i, dbConfig := range cfg.Databases` of
`main`, for database `i` of `n`, with the managers completed so far.  The
second component is `none` when `main` exits in this iteration. -/
def setupDatabase (env : StartupEnv) (n : Nat) (dbManagers : List DatabaseManager) (i : Nat)
    (dbConfig : DatabaseConfig) : List Event × Option DatabaseManager :=
  let t0 := [Event.log .system (.LogSystemf .Info "main" "Setting up database: %s (%d/%d)"
    [dbConfig.Name, toString (i + 1), toString n])]
  let connMgr := NewConnectionManager
    { Name := dbConfig.Name, ConnectionString := dbConfig.ConnectionString,
      MaxConnections := 0, MinConnections := 0, HealthCheckPeriod := 0 }
    (some .system)
  match connMgr.Connect (env.connect i) with
  | (some err, _, t1) =>
    (t0 ++ t1 ++ Event.log .system (.LogDBConnectError dbConfig.Name err) ::
      Event.stderr ("Failed to connect to database " ++ dbConfig.Name ++ ": " ++ err) ::
      ((cleanup dbManagers (some .system)).2 ++ [Event.exit 1]), none)
  | (none, cm1, t1) =>
    match env.schemaInit i with
    | some err =>
      (t0 ++ t1 ++ Event.schemaInit dbConfig.Name ::
        Event.log .system (.LogSystemf .Error "main" "Failed to initialize schema for %s: %v"
          [dbConfig.Name, err]) ::
        ((cleanup dbManagers (some .system)).2 ++ [Event.exit 1]), none)
    | none =>
      let t2 :=
        if i = 0 then
          [Event.loggerStart cm1.pool,
            Event.log .system (.LogSystemf .Info "main" "Database logging initialized on: %s"
              [dbConfig.Name])]
        else []
      let dbMgr : DatabaseManager :=
        { name := dbConfig.Name, connMgr := cm1, modules := [], listeners := [],
          logger := some .main }
      match startModules env dbManagers i dbConfig 0 dbConfig.ActiveModules dbMgr with
      | (t3, none) => (t0 ++ t1 ++ Event.schemaInit dbConfig.Name :: (t2 ++ t3), none)
      | (t3, some dbMgr1) =>
        match dbMgr1.connMgr.StartHealthCheck with
        | (cm2, t4) =>
          (t0 ++ t1 ++ Event.schemaInit dbConfig.Name :: (t2 ++ t3 ++ t4 ++
              [Event.log .system (.LogSystemf .Info "main" "Database %s ready with %d modules"
                [dbConfig.Name, toString dbMgr1.modules.length])]),
            some { dbMgr1 with connMgr := cm2 })

/-- The loop `for i, dbConfig := range cfg.Databases` of `main`, from
database `i` of `n`.  The second component is the final `dbManagers`,
`none` when `main` exits during start-up. -/
def setupDatabases (env : StartupEnv) (n : Nat) :
    Nat → List DatabaseConfig → List DatabaseManager → List Event × Option (List DatabaseManager)
  | _, [], dbManagers => ([], some dbManagers)
  | i, dbConfig :: rest, dbManagers =>
    match setupDatabase env n dbManagers i dbConfig with
    | (t, none) => (t, none)
    | (t, some dbMgr) =>
      match setupDatabases env n (i + 1) rest (dbManagers ++ [dbMgr]) with
      | (t2, r) => (t ++ t2, r)

/-- The start-up part of `main` for a loaded configuration. -/
def startup (env : StartupEnv) (cfg : Config) : List Event × Option (List DatabaseManager) :=
  setupDatabases env cfg.Databases.length 0 cfg.Databases []

/-- The steps the start-up order speaks of. -/
def Event.isStartupStep : Event → Bool
  | .cmConnect _ => true
  | .schemaInit _ => true
  | .moduleInitialize _ _ => true
  | .moduleStart _ _ => true
  | .moduleProcessQueue _ _ => true
  | .listenerStart _ _ => true
  | .healthCheckStart _ => true
  | _ => false

/-- The four start-up steps of one module of a database, in order. -/
def moduleStartupOrder (db : String) (module : Module) : List Event :=
  [Event.moduleInitialize db module.Name, Event.moduleStart db module.Name,
    Event.moduleProcessQueue db module.Name, Event.listenerStart db module.GetChannelName]

/-- The start-up steps of one database, in order: connect, schema
bootstrap, the four steps of each module that `main` recognises, in list
order, and the health check. -/
def startupOrder (dbConfig : DatabaseConfig) : List Event :=
  [Event.cmConnect dbConfig.Name, Event.schemaInit dbConfig.Name]
    ++ ((dbConfig.ActiveModules.filterMap moduleOfName).map
          fun module => moduleStartupOrder dbConfig.Name module).flatten
    ++ [Event.healthCheckStart dbConfig.Name]

/-- The entry `EventServiceStop` that `main` logs after `cleanup`. -/
def serviceStopEntry : LogEntry :=
  { EventType := "SERVICE_STOP", DatabaseName := "", ModuleName := "", Message := "pgbridge stopped" }

/-- The end of `main`, from the receive on `sigChan`: the shutdown log
line, `cleanup`, the service-stop entry and `mainLogger.Shutdown()`.
`mainLogger` is the main logger as it stands when the signal arrives
(`none` when it is `nil`); its lines on the local stream are events of the
trace.  The result is `none` if `main` blocks. -/
def shutdownSequence (env : WriterEnv) (dbManagers : List DatabaseManager)
    (mainLogger : Option Logger) : Option (List DatabaseManager × Option Logger × List Event) :=
  let ref := mainLogger.map fun _ => LoggerRef.main
  let t0 := Event.signal :: Event.stdout "\n\n⏳ Shutting down gracefully..." ::
    logIf ref (.LogSystemf .Info "main" "Received shutdown signal" [])
  match cleanup dbManagers ref with
  | (managers, t1) =>
    match mainLogger with
    | none => some (managers, none, t0 ++ t1 ++ [Event.stdout "✓ Shutdown complete"])
    | some l =>
      match l.LogDatabase serviceStopEntry (env.pick 0) with
      | none => none
      | some l1 =>
        match l1.Shutdown env with
        | (l2, t2) =>
          some (managers, some l2,
            t0 ++ t1 ++ Event.log .main (.Log .Info "main" "SERVICE_STOP" "pgbridge stopped") ::
              (t2 ++ [Event.stdout "✓ Shutdown complete"]))

/-- A sample configuration: one database with the mail module and an
identifier `main` does not know. -/
def sampleConfig : Config :=
  { Databases := [{ Name := "db1", ConnectionString := "postgres://h/db1",
                    ActiveModules := ["pgb_mail", "pgb_sms"] }] }

/-- A start-up environment in which every step succeeds; database `i` gets pool `100 + i`. -/
def calmStartupEnv : StartupEnv :=
  { connect := fun i => ConnectOutcome.ok (100 + i)
    schemaInit := fun _ => none
    loadCentralConfig := fun _ _ => none
    centralPool := fun _ _ => none
    moduleInitialize := fun _ _ => none
    moduleStart := fun _ _ => none
    processQueue := fun _ _ => none
    listenerStart := fun _ _ => none }

/-- A writer environment in which every `INSERT` is issued without the
flush deadline passing; each returns the error of a closed pool. -/
def closedPoolWriterEnv : WriterEnv :=
  { exec := fun _ => some "closed pool", deadline := fun _ => false, pick := fun _ => 0 }

/-- The main logger `main` creates on pool 100 and starts, with every
earlier entry already written by the writer goroutine. -/
def sampleMainLogger : Logger := (NewLogger "pgbridge" (some 100)).Start

/-- Every fallible start-up step succeeds (the catch-up scan, whose error
`main` only logs, is left free). -/
def StartupEnv.allSucceed (env : StartupEnv) : Prop :=
  (∀ i, (env.connect i).succeeds = true)
    ∧ (∀ i, env.schemaInit i = none)
    ∧ (∀ i j, env.loadCentralConfig i j = none)
    ∧ (∀ i j, env.centralPool i j = none)
    ∧ (∀ i j, env.moduleInitialize i j = none)
    ∧ (∀ i j, env.moduleStart i j = none)
    ∧ (∀ i j, env.listenerStart i j = none)

/-! ## `internal/database/connection.go`: health check, repeated shutdown -/

/-- The method `ConnectionManager.Ping`; `probe` is what `pool.Ping`
returns when the pool is there to be probed. -/
def ConnectionManager.Ping (cm : ConnectionManager) (probe : Option String) :
    Option String × List Event :=
  match cm.pool with
  | none => (some "connection pool is nil", [])
  | some p => (probe, [Event.poolPing p probe.isNone])

/-- The method `ConnectionManager.handleConnectionLoss`. -/
def ConnectionManager.handleConnectionLoss (cm : ConnectionManager) :
    ConnectionManager × List Event :=
  let wasConnected := cm.isConnected
  let cm1 := { cm with isConnected := false }
  if wasConnected then (cm1, [Event.reconnectLaunch cm.config.Name]) else (cm1, [])

/-- The body of `case <-ticker.C:` in `healthCheckLoop`: one health-check tick. -/
def ConnectionManager.healthCheckTick (cm : ConnectionManager) (probe : Option String) :
    ConnectionManager × List Event :=
  match cm.Ping probe with
  | (some err, t) =>
    match cm.handleConnectionLoss with
    | (cm1, t1) => (cm1, t ++ logIf cm.logger (.LogHealthCheckFail cm.config.Name err) ++ t1)
  | (none, t) => (cm, t ++ logIf cm.logger (.LogHealthCheck cm.config.Name))

/-- The cases of the `select` in `healthCheckLoop`. -/
inductive TickerCase
  | shutdown | ctxDone | tick
  deriving DecidableEq, Repr

/-- The environment of one run of `healthCheckLoop`, per loop iteration
(0-based): which case the `select` takes, what the probe returns, and
what other goroutines (a `Reconnect` launched earlier) have done to the
manager since the previous iteration. -/
structure HealthEnv where
  select : Nat → TickerCase
  probe : Nat → Option String
  interfere : Nat → ConnectionManager → ConnectionManager

/-- The method `ConnectionManager.healthCheckLoop`, from iteration `k`;
`fuel` bounds the number of iterations run, and the result is `none` when
the loop is still running after them.  On return `defer cm.wg.Done()` runs. -/
def ConnectionManager.healthCheckLoop (env : HealthEnv) :
    Nat → Nat → ConnectionManager → Option (ConnectionManager × List Event)
  | 0, _, _ => none
  | fuel + 1, k, cm =>
    let cm0 := env.interfere k cm
    match env.select k with
    | .shutdown => some ({ cm0 with wg := cm0.wg - 1 }, [])
    | .ctxDone => some ({ cm0 with wg := cm0.wg - 1 }, [])
    | .tick =>
      match cm0.healthCheckTick (env.probe k) with
      | (cm1, t) => (healthCheckLoop env fuel (k + 1) cm1).map fun r => (r.1, t ++ r.2)

/-- The calls `cm.Shutdown(); ...; cm.Shutdown()`: `k` calls in succession. -/
def ConnectionManager.shutdownTimes : Nat → ConnectionManager → ConnectionManager × List Event
  | 0, cm => (cm, [])
  | k + 1, cm =>
    match cm.Shutdown with
    | (cm1, t1) =>
      match shutdownTimes k cm1 with
      | (cm2, t2) => (cm2, t1 ++ t2)

/-- Whether a `select` of `Reconnect` observed the shutdown signal or the
cancellation of the context at iteration `i`. -/
def ReconnectEnv.observes (env : ReconnectEnv) (i : Nat) : Bool :=
  env.selectTop i != Signal.none || env.selectWait i != Signal.none

/-- A sample manager that is Connected on pool 5. -/
def connectedManager : ConnectionManager :=
  { sampleManager with pool := some 5, isConnected := true }

/-- A sample environment of `Reconnect`: every probe fails, no signal. -/
def downReconnectEnv : ReconnectEnv :=
  { selectTop := fun _ => Signal.none
    connect := fun i => ConnectOutcome.pingFail i "connection refused"
    selectWait := fun _ => Signal.none }

/-- A sample environment of `Reconnect`: every probe fails, and the
shutdown signal arrives during the third wait. -/
def interruptedReconnectEnv : ReconnectEnv :=
  { selectTop := fun _ => Signal.none
    connect := fun i => ConnectOutcome.pingFail i "connection refused"
    selectWait := fun i => if i < 2 then Signal.none else Signal.shutdown }

/-- A sample environment of the health check: two ticks whose probes fail,
then shutdown; the manager is left alone in between. -/
def downHealthEnv : HealthEnv :=
  { select := fun k => if k < 2 then TickerCase.tick else TickerCase.shutdown
    probe := fun _ => some "connection refused"
    interfere := fun _ cm => cm }

/-- The main logger of the samples after `Shutdown()` has returned. -/
def stoppedLogger : Logger := (sampleMainLogger.Shutdown closedPoolWriterEnv).1

/-- The events of a health-check tick that the tick contract speaks of:
a failed-probe log line and the launch of a `Reconnect`. -/
def Event.isHealthOutcome : Event → Bool
  | .reconnectLaunch _ => true
  | .log _ (.LogHealthCheckFail _ _) => true
  | _ => false

/-- The launches of a `Reconnect` in a trace. -/
def reconnectLaunches (tr : List Event) : List Event :=
  tr.filter fun e =>
    match e with
    | .reconnectLaunch _ => true
    | _ => false

/-! ## The start-up contract as a plan -/

/-- Fail-fast execution of a plan.  A plan lists steps in order, each
with whether it fails fatally; the steps are run up to and including the
first fatal one.  The result is the steps run and whether all of them
passed. -/
def runFailFast : List (Event × Bool) → List Event × Bool
  | [] => ([], true)
  | (e, fatal) :: rest =>
    if fatal then ([e], false)
    else
      match runFailFast rest with
      | (t, ok) => (e :: t, ok)

/-- The planned steps of one recognised module at position `j` of database
`i`: for `pgb_notify` the central configuration and pool first, then
`Initialize`, `Start`, `ProcessQueue` (whose error is never fatal) and
`Listener.Start`. -/
def planModule (env : StartupEnv) (i j : Nat) (db : String) (module : Module) :
    List (Event × Bool) :=
  (match module with
    | .notify =>
      [(Event.loadCentralConfig db, (env.loadCentralConfig i j).isSome),
        (Event.centralPoolOpen db, (env.centralPool i j).isSome)]
    | _ => [])
    ++ [(Event.moduleInitialize db module.Name, (env.moduleInitialize i j).isSome),
        (Event.moduleStart db module.Name, (env.moduleStart i j).isSome),
        (Event.moduleProcessQueue db module.Name, false),
        (Event.listenerStart db module.GetChannelName, (env.listenerStart i j).isSome)]

/-- The planned steps of the configured module identifiers of database
`i`, from position `j`; an identifier `main` does not recognise has no step. -/
def planModules (env : StartupEnv) (i : Nat) (db : String) :
    Nat → List String → List (Event × Bool)
  | _, [] => []
  | j, moduleName :: rest =>
    (match moduleOfName moduleName with
      | none => []
      | some module => planModule env i j db module)
      ++ planModules env i db (j + 1) rest

/-- The planned steps of database `i`: connect, schema bootstrap, the
module steps, and the start of the health check (which cannot fail). -/
def planDatabase (env : StartupEnv) (i : Nat) (dbConfig : DatabaseConfig) : List (Event × Bool) :=
  [(Event.cmConnect dbConfig.Name, !(env.connect i).succeeds),
    (Event.schemaInit dbConfig.Name, (env.schemaInit i).isSome)]
    ++ planModules env i dbConfig.Name 0 dbConfig.ActiveModules
    ++ [(Event.healthCheckStart dbConfig.Name, false)]

/-- The planned steps of the databases from index `i` on. -/
def planDatabases (env : StartupEnv) : Nat → List DatabaseConfig → List (Event × Bool)
  | _, [] => []
  | i, dbConfig :: rest => planDatabase env i dbConfig ++ planDatabases env (i + 1) rest

/-- The start-up plan of a configuration. -/
def startupPlan (env : StartupEnv) (cfg : Config) : List (Event × Bool) :=
  planDatabases env 0 cfg.Databases

/-- The steps of a start-up plan: the start-up steps and the two
construction steps of a `pgb_notify` module. -/
def Event.isPlanStep : Event → Bool
  | .cmConnect _ => true
  | .schemaInit _ => true
  | .loadCentralConfig _ => true
  | .centralPoolOpen _ => true
  | .moduleInitialize _ _ => true
  | .moduleStart _ _ => true
  | .moduleProcessQueue _ _ => true
  | .listenerStart _ _ => true
  | .healthCheckStart _ => true
  | _ => false

/-- A start-up environment in which only the catch-up scans fail. -/
def failingScanEnv : StartupEnv :=
  { calmStartupEnv with processQueue := fun _ _ => some "failed to query unsent mails" }

/-- A sample configuration of two databases: `db1` with the mail module,
`db2` with the mail and the notify module. -/
def twoDatabaseConfig : Config :=
  { Databases :=
      [{ Name := "db1", ConnectionString := "postgres://h/db1", ActiveModules := ["pgb_mail"] },
       { Name := "db2", ConnectionString := "postgres://h/db2",
         ActiveModules := ["pgb_mail", "pgb_notify"] }] }

/-- A start-up environment in which every step succeeds except the
loading of the central configuration for a `pgb_notify` module. -/
def noCentralConfigEnv : StartupEnv :=
  { calmStartupEnv with
    loadCentralConfig := fun _ _ => some "open /etc/pgbridge/central.conf: no such file or directory" }

/-! ## `internal/config/config.go` -/

/-- The method `DatabaseConfig.Validate`. -/
def DatabaseConfig.Validate (dc : DatabaseConfig) : Option String :=
  if dc.Name = "" then
    some "missing database name in configuration"
  else if dc.ConnectionString = "" then
    some ("missing connection string in configuration for database " ++ dc.Name)
  else if dc.ActiveModules.length = 0 then
    some ("at least one module must be enabled in configuration for database " ++ dc.Name)
  else none

/-- The loop `for _, db := range c.Databases` of `Config.Validate`;
`names` lists the keys set in the map `names` so far. -/
def validateDatabases : List String → List DatabaseConfig → Option String
  | _, [] => none
  | names, db :: rest =>
    if names.contains db.Name then
      some ("duplicate database name: '" ++ db.Name ++ "'")
    else
      match db.Validate with
      | some err => some err
      | none => validateDatabases (db.Name :: names) rest

/-- The method `Config.Validate`. -/
def Config.Validate (c : Config) : Option String :=
  if c.Databases.length = 0 then some "no databases configured"
  else validateDatabases [] c.Databases

/-- The listener starts of a trace, in order. -/
def listenerStarts (tr : List Event) : List Event :=
  tr.filter fun e =>
    match e with
    | .listenerStart _ _ => true
    | _ => false

/-- The listeners a manager holds in its map, each as the start that created it. -/
def DatabaseManager.heldListeners (mgr : DatabaseManager) : List Event :=
  mgr.listeners.map fun kv => Event.listenerStart kv.2.dbName kv.2.channel

/-- A sample configuration that names the mail module twice for `db1`. -/
def repeatedModuleConfig : Config :=
  { Databases := [{ Name := "db1", ConnectionString := "postgres://h/db1",
                    ActiveModules := ["pgb_mail", "pgb_mail"] }] }

/-- The map entry `main` registers for a module of database `db`: the
channel name as key, and the listener built for the module. -/
def listenerOf (db : String) (module : Module) : String × Listener :=
  (module.GetChannelName,
    { dbName := db, channel := module.GetChannelName, module := module.Name,
      logger := some LoggerRef.main })

/-- The listener starts of a database when every recognised module of its
list gets one: per module, in list order. -/
def plannedListenerStarts (dbConfig : DatabaseConfig) : List Event :=
  (dbConfig.ActiveModules.filterMap moduleOfName).map
    fun module => Event.listenerStart dbConfig.Name module.GetChannelName

/-! ## Module `Initialize`: the schema statements and the catalogue -/

/-- A schema-qualified name `schema.name`, as the statements write it. -/
abbrev QName := String × String

/-- A relation of the catalogue.  Tables and indexes share one name space
within a schema. -/
inductive Relation
  | table (columns : List String)
  | index (table : QName) (column : String) (predicate : Option String)
  deriving DecidableEq, Repr

/-- The target of a `COMMENT ON` statement. -/
inductive DbObject
  | table (name : QName)
  | column (table : QName) (column : String)
  | function (name : QName)
  | trigger (name : String) (table : QName)
  deriving DecidableEq, Repr

/-- The persisted schema objects of one database: its schemas, relations
(tables with their columns, indexes with their definition), functions (return
type and body), triggers (per table, with the function they execute) and
comments.  A sequence owned by a `SERIAL` column and the constraints of a
table are part of the table. -/
structure Catalog where
  schemas : String → Bool
  relations : QName → Option Relation
  functions : QName → Option (String × String)
  triggers : String × QName → Option QName
  comments : DbObject → Option String

/-- Whether `table` is a table with a column `column`. -/
def Catalog.hasColumn (c : Catalog) (table : QName) (column : String) : Bool :=
  match c.relations table with
  | some (.table columns) => decide (column ∈ columns)
  | _ => false

/-- Whether the object a `COMMENT ON` names exists. -/
def Catalog.hasObject (c : Catalog) : DbObject → Bool
  | .table name =>
    match c.relations name with
    | some (.table _) => true
    | _ => false
  | .column table column => c.hasColumn table column
  | .function name => (c.functions name).isSome
  | .trigger name table => (c.triggers (name, table)).isSome

/-- The statements the modules send, by their effect on the catalogue. -/
inductive Statement
  /-- The statement `CREATE TABLE IF NOT EXISTS table (columns, FOREIGN KEY ... REFERENCES ...)`. -/
  | createTableIfNotExists (table : QName) (columns : List String)
      (references : List (QName × String))
  /-- The statement `CREATE INDEX IF NOT EXISTS index ON table(column) [WHERE predicate]`. -/
  | createIndexIfNotExists (index : String) (table : QName) (column : String)
      (predicate : Option String)
  /-- The statement `CREATE OR REPLACE FUNCTION function() RETURNS returns AS body`. -/
  | createOrReplaceFunction (function : QName) (returns body : String)
  /-- The statement `DROP TRIGGER IF EXISTS trigger ON table`. -/
  | dropTriggerIfExists (trigger : String) (table : QName)
  /-- The statement `CREATE TRIGGER trigger ... ON table ... EXECUTE FUNCTION function()`. -/
  | createTrigger (trigger : String) (table : QName) (function : QName)
  /-- The statement `COMMENT ON object IS text`. -/
  | commentOn (object : DbObject) (text : String)
  deriving DecidableEq, Repr

/-- What PostgreSQL does with one statement: the new catalogue, or the
error it raises.  `IF NOT EXISTS` turns an existing relation of that name
into a notice and no change; `CREATE OR REPLACE` overwrites the body but
refuses a different return type; `DROP TRIGGER IF EXISTS` removes the
trigger together with its comment; `CREATE TRIGGER` refuses an existing
trigger of that name on the table; `COMMENT ON` needs its object to exist
and overwrites the comment. -/
def Statement.apply (c : Catalog) : Statement → Except String Catalog
  | .createTableIfNotExists table columns references =>
    if c.schemas table.1 = false then
      .error ("schema does not exist: " ++ table.1)
    else if (c.relations table).isSome then .ok c
    else if references.all (fun r => c.hasColumn r.1 r.2) then
      .ok { c with relations := Function.update c.relations table (some (.table columns)) }
    else .error "referenced relation does not exist"
  | .createIndexIfNotExists index table column predicate =>
    if c.hasColumn table column then
      if (c.relations (table.1, index)).isSome then .ok c
      else
        .ok { c with
          relations :=
            Function.update c.relations (table.1, index) (some (.index table column predicate)) }
    else .error ("column does not exist: " ++ column)
  | .createOrReplaceFunction function returns body =>
    if c.schemas function.1 = false then
      .error ("schema does not exist: " ++ function.1)
    else
      match c.functions function with
      | some (r, _) =>
        if r = returns then
          .ok { c with functions := Function.update c.functions function (some (returns, body)) }
        else .error "cannot change return type of existing function"
      | none =>
        .ok { c with functions := Function.update c.functions function (some (returns, body)) }
  | .dropTriggerIfExists trigger table =>
    .ok { c with
      triggers := Function.update c.triggers (trigger, table) none
      comments := Function.update c.comments (.trigger trigger table) none }
  | .createTrigger trigger table function =>
    match c.relations table with
    | some (.table _) =>
      match c.functions function with
      | some (r, _) =>
        if r = "trigger" then
          if (c.triggers (trigger, table)).isSome then
            .error ("trigger already exists: " ++ trigger)
          else .ok { c with triggers := Function.update c.triggers (trigger, table) (some function) }
        else .error "function must return type trigger"
      | none => .error "function does not exist"
    | _ => .error ("relation does not exist: " ++ table.2)
  | .commentOn object text =>
    if c.hasObject object then
      .ok { c with comments := Function.update c.comments object (some text) }
    else .error "object does not exist"

/-- The statements of one query string, in order, stopping at the first
error. -/
def runStatements : List Statement → Catalog → Except String Catalog
  | [], c => .ok c
  | s :: rest, c =>
    match s.apply c with
    | .error e => .error e
    | .ok c1 => runStatements rest c1

/-- The persisted schema state a module initialises: the catalogue of the
source database, the catalogue of the central database, and the count of
external operations performed so far. -/
structure SchemaDB where
  source : Catalog
  central : Catalog
  step : Nat

/-- The call `pool.Exec(ctx, query)` on the source pool with a query string
of several statements and no arguments: the statements run as one implicit
transaction, so an error leaves the catalogue as it was.  The call fails
when the environment says so (the connection) or when a statement does. -/
def SchemaDB.Exec (env : DbEnv) (db : SchemaDB) (query : List Statement) :
    Option String × SchemaDB :=
  match env.fail db.step with
  | some e => (some e, { db with step := db.step + 1 })
  | none =>
    match runStatements query db.source with
    | .error e => (some e, { db with step := db.step + 1 })
    | .ok c => (none, { db with source := c, step := db.step + 1 })

/-- The table `pgb.pgb_mail_settings`. -/
def mailSettingsTable : QName := ("pgb", "pgb_mail_settings")

/-- The table `pgb.pgb_mail`. -/
def mailTable : QName := ("pgb", "pgb_mail")

/-- The table `pgb.pgb_notify`. -/
def notifyTable : QName := ("pgb", "pgb_notify")

/-- The function `pgb.trg_pgb_send_notification`. -/
def notifyFunction : QName := ("pgb", "trg_pgb_send_notification")

/-- The query string of `MailModule.createMailSettingsTable`. -/
def mailSettingsTableSQL : List Statement :=
  [ .createTableIfNotExists mailSettingsTable
      ["id", "smtp_server", "smtp_port", "is_tls", "is_ssl", "smtp_user", "smtp_password",
        "smtp_token", "created_at", "updated_at"] [],
    .commentOn (.table mailSettingsTable) "SMTP server configuration for pgbridge mail module",
    .commentOn (.column mailSettingsTable "is_tls") "Use STARTTLS encryption",
    .commentOn (.column mailSettingsTable "is_ssl") "Use SSL/TLS from the start",
    .commentOn (.column mailSettingsTable "smtp_token") "API token for token-based authentication" ]

/-- The query string of `MailModule.createMailTable`. -/
def mailTableSQL : List Statement :=
  [ .createTableIfNotExists mailTable
      ["id", "mail_setting_id", "header_from", "header_to", "header_cc", "header_bcc", "subject",
        "body_text", "is_sent", "sent_ts", "error_message", "retry_count", "created_at",
        "updated_at"]
      [(mailSettingsTable, "id")],
    .commentOn (.table mailTable) "Email queue for pgbridge mail module",
    .commentOn (.column mailTable "header_to") "Comma-separated list of recipient email addresses",
    .commentOn (.column mailTable "header_cc") "Comma-separated list of CC email addresses",
    .commentOn (.column mailTable "header_bcc") "Comma-separated list of BCC email addresses",
    .commentOn (.column mailTable "retry_count") "Number of send attempts" ]

/-- The slice `indexes` of `MailModule.createIndexes`, one query string each. -/
def mailIndexesSQL : List (List Statement) :=
  [ [.createIndexIfNotExists "idx_pgb_mail_is_sent" mailTable "is_sent" (some "is_sent = false")],
    [.createIndexIfNotExists "idx_pgb_mail_created_at" mailTable "created_at" none],
    [.createIndexIfNotExists "idx_pgb_mail_setting_id" mailTable "mail_setting_id" none] ]

/-- The loop `for _, index := range indexes` of `createIndexes` (both
modules): one `Exec` per query string, returning at the first error. -/
def execEach (env : DbEnv) : SchemaDB → List (List Statement) → Option String × SchemaDB
  | db, [] => (none, db)
  | db, query :: rest =>
    match db.Exec env query with
    | (some err, db1) => (some err, db1)
    | (none, db1) => execEach env db1 rest

/-- The method `MailModule.createMailSettingsTable`. -/
def MailModule.createMailSettingsTable (_m : MailModule) (env : DbEnv) (db : SchemaDB) :
    Option String × SchemaDB :=
  db.Exec env mailSettingsTableSQL

/-- The method `MailModule.createMailTable`. -/
def MailModule.createMailTable (_m : MailModule) (env : DbEnv) (db : SchemaDB) :
    Option String × SchemaDB :=
  db.Exec env mailTableSQL

/-- The method `MailModule.createIndexes`. -/
def MailModule.createIndexes (_m : MailModule) (env : DbEnv) (db : SchemaDB) :
    Option String × SchemaDB :=
  execEach env db mailIndexesSQL

/-- The error return of `Initialize` (mail and notify): wrap the error,
log it when there is a logger, return it. -/
def initError (lg : Option LoggerRef) (dbName moduleName : String) (what err : String)
    (db : SchemaDB) (tr : List Event) : Option String × SchemaDB × List Event :=
  (some (what ++ ": " ++ err), db,
    tr ++ logIf lg (.LogModuleError dbName moduleName "initialize" (what ++ ": " ++ err)))

/-- The method `MailModule.Initialize`. -/
def MailModule.Initialize (m : MailModule) (env : DbEnv) (db : SchemaDB) :
    Option String × SchemaDB × List Event :=
  let t0 := logIf m.logger (.LogModuleInit m.dbName "pgb_mail")
  match m.createMailSettingsTable env db with
  | (some err, db1) =>
    initError m.logger m.dbName "pgb_mail" "failed to create mail_settings table" err db1 t0
  | (none, db1) =>
    match m.createMailTable env db1 with
    | (some err, db2) =>
      initError m.logger m.dbName "pgb_mail" "failed to create mail table" err db2 t0
    | (none, db2) =>
      match m.createIndexes env db2 with
      | (some err, db3) =>
        initError m.logger m.dbName "pgb_mail" "failed to create indexes" err db3 t0
      | (none, db3) =>
        (none, db3,
          t0 ++ logIf m.logger (.LogSystemf .Info "mail"
            "Mail module initialized successfully for database: %s" [m.dbName]))

/-- The query string of `NotifyModule.createNotificationTable`. -/
def notifyTableSQL : List Statement :=
  [ .createTableIfNotExists notifyTable
      ["id", "user_email", "sender_db", "message", "message_link", "criticality", "is_sent",
        "sent_ts", "created_at", "updated_at"] [],
    .commentOn (.table notifyTable) "Notification queue for pgbridge notify module",
    .commentOn (.column notifyTable "criticality")
      "Criticality level: 1=Info, 2=Low, 3=Medium, 4=High, 5=Critical",
    .commentOn (.column notifyTable "is_sent") "Whether notification was sent to central database" ]

/-- The slice `indexes` of `NotifyModule.createIndexes`, one query string each. -/
def notifyIndexesSQL : List (List Statement) :=
  [ [.createIndexIfNotExists "idx_pgb_notify_is_sent" notifyTable "is_sent"
      (some "is_sent = false")],
    [.createIndexIfNotExists "idx_pgb_notify_user_email" notifyTable "user_email" none],
    [.createIndexIfNotExists "idx_pgb_notify_created_at" notifyTable "created_at" none] ]

/-- The query string `functionSQL` of `NotifyModule.createTriggers`. -/
def notifyFunctionSQL : List Statement :=
  [ .createOrReplaceFunction notifyFunction "trigger"
      "BEGIN PERFORM pg_notify('pgb_notify', NEW.id::text); RETURN NEW; END;",
    .commentOn (.function notifyFunction)
      "Automatically sends NOTIFY when notification is inserted" ]

/-- The query string `triggerSQL` of `NotifyModule.createTriggers`. -/
def notifyTriggerSQL : List Statement :=
  [ .dropTriggerIfExists "S01_send_notification" notifyTable,
    .createTrigger "S01_send_notification" notifyTable notifyFunction,
    .commentOn (.trigger "S01_send_notification" notifyTable)
      "Automatically triggers notification forwarding on insert" ]

/-- The method `NotifyModule.createNotificationTable`. -/
def NotifyModule.createNotificationTable (_n : NotifyModule) (env : DbEnv) (db : SchemaDB) :
    Option String × SchemaDB :=
  db.Exec env notifyTableSQL

/-- The method `NotifyModule.createIndexes`. -/
def NotifyModule.createIndexes (_n : NotifyModule) (env : DbEnv) (db : SchemaDB) :
    Option String × SchemaDB :=
  execEach env db notifyIndexesSQL

/-- The method `NotifyModule.createTriggers`. -/
def NotifyModule.createTriggers (_n : NotifyModule) (env : DbEnv) (db : SchemaDB) :
    Option String × SchemaDB :=
  match db.Exec env notifyFunctionSQL with
  | (some err, db1) => (some ("failed to create trigger function: " ++ err), db1)
  | (none, db1) =>
    match db1.Exec env notifyTriggerSQL with
    | (some err, db2) => (some ("failed to create trigger: " ++ err), db2)
    | (none, db2) => (none, db2)

/-- The table `public.ps_notifications` of the central database. -/
def centralTable : QName := ("public", "ps_notifications")

/-- The method `NotifyModule.verifyCentralTable`: one query on the central
pool, which may fail, and whose answer is whether the central table exists. -/
def NotifyModule.verifyCentralTable (_n : NotifyModule) (env : DbEnv) (db : SchemaDB) :
    Option String × SchemaDB :=
  match env.fail db.step with
  | some err => (some ("failed to check central table: " ++ err), { db with step := db.step + 1 })
  | none =>
    if db.central.hasObject (.table centralTable) then (none, { db with step := db.step + 1 })
    else
      (some "central table public.ps_notifications does not exist",
        { db with step := db.step + 1 })

/-- The method `NotifyModule.Initialize`. -/
def NotifyModule.Initialize (n : NotifyModule) (env : DbEnv) (db : SchemaDB) :
    Option String × SchemaDB × List Event :=
  let t0 := logIf n.logger (.LogModuleInit n.sourceName "pgb_notify")
  match n.createNotificationTable env db with
  | (some err, db1) =>
    initError n.logger n.sourceName "pgb_notify" "failed to create notification table" err db1 t0
  | (none, db1) =>
    match n.createIndexes env db1 with
    | (some err, db2) =>
      initError n.logger n.sourceName "pgb_notify" "failed to create indexes" err db2 t0
    | (none, db2) =>
      match n.createTriggers env db2 with
      | (some err, db3) =>
        initError n.logger n.sourceName "pgb_notify" "failed to create triggers" err db3 t0
      | (none, db3) =>
        match n.verifyCentralTable env db3 with
        | (some err, db4) =>
          initError n.logger n.sourceName "pgb_notify" "failed to verify central table" err db4 t0
        | (none, db4) =>
          (none, db4,
            t0 ++ logIf n.logger (.LogSystemf .Info "notify"
              "Notify module initialized successfully for database: %s" [n.sourceName]))

/-- The struct `RolesModule` (its central pool is not used by `Initialize`). -/
structure RolesModule where
  logger : Option LoggerRef
  deriving DecidableEq, Repr

/-- The method `RolesModule.Initialize`: two log lines, no statement. -/
def RolesModule.Initialize (r : RolesModule) (_env : DbEnv) (db : SchemaDB) :
    Option String × SchemaDB × List Event :=
  (none, db,
    logIf r.logger (.LogSystemf .Info "pgb_instance_roles" "Initializing %s module"
      ["pgb_instance_roles"]) ++
    logIf r.logger (.LogSystemf .Info "pgb_instance_roles" "Module %s initialized successfully"
      ["pgb_instance_roles"]))

/-- A value of the interface `modules.Module`: one of its three
implementations. -/
inductive ModuleInstance
  | mail (m : MailModule)
  | notify (n : NotifyModule)
  | roles (r : RolesModule)
  deriving DecidableEq, Repr

/-- The interface call `module.Initialize(ctx, pool)`. -/
def ModuleInstance.Initialize : ModuleInstance → DbEnv → SchemaDB →
    Option String × SchemaDB × List Event
  | .mail m => m.Initialize
  | .notify n => n.Initialize
  | .roles r => r.Initialize

/-- The query strings `MailModule.Initialize` sends, in order. -/
def mailInitializeSQL : List (List Statement) :=
  [mailSettingsTableSQL, mailTableSQL] ++ mailIndexesSQL

/-- The query strings `NotifyModule.Initialize` sends to the source
database, in order. -/
def notifyInitializeSQL : List (List Statement) :=
  [notifyTableSQL] ++ notifyIndexesSQL ++ [notifyFunctionSQL, notifyTriggerSQL]

/-- What a statement leaves true of the catalogue once it has run: the
relation, function, trigger or comment it asks for is there. -/
def Statement.established (c : Catalog) : Statement → Prop
  | .createTableIfNotExists table _ _ => c.schemas table.1 = true ∧ (c.relations table).isSome
  | .createIndexIfNotExists index table column _ =>
    c.hasColumn table column = true ∧ (c.relations (table.1, index)).isSome
  | .createOrReplaceFunction function returns body =>
    c.schemas function.1 = true ∧ c.functions function = some (returns, body)
  | .dropTriggerIfExists _ _ => True
  | .createTrigger trigger table function =>
    c.triggers (trigger, table) = some function ∧ c.hasObject (.table table) = true
      ∧ ∃ body, c.functions function = some ("trigger", body)
  | .commentOn object text => c.hasObject object = true ∧ c.comments object = some text

/-- Whether running `later` can undo what `earlier` established: a drop of
the trigger it created or commented, another text for the same comment,
another body for the same function. -/
def Statement.clobbers (later earlier : Statement) : Bool :=
  match later, earlier with
  | .dropTriggerIfExists trigger table, .createTrigger trigger2 table2 _ =>
    decide ((trigger, table) = (trigger2, table2))
  | .dropTriggerIfExists trigger table, .commentOn object _ =>
    decide (object = .trigger trigger table)
  | .commentOn object text, .commentOn object2 text2 =>
    decide (object = object2) && !decide (text = text2)
  | .createOrReplaceFunction function returns body,
      .createOrReplaceFunction function2 returns2 body2 =>
    decide (function = function2) && !decide ((returns, body) = (returns2, body2))
  | _, _ => false

/-- Whether the statement changes nothing when run on a catalogue in which
it is established (a trigger is dropped and created anew instead). -/
def Statement.settles : Statement → Bool
  | .dropTriggerIfExists _ _ => false
  | .createTrigger _ _ _ => false
  | _ => true

/-- A catalogue with the schema `pgb` and nothing in it. -/
def emptyCatalog : Catalog :=
  { schemas := fun s => s == "pgb"
    relations := fun _ => none
    functions := fun _ => none
    triggers := fun _ => none
    comments := fun _ => none }

/-- A central catalogue holding the table `public.ps_notifications`. -/
def centralCatalog : Catalog :=
  { schemas := fun s => s == "public"
    relations := fun r => if r = centralTable then some (.table ["id", "user_email"]) else none
    functions := fun _ => none
    triggers := fun _ => none
    comments := fun _ => none }

/-- A source database after `SchemaInitializer.Initialize`, before any module. -/
def freshSchemaDB : SchemaDB := { source := emptyCatalog, central := centralCatalog, step := 0 }

/-- A sample roles module. -/
def sampleRoles : RolesModule := { logger := some LoggerRef.main }

/-! ## `internal/config/parser.go` -/

/-- The call `strings.TrimRight(s, ",")` on the runes of a string. -/
def trimRightComma (s : List Char) : List Char :=
  s.rdropWhile fun c => c == ','

/-- The call `strings.Index(s, sep)` for a one-rune `sep`: the position of
its first occurrence, `-1` when there is none.  The position counts runes
here and bytes in Go; every caller only cuts the string at the position
found, which gives the same pieces. -/
def indexRune (sep : Char) (s : List Char) : Int :=
  if sep ∈ s then ((s.takeWhile fun c => c != sep).length : Int) else -1

/-- One attempt of the regular expression `\[(.*?)\]` on the text right
after a `[`: the lazy `.*?` takes the runes up to the first `]`, and none of
them may be a newline, which `.` does not match.  The result is the
submatch, `none` when the attempt fails. -/
def matchModuleList (rest : List Char) : Option (List Char) :=
  let inner := rest.takeWhile fun c => c != ']'
  if inner.length < rest.length ∧ '\n' ∉ inner then some inner else none

/-- The call `moduleListRegex.FindStringSubmatch(line)`: the leftmost
match of `\[(.*?)\]`.  The result is element 1 of the slice returned,
`none` when the slice is nil. -/
def findModuleList : List Char → Option (List Char)
  | [] => none
  | c :: cs =>
    if c = '[' then
      match matchModuleList cs with
      | some inner => some inner
      | none => findModuleList cs
    else findModuleList cs

/-- The function `parseModules`. -/
def parseModules (moduleStr : List Char) : List String :=
  ((splitComma moduleStr).map fun part => String.mk (trimSpace part)).filter
    fun module => module != ""

/-- The function `parseLine`. -/
def parseLine (line : String) : Except String DatabaseConfig :=
  match findModuleList line.toList with
  | none =>
    .error "invalid format: module list not found or malformed (expected [module1, module2, ...])"
  | some moduleListStr =>
    let bracketPos := indexRune '[' line.toList
    if bracketPos = -1 then .error "invalid format: bracket not found"
    else
      let lineBeforeModules := trimSpace (line.toList.take bracketPos.toNat)
      let lineBeforeModules := trimRightComma lineBeforeModules
      let lineBeforeModules := trimSpace lineBeforeModules
      let firstCommaPos := indexRune ',' lineBeforeModules
      if firstCommaPos = -1 then
        .error "invalid format: expected 'name, connection_string, [modules]'"
      else
        let name := String.mk (trimSpace (lineBeforeModules.take firstCommaPos.toNat))
        let connStr := String.mk (trimSpace (lineBeforeModules.drop (firstCommaPos + 1).toNat))
        let modules := parseModules moduleListStr
        if name = "" then .error "database name cannot be empty"
        else if connStr = "" then .error "connection string cannot be empty"
        else if modules.length = 0 then .error "no modules specified"
        else .ok { Name := name, ConnectionString := connStr, ActiveModules := modules }

/-- The struct `ParseError`. -/
structure ParseError where
  Line : Nat
  Content : String
  Err : String
  deriving DecidableEq, Repr

/-- The method `ParseError.Error`. -/
def ParseError.Error (e : ParseError) : String :=
  "line " ++ toString e.Line ++ ": " ++ e.Err ++ " (content: " ++ e.Content ++ ")"

/-- The error values `LoadConfig` returns: a `*ParseError`, or an error made
by `fmt.Errorf`. -/
inductive LoadError
  | parse (e : ParseError)
  | other (msg : String)
  deriving DecidableEq, Repr

/-- The text of a `LoadError` (its method `Error`). -/
def LoadError.Error : LoadError → String
  | .parse e => e.Error
  | .other msg => msg

/-- The file `LoadConfig` reads, as the calls on it answer: whether
`os.Open` fails, the lines `scanner.Text()` yields one after the other, and
what `scanner.Err()` returns once the scanner has stopped. -/
structure ConfigFile where
  openErr : Option String
  lines : List String
  scanErr : Option String
  deriving DecidableEq, Repr

/-- The test `line == "" || strings.HasPrefix(line, "#")` of `LoadConfig`. -/
def skipsLine (line : String) : Bool :=
  line == "" || line.toList.head? == some '#'

/-- The loop `for scanner.Scan()` of `LoadConfig`, entered with `lineNum`
lines read and `databases` appended so far. -/
def scanConfig : Nat → List DatabaseConfig → List String →
    Except ParseError (List DatabaseConfig)
  | _, databases, [] => .ok databases
  | lineNum, databases, text :: rest =>
    let lineNum := lineNum + 1
    let line := String.mk (trimSpace text.toList)
    if skipsLine line then scanConfig lineNum databases rest
    else
      match parseLine line with
      | .error err => .error { Line := lineNum, Content := line, Err := err }
      | .ok dbConfig => scanConfig lineNum (databases ++ [dbConfig]) rest

/-- The call `logger.LogConfigError(err)`. -/
def logConfigError (err : String) : LogCall :=
  .Log .Error "config" "CONFIG_ERROR" ("Configuration error: " ++ err)

/-- The function `LoadConfig`. -/
def LoadConfig (file : ConfigFile) (filepath : String) (log : Option LoggerRef) :
    Except LoadError Config × List Event :=
  let t0 := logIf log (.LogSystemf .Info "config" "Loading configuration from: %s" [filepath])
  match file.openErr with
  | some err =>
    (.error (.other ("error on loading config: " ++ err)),
      t0 ++ logIf log (logConfigError ("failed to open config file: " ++ err)))
  | none =>
    match scanConfig 0 [] file.lines with
    | .error parseErr => (.error (.parse parseErr), t0 ++ logIf log (logConfigError parseErr.Error))
    | .ok databases =>
      match file.scanErr with
      | some err =>
        (.error (.other ("error reading config file: " ++ err)),
          t0 ++ logIf log (logConfigError ("error reading config file: " ++ err)))
      | none =>
        let config : Config := { Databases := databases }
        match config.Validate with
        | some err =>
          (.error (.other ("configuration validation failed: " ++ err)),
            t0 ++ logIf log (logConfigError ("configuration validation failed: " ++ err)))
        | none =>
          let totalModules := (config.Databases.map fun db => db.ActiveModules.length).sum
          (.ok config,
            t0 ++ logIf log (.Log .Info "config" "CONFIG_LOADED"
              ("Configuration loaded successfully: " ++ toString config.Databases.length
                ++ " databases, " ++ toString totalModules ++ " total modules")))

/-- The lines of a file that `LoadConfig` does not skip, trimmed, in file
order. -/
def remainingLines (lines : List String) : List String :=
  (lines.map fun text => String.mk (trimSpace text.toList)).filter fun line => !skipsLine line

/-- A run of `n` spaces. -/
def pad (n : Nat) : List Char := List.replicate n ' '

/-- A string with no white space at either end. -/
def Trimmed (s : List Char) : Prop :=
  (∀ c, s.head? = some c → isSpaceRune c = false) ∧ (∀ c, s.getLast? = some c → isSpaceRune c = false)

/-- The pieces joined by commas (`strings.Join(pieces, ",")`). -/
def joinComma : List (List Char) → List Char
  | [] => []
  | [piece] => piece
  | piece :: next :: rest => piece ++ ',' :: joinComma (next :: rest)

/-- The text of a module list between its brackets: the items, each with
spaces to its left and right, joined by commas. -/
def moduleListText (items : List (Nat × String × Nat)) : List Char :=
  joinComma (items.map fun item => pad item.1 ++ item.2.1.toList ++ pad item.2.2)

/-- A configuration line in the format `name, connection_string, [modules]`
with the given numbers of spaces around the separators and at both ends. -/
def configLine (name connStr : String) (items : List (Nat × String × Nat)) (a b c d e f : Nat) :
    String :=
  String.mk
    (pad a ++ name.toList ++ pad b ++ [','] ++ pad c ++ connStr.toList ++ pad d ++ [','] ++ pad e
      ++ ['['] ++ moduleListText items ++ [']'] ++ pad f)

/-- What `scanner.Text()` can yield in `LoadConfig`: the scanner splits its
input with `bufio.ScanLines`, so a line comes without its end-of-line
marker and holds no newline. -/
def ScannerLine (line : String) : Prop := '\n' ∉ line.toList

instance (line : String) : Decidable (ScannerLine line) := by
  unfold ScannerLine
  infer_instance

/-- A sample file: two lines for the same database name. -/
def duplicateNamesFile : ConfigFile :=
  { openErr := none
    lines := ["db1, postgres://h/db1, [pgb_mail]", "db1, postgres://h/db2, [pgb_notify]"]
    scanErr := none }

/-- A sample file: a comment, a database, a blank line, a comment, a line
that does not parse, a database. -/
def brokenLineFile : ConfigFile :=
  { openErr := none
    lines := ["# Comment line 1", "db1, postgres://h/db1, [pgb_mail]", "", "  # Comment line 4",
      "  invalid line without proper format ", "db2, postgres://h/db2, [pgb_notify]"]
    scanErr := none }

/-! ## `internal/config/central.go` -/

/-- The call `strings.Split(s, sep)` for a one-rune `sep`, on the runes of `s`. -/
def splitRune (sep : Char) : List Char → List (List Char)
  | [] => [[]]
  | c :: cs =>
    if c = sep then [] :: splitRune sep cs
    else
      match splitRune sep cs with
      | [] => [[c]]
      | piece :: pieces => (c :: piece) :: pieces

/-- The function `extractDatabaseName`. -/
def extractDatabaseName (connStr : String) : String :=
  let parts := splitRune '/' connStr.toList
  if parts.length ≥ 4 then
    let dbPart := parts.getD 3 []
    let idx := indexRune '?' dbPart
    let dbPart := if idx ≠ -1 then dbPart.take idx.toNat else dbPart
    if dbPart ≠ [] then String.mk dbPart else "central_db"
  else "central_db"

/-! ## `internal/modules/mail/mail.go`: the message, the retry budget -/

/-- The line end of a message header. -/
def CRLF : String := "\r\n"

/-- The method `MailModule.buildMessage`: the writes to the builder, in order. -/
def MailModule.buildMessage (mail : MailMessage) : String :=
  let builder := ""
  let builder := builder ++ ("From: " ++ mail.HeaderFrom ++ "\r\n")
  let builder := builder ++ ("To: " ++ mail.HeaderTo ++ "\r\n")
  let builder :=
    if mail.HeaderCC != "" then builder ++ ("Cc: " ++ mail.HeaderCC ++ "\r\n") else builder
  let builder := builder ++ ("Subject: " ++ mail.Subject ++ "\r\n")
  let builder := builder ++ "MIME-Version: 1.0\r\n"
  let builder := builder ++ "Content-Type: text/plain; charset=UTF-8\r\n"
  let builder := builder ++ "Content-Transfer-Encoding: 8bit\r\n"
  let builder := builder ++ "\r\n"
  let builder := builder ++ mail.BodyText
  builder

/-- The number of external operations one `sendSMTP` call on `mail` takes:
one transmission, none when the mail has no recipient. -/
def MailModule.sendCost (mail : MailMessage) : Nat :=
  if (MailModule.collectRecipients mail).length = 0 then 0 else 1

/-- The environment of a `sendMail` call in which every SMTP attempt
fails, for a retry loop that starts at operation `s` and a mail of send cost
`r`: each of the three transmissions fails, the context is not done at
either wait, and the three `incrementRetryCount` updates and the
`recordError` update go through. -/
def DbEnv.everySendFails (env : DbEnv) (s r : Nat) : Prop :=
  (r = 1 → ∀ i < 3, (env.fail (s + i * 3)).isSome = true)
    ∧ (∀ i < 3, env.fail (s + i * (r + 2) + r) = none)
    ∧ env.ctxDone (s + r + 1) = false ∧ env.ctxDone (s + 2 * r + 3) = false
    ∧ env.fail (s + 3 * r + 5) = none

/-- The rows of `pgb.pgb_mail` once mail `mailID` has had its retry count
incremented three times and the error message `msg` recorded. -/
def exhaustedMail (mailID : Int) (msg : String) (mails : List MailMessage) : List MailMessage :=
  mails.map fun r =>
    if r.ID == mailID then { r with RetryCount := r.RetryCount + 3, ErrorMessage := some msg }
    else r

/-- The transmissions of a trace, in order. -/
def smtpSends (tr : List Event) : List Event :=
  tr.filter fun e =>
    match e with
    | .smtpSend _ _ => true
    | _ => false

/-- The `incrementRetryCount` updates of a trace, in order. -/
def retryIncrements (tr : List Event) : List Event :=
  tr.filter fun e =>
    match e with
    | .mailIncrementRetry _ => true
    | _ => false

/-- A sample environment: every SMTP transmission of a call that starts at
operation 0 fails (operations 2, 5 and 8), every statement succeeds. -/
def smtpDownEnv : DbEnv :=
  { calmEnv with fail := fun k => if k = 2 ∨ k = 5 ∨ k = 8 then some "connection refused" else none }

/-- A sample environment: every SMTP transmission of a call that starts at
operation 0 fails (operations 2, 5 and 8), and so does the first
`incrementRetryCount` update (operation 3); the context is never done. -/
def updateDownEnv : DbEnv :=
  { calmEnv with
    fail := fun k =>
      if k = 2 ∨ k = 5 ∨ k = 8 then some "connection refused"
      else if k = 3 then some "conn busy"
      else none }

/-! ## `internal/database/connection.go`: reconnects in flight -/

/-- No `Connect` succeeds while the health check runs: what other
goroutines do to the manager between two iterations never turns
`isConnected` on. -/
def HealthEnv.neverConnects (env : HealthEnv) : Prop :=
  ∀ k cm, (env.interfere k cm).isConnected = true → cm.isConnected = true

/-- A sample environment of the health check: three ticks whose probes
fail, then shutdown; the manager is left alone in between. -/
def threeFailedTicksEnv : HealthEnv :=
  { select := fun k => if k < 3 then TickerCase.tick else TickerCase.shutdown
    probe := fun _ => some "connection refused"
    interfere := fun _ cm => cm }

/-! # Theorems -/

/-! ## Reconnect: exponential backoff -/

theorem filter_attempt_logIf (lg : Option LoggerRef) (c : LogCall) :
    (logIf lg c).filter Event.isAttemptStep = [] := by
  cases lg <;> simp [logIf, Event.isAttemptStep]

theorem Disconnect_isConnected (cm : ConnectionManager) : cm.Disconnect.1.isConnected = false := by
  unfold ConnectionManager.Disconnect
  cases cm.pool <;> rfl

theorem Disconnect_config (cm : ConnectionManager) : cm.Disconnect.1.config = cm.config := by
  unfold ConnectionManager.Disconnect
  cases cm.pool <;> rfl

theorem Disconnect_attemptSteps (cm : ConnectionManager) :
    cm.Disconnect.2.filter Event.isAttemptStep = [Event.cmDisconnect cm.config.Name] := by
  unfold ConnectionManager.Disconnect
  cases cm.pool <;> simp [Event.isAttemptStep, filter_attempt_logIf]

theorem Connect_config (cm : ConnectionManager) (o : ConnectOutcome) :
    (cm.Connect o).2.1.config = cm.config := by
  unfold ConnectionManager.Connect
  by_cases h : cm.isConnected = true
  · simp [h]
  · cases o <;> simp [h]

theorem Connect_attemptSteps (cm : ConnectionManager) (o : ConnectOutcome) :
    (cm.Connect o).2.2.filter Event.isAttemptStep = [Event.cmConnect cm.config.Name] := by
  unfold ConnectionManager.Connect
  by_cases h : cm.isConnected = true
  · simp [h, Event.isAttemptStep]
  · cases o <;> simp [h, Event.isAttemptStep, filter_attempt_logIf]

theorem Connect_fails (cm : ConnectionManager) (o : ConnectOutcome)
    (hc : cm.isConnected = false) (ho : o.succeeds = false) :
    ∃ e, (cm.Connect o).1 = some e := by
  unfold ConnectionManager.Connect
  cases o <;> simp_all [ConnectOutcome.succeeds]

theorem Connect_succeeds (cm : ConnectionManager) (o : ConnectOutcome)
    (hc : cm.isConnected = false) (ho : o.succeeds = true) :
    (cm.Connect o).1 = none ∧ (cm.Connect o).2.1.isConnected = true := by
  unfold ConnectionManager.Connect
  cases o <;> simp_all [ConnectOutcome.succeeds]

/-- The delay in force at iteration `i` (0-based): `min (2^i) 60` seconds. -/
theorem nextDelay_backoff (i : Nat) :
    nextDelay (((min (2 ^ i) 60 : Nat) : Int) * Second)
      = ((min (2 ^ (i + 1)) 60 : Nat) : Int) * Second := by
  have h2 : 2 ^ (i + 1) = 2 * 2 ^ i := by ring
  rw [h2]
  generalize 2 ^ i = x
  unfold nextDelay wrapInt64 maxDelay Second
  simp only []
  rcases Nat.lt_or_ge x 60 with hx | hx
  · rw [Nat.min_eq_left (Nat.le_of_lt hx)]
    by_cases h30 : 2 * x ≤ 60
    · rw [Nat.min_eq_left h30]
      have e : ((x : Int) * 1000000000 * 2 + 2 ^ 63) % 2 ^ 64 - 2 ^ 63 = (x : Int) * 1000000000 * 2 := by
        omega
      rw [e]
      have : ¬ ((x : Int) * 1000000000 * 2 > 60 * 1000000000) := by omega
      rw [if_neg this]
      push_cast
      ring
    · rw [Nat.min_eq_right (by omega)]
      have e : ((x : Int) * 1000000000 * 2 + 2 ^ 63) % 2 ^ 64 - 2 ^ 63 = (x : Int) * 1000000000 * 2 := by
        omega
      rw [e]
      have : ((x : Int) * 1000000000 * 2 > 60 * 1000000000) := by omega
      rw [if_pos this]
      norm_num
  · rw [Nat.min_eq_right hx, Nat.min_eq_right (by omega)]
    norm_num

theorem reconnectLoop_backoff (env : ReconnectEnv) (N : Nat)
    (hTop : ∀ i, i ≤ N → env.selectTop i = Signal.none)
    (hWait : ∀ i, i < N → env.selectWait i = Signal.none)
    (hFail : ∀ i, i < N → (env.connect i).succeeds = false)
    (hOk : (env.connect N).succeeds = true) :
    ∀ n i, i + n = N → ∀ (cm : ConnectionManager) (attempt : Int) (fuel : Nat), n < fuel →
      ∃ r, cm.reconnectLoop env fuel i (((min (2 ^ i) 60 : Nat) : Int) * Second) attempt = some r
        ∧ r.err = none ∧ r.cm.isConnected = true ∧ r.cm.config = cm.config
        ∧ r.trace.filter Event.isAttemptStep
            = ((List.range n).map fun k => failedIteration cm.config.Name (i + k)).flatten
              ++ [Event.cmDisconnect cm.config.Name, Event.cmConnect cm.config.Name] := by
  intro n
  induction n with
  | zero =>
    intro i hi cm attempt fuel hfuel
    obtain ⟨f, rfl⟩ : ∃ f, fuel = f + 1 := ⟨fuel - 1, by omega⟩
    have hiN : i = N := by omega
    subst hiN
    have hs := Connect_succeeds cm.Disconnect.1 (env.connect i) (Disconnect_isConnected cm) hOk
    unfold ConnectionManager.reconnectLoop
    simp only [hTop i (Nat.le_refl i), hs.1]
    refine ⟨_, rfl, rfl, hs.2, ?_, ?_⟩
    · simp [Connect_config, Disconnect_config]
    · simp [List.filter_append, filter_attempt_logIf, Disconnect_attemptSteps,
        Connect_attemptSteps, Disconnect_config]
  | succ n ih =>
    intro i hi cm attempt fuel hfuel
    obtain ⟨f, rfl⟩ : ∃ f, fuel = f + 1 := ⟨fuel - 1, by omega⟩
    have hiN : i < N := by omega
    obtain ⟨e, he⟩ := Connect_fails cm.Disconnect.1 (env.connect i) (Disconnect_isConnected cm)
      (hFail i hiN)
    obtain ⟨r, hr, herr, hconn, hcfg, htr⟩ :=
      ih (i + 1) (by omega) (cm.Disconnect.1.Connect (env.connect i)).2.1
        (wrapInt64 (attempt + 1)) f (by omega)
    unfold ConnectionManager.reconnectLoop
    simp only [hTop i (Nat.le_of_lt hiN), he, hWait i hiN, nextDelay_backoff, hr, Option.map_some']
    refine ⟨_, rfl, herr, hconn, ?_, ?_⟩
    · simp [hcfg, Connect_config, Disconnect_config]
    · simp only [List.filter_append, List.filter_cons, filter_attempt_logIf, Disconnect_attemptSteps,
        Connect_attemptSteps, Disconnect_config, htr, Connect_config, Event.isAttemptStep]
      simp [List.range_succ_eq_map, failedIteration, Nat.add_assoc, Nat.add_comm 1,
        Function.comp_def]

theorem count_connect_rounds (db : String) (N : Nat) :
    ((((List.range N).map fun k => failedIteration db k).flatten
        ++ [Event.cmDisconnect db, Event.cmConnect db]).filter
      fun e => decide (e = Event.cmConnect db)).length = N + 1 := by
  induction N with
  | zero => simp
  | succ n ih =>
    simp only [List.filter_append, List.length_append] at ih ⊢
    simp only [List.range_succ, List.map_append, List.flatten_append, List.filter_append,
      List.length_append]
    simp [failedIteration] at ih ⊢
    omega

/-- C1: when the first `N` connection attempts of `Reconnect` fail and
attempt `N+1` succeeds, with no shutdown or cancellation observed by any
`select`, then with enough fuel `Reconnect` returns `nil`, leaves the
manager Connected, and its Disconnect / Connect / wait steps are exactly
`N` rounds {Disconnect, Connect, wait `min (2^(k-1)) 60` seconds} for
`k = 1 .. N` followed by one last {Disconnect, Connect}: `N+1` attempts. -/
theorem Reconnect_backoff (env : ReconnectEnv) (cm : ConnectionManager) (N fuel : Nat)
    (hTop : ∀ i, i ≤ N → env.selectTop i = Signal.none)
    (hWait : ∀ i, i < N → env.selectWait i = Signal.none)
    (hFail : ∀ i, i < N → (env.connect i).succeeds = false)
    (hOk : (env.connect N).succeeds = true)
    (hFuel : N < fuel) :
    ∃ r, cm.Reconnect env fuel = some r ∧ r.err = none ∧ r.cm.isConnected = true
      ∧ r.trace.filter Event.isAttemptStep
          = ((List.range N).map fun k =>
              [Event.cmDisconnect cm.config.Name, Event.cmConnect cm.config.Name,
                Event.sleep (((min (2 ^ k) 60 : Nat) : Int) * Second)]).flatten
            ++ [Event.cmDisconnect cm.config.Name, Event.cmConnect cm.config.Name]
      ∧ (r.trace.filter fun e => decide (e = Event.cmConnect cm.config.Name)).length = N + 1 := by
  obtain ⟨r, hr, herr, hconn, _, htr⟩ :=
    reconnectLoop_backoff env N hTop hWait hFail hOk N 0 (by omega) cm 0 fuel hFuel
  refine ⟨r, ?_, herr, hconn, ?_, ?_⟩
  · simpa [ConnectionManager.Reconnect, initialDelay] using hr
  · simpa [failedIteration] using htr
  · have hsub : (r.trace.filter fun e => decide (e = Event.cmConnect cm.config.Name))
        = ((r.trace.filter Event.isAttemptStep).filter
            fun e => decide (e = Event.cmConnect cm.config.Name)) := by
      rw [List.filter_filter]
      congr 1
      funext e
      by_cases h : e = Event.cmConnect cm.config.Name
      · subst h
        simp [Event.isAttemptStep]
      · simp [h]
    rw [hsub, htr]
    simpa using count_connect_rounds cm.config.Name N

/-- Witness for C1: two failed probes, the third succeeds. -/
theorem Reconnect_backoff_witness :
    ∃ r, sampleManager.Reconnect sampleReconnectEnv 3 = some r ∧ r.err = none
      ∧ r.cm.isConnected = true
      ∧ r.trace.filter Event.isAttemptStep
          = ((List.range 2).map fun k =>
              [Event.cmDisconnect sampleManager.config.Name,
                Event.cmConnect sampleManager.config.Name,
                Event.sleep (((min (2 ^ k) 60 : Nat) : Int) * Second)]).flatten
            ++ [Event.cmDisconnect sampleManager.config.Name,
                Event.cmConnect sampleManager.config.Name]
      ∧ (r.trace.filter fun e => decide (e = Event.cmConnect sampleManager.config.Name)).length
          = 2 + 1 :=
  Reconnect_backoff sampleReconnectEnv sampleManager 2 3 (fun _ _ => rfl) (fun _ _ => rfl)
    (fun i hi => by simp [sampleReconnectEnv, hi, ConnectOutcome.succeeds])
    (by simp [sampleReconnectEnv, ConnectOutcome.succeeds]) (by decide)

/-! ## Logger: bounded queue -/

theorem LogDatabase_room (l : Logger) (entry : LogEntry) (pick : Nat)
    (hs : l.shutdown = false) (hr : l.logChan.length < l.logChanCap) :
    l.LogDatabase entry pick = some { l with logChan := l.logChan ++ [entry] } := by
  simp [Logger.LogDatabase, Logger.logDatabaseReady, goSelect, hs, hr]

theorem LogDatabase_full (l : Logger) (entry : LogEntry) (pick : Nat)
    (hs : l.shutdown = false) (hr : ¬ l.logChan.length < l.logChanCap) :
    l.LogDatabase entry pick
      = some { l with systemLog := l.systemLog ++ [channelFullWarning] } := by
  simp [Logger.LogDatabase, Logger.logDatabaseReady, goSelect, hs, hr, Logger.LogSystem,
    channelFullWarning]

theorem logDatabaseAll_running (calls : List (LogEntry × Nat)) :
    ∀ l : Logger, l.shutdown = false → l.logChan.length ≤ l.logChanCap →
      l.logDatabaseAll calls
        = some { l with
            logChan := l.logChan ++ (calls.map Prod.fst).take (l.logChanCap - l.logChan.length)
            systemLog := l.systemLog ++
              List.replicate (calls.length - (l.logChanCap - l.logChan.length))
                channelFullWarning } := by
  induction calls with
  | nil => intro l _ _; simp [Logger.logDatabaseAll]
  | cons c rest ih =>
    intro l hs hle
    obtain ⟨entry, pick⟩ := c
    by_cases hr : l.logChan.length < l.logChanCap
    · rw [Logger.logDatabaseAll, LogDatabase_room l entry pick hs hr]
      simp only []
      rw [ih { l with logChan := l.logChan ++ [entry] } hs (by simp; omega)]
      obtain ⟨k, hk⟩ : ∃ k, l.logChanCap - l.logChan.length = k + 1 :=
        ⟨l.logChanCap - l.logChan.length - 1, by omega⟩
      have hk2 : l.logChanCap - (l.logChan ++ [entry]).length = k := by simp; omega
      simp only [hk2, hk, List.map_cons, List.take_succ_cons, List.length_cons,
        Nat.add_sub_add_right, List.append_assoc, List.singleton_append]
    · rw [Logger.logDatabaseAll, LogDatabase_full l entry pick hs hr]
      simp only []
      rw [ih { l with systemLog := l.systemLog ++ [channelFullWarning] } hs hle]
      have hz : l.logChanCap - l.logChan.length = 0 := by omega
      simp only [hz, List.take_zero, Nat.sub_zero, List.length_cons, List.replicate_succ,
        List.append_assoc, List.singleton_append]

/-- C2: `N > 1000` calls of `LogDatabase` on a fresh logger that is not
shutting down, with no entry drained in between, all return (none
blocks), leave exactly the first 1000 entries in the queue in arrival
order, and write exactly `N - 1000` channel-full warnings to the local
stream. -/
theorem LogDatabase_overflow (serviceName : String) (dbPool : Option Nat)
    (calls : List (LogEntry × Nat)) (hN : 1000 < calls.length) :
    ∃ l, (NewLogger serviceName dbPool).logDatabaseAll calls = some l
      ∧ l.logChan = (calls.map Prod.fst).take 1000
      ∧ l.logChan.length = 1000
      ∧ l.systemLog = List.replicate (calls.length - 1000) channelFullWarning := by
  have h := logDatabaseAll_running calls (NewLogger serviceName dbPool) rfl (by simp [NewLogger])
  refine ⟨_, h, ?_, ?_, ?_⟩
  · simp [NewLogger]
  · simp [NewLogger]
    omega
  · simp [NewLogger]

/-- Witness for C2: 1002 calls on a fresh logger. -/
theorem LogDatabase_overflow_witness :
    ∃ l, (NewLogger "pgbridge" none).logDatabaseAll (List.replicate 1002 (sampleEntry, 0)) = some l
      ∧ l.logChan = ((List.replicate 1002 (sampleEntry, 0)).map Prod.fst).take 1000
      ∧ l.logChan.length = 1000
      ∧ l.systemLog
          = List.replicate ((List.replicate 1002 (sampleEntry, 0)).length - 1000) channelFullWarning :=
  LogDatabase_overflow "pgbridge" none (List.replicate 1002 (sampleEntry, 0))
    (by rw [List.length_replicate]; omega)

/-! ## Listener dispatch loop -/

theorem listenLoop_timeout (l : Listener) (env : ListenEnv) (fuel i : Nat)
    (h : env.timesOut i = true) :
    l.listenLoop env (fuel + 1) i = l.listenLoop env fuel (i + 1) := by
  unfold ListenEnv.timesOut at h
  rw [Listener.listenLoop]
  split at h
  · next e hs hw => simp [hs, hw, h]
  · exact absurd h (by simp)

theorem listenLoop_stops (l : Listener) (env : ListenEnv) (fuel i : Nat)
    (h : env.stops i = true) :
    l.listenLoop env (fuel + 1) i = { trace := [], returned := true } := by
  unfold ListenEnv.stops at h
  rw [Listener.listenLoop]
  split at h
  · next hs => simp [hs]
  · next hs => simp [hs]
  · next e hs hw =>
    simp only [Bool.and_eq_true, Bool.not_eq_true'] at h
    simp [hs, hw, h.1, h.2]
  · exact absurd h (by simp)

theorem listenLoop_realError (l : Listener) (env : ListenEnv) (fuel i : Nat) (e : WaitError)
    (hE : env.realError i = some e) :
    l.listenLoop env (fuel + 1) i
      = { trace := logIf l.logger (.LogListenerError l.dbName l.channel e.text)
            ++ (l.listenLoop env fuel (i + 1)).trace
          returned := (l.listenLoop env fuel (i + 1)).returned } := by
  unfold ListenEnv.realError at hE
  rw [Listener.listenLoop]
  split at hE
  · next e2 hs hw =>
    split at hE
    · next hc =>
      simp only [Option.some.injEq] at hE
      subst hE
      simp only [Bool.and_eq_true, Bool.not_eq_true'] at hc
      simp [hs, hw, hc.1.1, hc.1.2, hc.2]
    · exact absurd hE (by simp)
  · exact absurd hE (by simp)

/-- An iteration that does not stop the loop hands over to the next one. -/
theorem listenLoop_step (l : Listener) (env : ListenEnv) (fuel i : Nat)
    (h : env.stops i = false) :
    (l.listenLoop env (fuel + 1) i).returned = (l.listenLoop env fuel (i + 1)).returned
      ∧ (l.listenLoop env (fuel + 1) i).trace
          = (l.listenLoop env 1 i).trace ++ (l.listenLoop env fuel (i + 1)).trace := by
  unfold ListenEnv.stops at h
  have e1 : l.listenLoop env 1 i = l.listenLoop env (0 + 1) i := rfl
  rw [e1]
  simp only [Listener.listenLoop]
  split at h
  · exact absurd h (by simp)
  · exact absurd h (by simp)
  · next e hs hw =>
    simp only [hs, hw]
    by_cases hd : e.isDeadlineExceeded = true
    · simp [hd]
    · simp only [hd, Bool.not_false, Bool.true_and, Bool.false_eq_true, ↓reduceIte] at h ⊢
      simp [h]
  · next hs hw =>
    simp only [hs]
    cases hwc : env.wait i with
    | err e => exact absurd hwc (by intro hh; exact hw e hh)
    | notification p => simp
    | nothing => simp

theorem listenLoop_add (l : Listener) (env : ListenEnv) (a : Nat) :
    ∀ i, (∀ j, i ≤ j → j < i + a → env.stops j = false) → ∀ b,
      l.listenLoop env (a + b) i
        = { trace := (l.listenLoop env a i).trace ++ (l.listenLoop env b (i + a)).trace
            returned := (l.listenLoop env b (i + a)).returned } := by
  induction a with
  | zero => intro i _ b; simp [Listener.listenLoop]
  | succ a ih =>
    intro i h b
    have hi := h i (Nat.le_refl i) (by omega)
    have e : a + 1 + b = (a + b) + 1 := by omega
    have s1 := listenLoop_step l env (a + b) i hi
    have s2 := listenLoop_step l env a i hi
    have r := ih (i + 1) (fun j h1 h2 => h j (by omega) (by omega)) b
    have e2 : i + 1 + a = i + (a + 1) := by omega
    rw [e2] at r
    rw [e]
    cases hx : l.listenLoop env (a + b + 1) i with
    | mk tr ret =>
      rw [hx] at s1
      simp only at s1
      rw [s1.1, s1.2, r, s2.2]
      simp [List.append_assoc]

theorem listenLoop_running (l : Listener) (env : ListenEnv) (a : Nat) :
    ∀ i, (∀ j, i ≤ j → j < i + a → env.stops j = false) →
      (l.listenLoop env a i).returned = false := by
  induction a with
  | zero => intro i _; rfl
  | succ a ih =>
    intro i h
    rw [(listenLoop_step l env a i (h i (Nat.le_refl i) (by omega))).1]
    exact ih (i + 1) fun j h1 h2 => h j (by omega) (by omega)

theorem listenLoop_returned_iff (l : Listener) (env : ListenEnv) (a : Nat) :
    ∀ i, (l.listenLoop env a i).returned = true ↔ ∃ j, i ≤ j ∧ j < i + a ∧ env.stops j = true := by
  induction a with
  | zero =>
    intro i
    constructor
    · intro h; simp [Listener.listenLoop] at h
    · rintro ⟨j, h1, h2, _⟩; omega
  | succ a ih =>
    intro i
    cases hs : env.stops i with
    | true =>
      rw [listenLoop_stops l env a i hs]
      exact ⟨fun _ => ⟨i, Nat.le_refl i, by omega, hs⟩, fun _ => rfl⟩
    | false =>
      rw [(listenLoop_step l env a i hs).1, ih (i + 1)]
      constructor
      · rintro ⟨j, h1, h2, h3⟩
        exact ⟨j, by omega, by omega, h3⟩
      · rintro ⟨j, h1, h2, h3⟩
        have : j ≠ i := by
          intro e
          subst e
          rw [hs] at h3
          exact absurd h3 (by simp)
        exact ⟨j, by omega, by omega, h3⟩

theorem timesOut_not_stops (env : ListenEnv) (i : Nat) (h : env.timesOut i = true) :
    env.stops i = false := by
  unfold ListenEnv.timesOut at h
  unfold ListenEnv.stops
  split at h
  · next e hs hw => simp [hs, hw, h]
  · exact absurd h (by simp)

theorem realError_not_stops (env : ListenEnv) (i : Nat) (e : WaitError)
    (h : env.realError i = some e) : env.stops i = false := by
  unfold ListenEnv.realError at h
  unfold ListenEnv.stops
  split at h
  · next e2 hs hw =>
    split at h
    · next hc =>
      simp only [Bool.and_eq_true, Bool.not_eq_true'] at hc
      simp [hs, hw, hc.1.2, hc.2]
    · exact absurd h (by simp)
  · exact absurd h (by simp)

/-- C9: in the dispatch loop, a wait that ends with a timeout, at whatever
iteration the loop has reached and whatever the iterations before it did,
adds no event (no error logged, no handler spawned) and does not return:
the run after that iteration is the run before it, still going, and it
goes on with the next iteration (the next wait).  The loop has returned
exactly when some iteration has observed the shutdown signal or a
cancellation. -/
theorem listen_timeout_reenters (l : Listener) (env : ListenEnv) :
    (∀ i, (∀ j, j < i → env.stops j = false) → env.timesOut i = true →
        l.listen env (i + 1) = l.listen env i
          ∧ (l.listen env (i + 1)).returned = false
          ∧ ∀ m, l.listen env (i + 1 + m)
              = { trace := (l.listen env i).trace ++ (l.listenLoop env m (i + 1)).trace
                  returned := (l.listenLoop env m (i + 1)).returned })
      ∧ (∀ n, (l.listen env n).returned = true ↔ ∃ j, j < n ∧ env.stops j = true) := by
  constructor
  · intro i hR hT
    have hrun : ∀ j, 0 ≤ j → j < 0 + i → env.stops j = false := fun j _ h => hR j (by omega)
    have h1 := listenLoop_add l env i 0 hrun
    have hs := timesOut_not_stops env i hT
    have hrun2 : ∀ j, 0 ≤ j → j < 0 + (i + 1) → env.stops j = false := by
      intro j _ h
      by_cases e : j = i
      · subst e; exact hs
      · exact hR j (by omega)
    have key : l.listen env (i + 1) = l.listen env i := by
      unfold Listener.listen
      have a1 := h1 1
      have a0 := h1 0
      simp only [Nat.zero_add, Nat.add_zero] at a1 a0
      rw [a1, listenLoop_timeout l env 0 i hT]
      exact a0.symm
    refine ⟨key, ?_, ?_⟩
    · exact listenLoop_running l env (i + 1) 0 hrun2
    · intro m
      have a := listenLoop_add l env (i + 1) 0 hrun2 m
      simp only [Nat.zero_add] at a
      unfold Listener.listen at key ⊢
      rw [a, key]
  · intro n
    unfold Listener.listen
    rw [listenLoop_returned_iff]
    simp

/-- C10: in the dispatch loop, a wait error that is neither a timeout nor a
cancellation, met while the context is not cancelled, at whatever iteration
the loop has reached, is logged exactly once as a listener error and does
not end the loop: the run after that iteration is the run before it
followed by that one `LogListenerError` call on the listener's logger, still
going, and it goes on with the next iteration (the next wait). -/
theorem listen_real_error_continues (l : Listener) (env : ListenEnv) (lg : LoggerRef)
    (i : Nat) (e : WaitError) (hl : l.logger = some lg)
    (hR : ∀ j, j < i → env.stops j = false) (hE : env.realError i = some e) :
    l.listen env (i + 1)
        = { trace := (l.listen env i).trace
              ++ [Event.log lg (.LogListenerError l.dbName l.channel e.text)]
            returned := false }
      ∧ ∀ m, l.listen env (i + 1 + m)
          = { trace := (l.listen env i).trace
                ++ Event.log lg (.LogListenerError l.dbName l.channel e.text)
                  :: (l.listenLoop env m (i + 1)).trace
              returned := (l.listenLoop env m (i + 1)).returned } := by
  have hrun : ∀ j, 0 ≤ j → j < 0 + i → env.stops j = false := fun j _ h => hR j (by omega)
  have h1 := listenLoop_add l env i 0 hrun
  have key : ∀ m, l.listen env (i + 1 + m)
      = { trace := (l.listen env i).trace
            ++ Event.log lg (.LogListenerError l.dbName l.channel e.text)
              :: (l.listenLoop env m (i + 1)).trace
          returned := (l.listenLoop env m (i + 1)).returned } := by
    intro m
    unfold Listener.listen
    have a := h1 (m + 1)
    have e1 : i + (m + 1) = i + 1 + m := by omega
    simp only [Nat.zero_add] at a
    rw [e1] at a
    rw [a, listenLoop_realError l env m i e hE, hl]
    rfl
  refine ⟨?_, key⟩
  have k0 := key 0
  simpa [Listener.listenLoop] using k0

/-- Witness for C9: the timeouts of the sample run that follow a
notification (iteration 1) and a broken read (iteration 3) add nothing to
the run, which goes on until the shutdown signal at iteration 4. -/
theorem listen_timeout_reenters_witness :
    sampleListener.listen busyListenEnv 2 = sampleListener.listen busyListenEnv 1
      ∧ sampleListener.listen busyListenEnv 4 = sampleListener.listen busyListenEnv 3
      ∧ sampleListener.listen busyListenEnv 4
          = { trace :=
                [Event.log LoggerRef.main
                    (.LogSystemf .Debug "listener" "Received notification on %s/%s: %s"
                      ["db1", "pgb_mail", "7"]),
                  Event.spawnHandler "db1" "pgb_mail" "7",
                  Event.log LoggerRef.main (.LogListenerError "db1" "pgb_mail" "write: broken pipe")]
              returned := false }
      ∧ ((sampleListener.listen busyListenEnv 5).returned = true
          ↔ ∃ j, j < 5 ∧ busyListenEnv.stops j = true) :=
  ⟨((listen_timeout_reenters sampleListener busyListenEnv).1 1
      (fun j hj => by
        have : j = 0 := by omega
        subst this; rfl) rfl).1,
    ((listen_timeout_reenters sampleListener busyListenEnv).1 3
      (fun j hj => by
        have : j = 0 ∨ j = 1 ∨ j = 2 := by omega
        rcases this with h | h | h <;> subst h <;> rfl) rfl).1,
    by decide,
    (listen_timeout_reenters sampleListener busyListenEnv).2 5⟩

/-- Witness for C10: the broken read at iteration 3 of the sample run is
logged once, and the loop runs on into the shutdown signal. -/
theorem listen_real_error_continues_witness :
    sampleListener.listen sampleListenEnv (3 + 1)
        = { trace := (sampleListener.listen sampleListenEnv 3).trace
              ++ [Event.log LoggerRef.main
                    (.LogListenerError sampleListener.dbName sampleListener.channel
                      brokenPipeError.text)]
            returned := false }
      ∧ sampleListener.listen sampleListenEnv 4
          = { trace := [Event.log LoggerRef.main
                (.LogListenerError "db1" "pgb_mail" "write: broken pipe")]
              returned := false }
      ∧ sampleListener.listen sampleListenEnv 5
          = { trace := [Event.log LoggerRef.main
                (.LogListenerError "db1" "pgb_mail" "write: broken pipe")]
              returned := true } :=
  ⟨(listen_real_error_continues sampleListener sampleListenEnv LoggerRef.main 3 brokenPipeError
      rfl (fun j hj => by
        have : j = 0 ∨ j = 1 ∨ j = 2 := by omega
        rcases this with h | h | h <;> subst h <;> rfl) rfl).1,
    by decide, by decide⟩

/-! ## Modules: duplicate notifications and the catch-up scan -/

/-- C6: for a notification row already marked `is_sent`,
`NotifyModule.ProcessNotification` with that row id as payload performs no
insert into the central database and no update of the source row (both
tables are left as they were and the trace holds no such statement), and
it returns `nil` having only read the row, whenever that read itself
succeeds. -/
theorem notify_ProcessNotification_sent_noop (n : NotifyModule) (env : DbEnv) (db : NotifyDB)
    (payload : String) (notifyID : Int) (row : Notification)
    (hp : sscanfInt payload = .ok notifyID)
    (hrow : (db.source.find? fun r => r.ID == notifyID) = some row)
    (hsent : row.IsSent = true) :
    (n.ProcessNotification env db payload).2.1.source = db.source
      ∧ (n.ProcessNotification env db payload).2.1.central = db.central
      ∧ (∀ id, Event.centralInsert id ∉ (n.ProcessNotification env db payload).2.2)
      ∧ (∀ id, Event.notifyMarkSent id ∉ (n.ProcessNotification env db payload).2.2)
      ∧ (env.fail db.step = none →
          (n.ProcessNotification env db payload).1 = none
            ∧ (n.ProcessNotification env db payload).2.2 = [Event.notifySelect notifyID]) := by
  unfold NotifyModule.ProcessNotification
  simp only [hp]
  unfold NotifyModule.forwardNotification NotifyModule.getNotification
  cases hf : env.fail db.step with
  | none => simp [hrow, hsent]
  | some e => cases hl : n.logger <;> simp [logIf, hl]

/-- Witness for C6: row 7 of the sample state is marked sent. -/
theorem notify_ProcessNotification_sent_noop_witness :
    (sampleNotify.ProcessNotification calmEnv sampleNotifyDB "7").2.1.source = sampleNotifyDB.source
      ∧ (sampleNotify.ProcessNotification calmEnv sampleNotifyDB "7").2.1.central
          = sampleNotifyDB.central
      ∧ (∀ id, Event.centralInsert id ∉ (sampleNotify.ProcessNotification calmEnv sampleNotifyDB "7").2.2)
      ∧ (∀ id, Event.notifyMarkSent id ∉ (sampleNotify.ProcessNotification calmEnv sampleNotifyDB "7").2.2)
      ∧ (calmEnv.fail sampleNotifyDB.step = none →
          (sampleNotify.ProcessNotification calmEnv sampleNotifyDB "7").1 = none
            ∧ (sampleNotify.ProcessNotification calmEnv sampleNotifyDB "7").2.2
                = [Event.notifySelect 7]) :=
  notify_ProcessNotification_sent_noop sampleNotify calmEnv sampleNotifyDB "7" 7 sentNotification
    rfl rfl rfl

/-- C7 (the code at the failing input): mail 1 of the sample state is
already marked `is_sent`, yet `MailModule.ProcessNotification` with payload
`"1"` reads the row, never looks at its `IsSent` field, transmits the mail
over SMTP once more and rewrites the row (new `sent_ts`). -/
theorem mail_ProcessNotification_resends_sent :
    ((sampleMailDB.mails.find? fun r => r.ID == 1).map fun r => (r.IsSent, r.SentTS))
        = some (true, some 900)
      ∧ (sampleMail.ProcessNotification calmEnv sampleMailDB "1").1 = none
      ∧ (sampleMail.ProcessNotification calmEnv sampleMailDB "1").2.2
          = [Event.mailSelect 1, Event.mailSettingsSelect 1,
              Event.smtpSend 1 ["a@example.org"],
              Event.log LoggerRef.main (.LogMailSent "db1" 1 "a@example.org"),
              Event.mailMarkSent 1]
      ∧ (((sampleMail.ProcessNotification calmEnv sampleMailDB "1").2.1.mails.find?
            fun r => r.ID == 1).map fun r => (r.IsSent, r.SentTS))
          = some (true, some 1003) := by
  refine ⟨rfl, rfl, rfl, rfl⟩

theorem notifyAttempts_logIf (lg : Option LoggerRef) (c : LogCall) :
    notifyAttempts (logIf lg c) = [] := by
  cases lg <;> rfl

theorem mailAttempts_logIf (lg : Option LoggerRef) (c : LogCall) :
    mailAttempts (logIf lg c) = [] := by
  cases lg <;> rfl

theorem notifyAttempts_append (a b : List Event) :
    notifyAttempts (a ++ b) = notifyAttempts a ++ notifyAttempts b := by
  simp [notifyAttempts]

theorem mailAttempts_append (a b : List Event) :
    mailAttempts (a ++ b) = mailAttempts a ++ mailAttempts b := by
  simp [mailAttempts]

theorem getNotification_trace (n : NotifyModule) (env : DbEnv) (db : NotifyDB) (id : Int) :
    (n.getNotification env db id).2.2 = [Event.notifySelect id] := by
  unfold NotifyModule.getNotification
  split
  · rfl
  · split <;> rfl

theorem insertToCentral_trace (n : NotifyModule) (env : DbEnv) (db : NotifyDB)
    (r : Notification) : (n.insertToCentral env db r).2.2 = [Event.centralInsert r.ID] := by
  unfold NotifyModule.insertToCentral
  split <;> rfl

theorem notify_markAsSent_trace (n : NotifyModule) (env : DbEnv) (db : NotifyDB) (id : Int) :
    (n.markAsSent env db id).2.2 = [Event.notifyMarkSent id] := by
  unfold NotifyModule.markAsSent
  split <;> rfl

theorem notifyAttempts_forward (n : NotifyModule) (env : DbEnv) (db : NotifyDB) (id : Int) :
    notifyAttempts (n.forwardNotification env db id).2.2 = [id] := by
  unfold NotifyModule.forwardNotification
  have h1 := getNotification_trace n env db id
  rcases hg : n.getNotification env db id with ⟨r, db1, t1⟩
  rw [hg] at h1
  simp only at h1
  subst h1
  cases r with
  | error err => simp only [notifyAttempts_append, notifyAttempts_logIf]; rfl
  | ok notification =>
    simp only
    split
    · simp [notifyAttempts]
    · have h2 := insertToCentral_trace n env db1 notification
      rcases hi : n.insertToCentral env db1 notification with ⟨r2, db2, t2⟩
      rw [hi] at h2
      simp only at h2
      subst h2
      cases r2 with
      | error err => simp only [notifyAttempts_append, notifyAttempts_logIf]; rfl
      | ok centralID =>
        simp only
        have h3 := notify_markAsSent_trace n env db2 id
        rcases hm : n.markAsSent env db2 id with ⟨r3, db3, t3⟩
        rw [hm] at h3
        simp only at h3
        subst h3
        cases r3 <;> (simp only [notifyAttempts_append, notifyAttempts_logIf]; rfl)

theorem notifyAttempts_forwardAll (n : NotifyModule) (env : DbEnv) (ids : List Int) :
    ∀ db, notifyAttempts (n.forwardAll env db ids).2 = ids := by
  induction ids with
  | nil => intro db; rfl
  | cons id rest ih =>
    intro db
    unfold NotifyModule.forwardAll
    have h1 := notifyAttempts_forward n env db id
    rcases hf : n.forwardNotification env db id with ⟨r, db1, t1⟩
    rw [hf] at h1
    simp only at h1 ⊢
    have h2 := ih db1
    rcases hr : n.forwardAll env db1 rest with ⟨db2, t2⟩
    rw [hr] at h2
    simp only at h2 ⊢
    rw [notifyAttempts_append, h1, h2]
    rfl

theorem getMailMessage_trace (m : MailModule) (env : DbEnv) (db : MailDB) (id : Int) :
    (m.getMailMessage env db id).2.2 = [Event.mailSelect id] := by
  unfold MailModule.getMailMessage
  split
  · rfl
  · split <;> rfl

theorem getMailSettings_attempts (m : MailModule) (env : DbEnv) (db : MailDB) (id : Int) :
    mailAttempts (m.getMailSettings env db id).2.2 = [] := by
  unfold MailModule.getMailSettings
  split
  · rfl
  · split <;> rfl

theorem mail_markAsSent_attempts (m : MailModule) (env : DbEnv) (db : MailDB) (id : Int) :
    mailAttempts (m.markAsSent env db id).2.2 = [] := by
  unfold MailModule.markAsSent
  split <;> rfl

theorem recordError_attempts (m : MailModule) (env : DbEnv) (db : MailDB) (id : Int)
    (msg : String) : mailAttempts (m.recordError env db id msg).2.2 = [] := by
  unfold MailModule.recordError
  rfl

theorem incrementRetryCount_attempts (m : MailModule) (env : DbEnv) (db : MailDB) (id : Int) :
    mailAttempts (m.incrementRetryCount env db id).2.2 = [] := by
  unfold MailModule.incrementRetryCount
  rfl

theorem sendSMTP_attempts (m : MailModule) (env : DbEnv) (db : MailDB) (mail : MailMessage)
    (settings : MailSettings) : mailAttempts (m.sendSMTP env db mail settings).2.2 = [] := by
  unfold MailModule.sendSMTP
  simp only []
  split <;> rfl

theorem retryWait_attempts (m : MailModule) (env : DbEnv) (id : Int) (attempt : Nat)
    (db : MailDB) : mailAttempts (m.retryWait env id attempt db).2.2 = [] := by
  unfold MailModule.retryWait
  split
  · simp only []
    split
    · exact mailAttempts_logIf _ _
    · simp only [mailAttempts_append, mailAttempts_logIf]; rfl
  · rfl

theorem sendLoop_attempts (m : MailModule) (env : DbEnv) (mail : MailMessage)
    (settings : MailSettings) (id : Int) (remaining : Nat) :
    ∀ attempt lastErr db,
      mailAttempts (m.sendLoop env mail settings id remaining attempt lastErr db).2.2 = [] := by
  induction remaining with
  | zero =>
    intro attempt lastErr db
    unfold MailModule.sendLoop
    simp only [mailAttempts_append, recordError_attempts, mailAttempts_logIf, List.append_nil]
  | succ k ih =>
    intro attempt lastErr db
    unfold MailModule.sendLoop
    have h0 := retryWait_attempts m env id attempt db
    rcases hw : m.retryWait env id attempt db with ⟨c, db0, t0⟩
    rw [hw] at h0
    simp only at h0
    cases c with
    | true => exact h0
    | false =>
      simp only
      have h1 := sendSMTP_attempts m env db0 mail settings
      rcases hs : m.sendSMTP env db0 mail settings with ⟨r1, db1, t1⟩
      rw [hs] at h1
      simp only at h1
      cases r1 with
      | some err =>
        simp only [mailAttempts_append, h0, h1, incrementRetryCount_attempts, ih,
          List.append_nil]
      | none =>
        simp only [mailAttempts_append, h0, h1, mail_markAsSent_attempts, mailAttempts_logIf,
          List.append_nil]

theorem mailAttempts_sendMail (m : MailModule) (env : DbEnv) (db : MailDB) (id : Int) :
    mailAttempts (m.sendMail env db id).2.2 = [id] := by
  unfold MailModule.sendMail
  have h1 := getMailMessage_trace m env db id
  rcases hg : m.getMailMessage env db id with ⟨r, db1, t1⟩
  rw [hg] at h1
  simp only at h1
  subst h1
  cases r with
  | error err => simp only [mailAttempts_append, mailAttempts_logIf]; rfl
  | ok mail =>
    simp only
    have h2 := getMailSettings_attempts m env db1 mail.MailSettingID
    rcases hs : m.getMailSettings env db1 mail.MailSettingID with ⟨r2, db2, t2⟩
    rw [hs] at h2
    simp only at h2
    cases r2 with
    | error err =>
      simp only
      have h3 := recordError_attempts m env db2 id ("Failed to retrieve mail settings: " ++ err)
      rcases hr : m.recordError env db2 id ("Failed to retrieve mail settings: " ++ err)
        with ⟨r3, db3, t3⟩
      rw [hr] at h3
      simp only at h3 ⊢
      simp only [mailAttempts_append, mailAttempts_logIf, h2, h3, List.append_nil]
      rfl
    | ok settings =>
      simp only
      have h3 := sendLoop_attempts m env mail settings id maxRetries 0 "" db2
      rcases hl : m.sendLoop env mail settings id maxRetries 0 "" db2 with ⟨r3, db3, t3⟩
      rw [hl] at h3
      simp only at h3 ⊢
      simp only [mailAttempts_append, h2, h3, List.append_nil]
      rfl

theorem mailAttempts_sendAll (m : MailModule) (env : DbEnv) (ids : List Int) :
    ∀ db, mailAttempts (m.sendAll env db ids).2 = ids := by
  induction ids with
  | nil => intro db; rfl
  | cons id rest ih =>
    intro db
    unfold MailModule.sendAll
    have h1 := mailAttempts_sendMail m env db id
    rcases hf : m.sendMail env db id with ⟨r, db1, t1⟩
    rw [hf] at h1
    simp only at h1 ⊢
    have h2 := ih db1
    rcases hr : m.sendAll env db1 rest with ⟨db2, t2⟩
    rw [hr] at h2
    simp only at h2 ⊢
    rw [mailAttempts_append, h1, h2]
    rfl

/-- C8: whenever the catch-up query returns its list of pending ids,
`MailModule.ProcessQueue` and `NotifyModule.ProcessQueue` return `nil` and
start one attempt per id, in the order the query returned them, whatever
the outcome of each attempt (every statement and transmission may fail). -/
theorem ProcessQueue_attempts_every_id (m : MailModule) (n : NotifyModule) (env : DbEnv)
    (mdb : MailDB) (ndb : NotifyDB)
    (hm : env.rows mdb.step = RowsOutcome.ok) (hn : env.rows ndb.step = RowsOutcome.ok) :
    (m.ProcessQueue env mdb).1 = none
      ∧ mailAttempts (m.ProcessQueue env mdb).2.2 = mdb.pending
      ∧ (n.ProcessQueue env ndb).1 = none
      ∧ notifyAttempts (n.ProcessQueue env ndb).2.2 = ndb.pending := by
  refine ⟨?_, ?_, ?_, ?_⟩
  · simp only [MailModule.ProcessQueue, hm]
  · simp only [MailModule.ProcessQueue, hm]
    exact mailAttempts_sendAll m env mdb.pending _
  · simp only [NotifyModule.ProcessQueue, hn]
  · simp only [NotifyModule.ProcessQueue, hn]
    exact notifyAttempts_forwardAll n env ndb.pending _

/-- Witness for C8: the sample states, every operation succeeding. -/
theorem ProcessQueue_attempts_every_id_witness :
    (sampleMail.ProcessQueue calmEnv sampleMailDB).1 = none
      ∧ mailAttempts (sampleMail.ProcessQueue calmEnv sampleMailDB).2.2 = sampleMailDB.pending
      ∧ (sampleNotify.ProcessQueue calmEnv sampleNotifyDB).1 = none
      ∧ notifyAttempts (sampleNotify.ProcessQueue calmEnv sampleNotifyDB).2.2
          = sampleNotifyDB.pending :=
  ProcessQueue_attempts_every_id sampleMail sampleNotify calmEnv sampleMailDB sampleNotifyDB
    rfl rfl

/-! ## Bridge: shutdown order -/

theorem filter_shutdown_logIf (lg : Option LoggerRef) (c : LogCall) :
    (logIf lg c).filter Event.isShutdownStep = [] := by
  cases lg <;> rfl

theorem stopListeners_steps (mgr : DatabaseManager) (log : Option LoggerRef)
    (ls : List (String × Listener)) :
    (stopListeners mgr log ls).filter Event.isShutdownStep
      = ls.map fun kv => Event.listenerStop kv.2.dbName kv.2.channel := by
  induction ls with
  | nil => rfl
  | cons kv rest ih =>
    obtain ⟨channel, listener⟩ := kv
    simp [stopListeners, List.filter_append, filter_shutdown_logIf, Event.isShutdownStep, ih]

theorem stopModules_steps (mgr : DatabaseManager) (log : Option LoggerRef) (ms : List Module) :
    (stopModules mgr log ms).filter Event.isShutdownStep
      = ms.map fun module => Event.moduleStop mgr.name module.Name := by
  induction ms with
  | nil => rfl
  | cons module rest ih =>
    cases module <;>
      simp [stopModules, Module.Stop, List.filter_append, filter_shutdown_logIf,
        Event.isShutdownStep, ih]

theorem Shutdown_steps (cm : ConnectionManager) :
    cm.Shutdown.2.filter Event.isShutdownStep
      = Event.cmShutdown cm.config.Name :: cm.poolsClosedByShutdown := by
  unfold ConnectionManager.Shutdown ConnectionManager.poolsClosedByShutdown
    ConnectionManager.Disconnect
  by_cases h : cm.shutdownOnce = true
  · simp [h, Event.isShutdownStep]
  · cases hp : cm.pool <;>
      simp [h, hp, Event.isShutdownStep, List.filter_append, filter_shutdown_logIf]

theorem cleanupManager_steps (mgr : DatabaseManager) (log : Option LoggerRef) :
    (cleanupManager mgr log).2.filter Event.isShutdownStep = shutdownOrder mgr := by
  unfold cleanupManager shutdownOrder
  simp only [List.filter_append, filter_shutdown_logIf, stopListeners_steps, stopModules_steps,
    Shutdown_steps, List.nil_append]

/-- C4: `cleanup` goes through the managers in order, and for each of them
its shutdown steps are, in this order: `Stop` on every listener of the
manager, then `Stop` on every module of the manager, then
`ConnectionManager.Shutdown`, within which the pool of that database is
closed. -/
theorem cleanup_order (managers : List DatabaseManager) (log : Option LoggerRef) :
    (cleanup managers log).2.filter Event.isShutdownStep
      = (managers.map fun mgr =>
          (mgr.listeners.map fun kv => Event.listenerStop kv.2.dbName kv.2.channel)
            ++ (mgr.modules.map fun module => Event.moduleStop mgr.name module.Name)
            ++ Event.cmShutdown mgr.connMgr.config.Name
                :: mgr.connMgr.poolsClosedByShutdown).flatten := by
  induction managers with
  | nil => rfl
  | cons mgr rest ih =>
    unfold cleanup
    simp only [List.filter_append, cleanupManager_steps, ih, List.map_cons, List.flatten_cons]
    rfl

/-! ## Bridge: start-up order -/

theorem startModules_order (env : StartupEnv) (dbManagers : List DatabaseManager) (i : Nat)
    (dbConfig : DatabaseConfig)
    (hL : ∀ j, env.loadCentralConfig i j = none) (hP : ∀ j, env.centralPool i j = none)
    (hI : ∀ j, env.moduleInitialize i j = none) (hS : ∀ j, env.moduleStart i j = none)
    (hLs : ∀ j, env.listenerStart i j = none) (mods : List String) :
    ∀ j dbMgr,
      ((startModules env dbManagers i dbConfig j mods dbMgr).2.map fun d => d.connMgr)
          = some dbMgr.connMgr
      ∧ (startModules env dbManagers i dbConfig j mods dbMgr).1.filter Event.isStartupStep
          = ((mods.filterMap moduleOfName).map (moduleStartupOrder dbConfig.Name)).flatten := by
  induction mods with
  | nil => intro j dbMgr; exact ⟨rfl, rfl⟩
  | cons moduleName rest ih =>
    intro j dbMgr
    have ih1 := fun j d => (ih j d).1
    have ih2 := fun j d => (ih j d).2
    cases hm : moduleOfName moduleName with
    | none =>
      simp only [startModules, hm, List.filterMap_cons]
      refine ⟨ih1 _ _, ?_⟩
      simp [List.filter_cons, Event.isStartupStep, ih2]
    | some module =>
      cases module <;>
        (simp only [startModules, hm, constructModule, hL, hP, hI, hS, hLs, List.filterMap_cons]
         refine ⟨by simp [ih1], ?_⟩
         cases env.processQueue i j <;>
           simp [List.filter_cons, List.filter_append, Event.isStartupStep, ih2,
             moduleStartupOrder])

theorem filter_startup_logIf (lg : Option LoggerRef) (c : LogCall) :
    (logIf lg c).filter Event.isStartupStep = [] := by
  cases lg <;> rfl

theorem Connect_startupSteps (cm : ConnectionManager) (o : ConnectOutcome) :
    (cm.Connect o).2.2.filter Event.isStartupStep = [Event.cmConnect cm.config.Name] := by
  unfold ConnectionManager.Connect
  by_cases h : cm.isConnected = true
  · simp [h, Event.isStartupStep]
  · cases o <;> simp [h, Event.isStartupStep, filter_startup_logIf, List.filter_append]

theorem NewConnectionManager_name (config : ConnectionConfig) (log : Option LoggerRef) :
    (NewConnectionManager config log).config.Name = config.Name := by
  unfold NewConnectionManager
  simp only []
  split <;> split <;> split <;> rfl

theorem NewConnectionManager_isConnected (config : ConnectionConfig) (log : Option LoggerRef) :
    (NewConnectionManager config log).isConnected = false := rfl

theorem setupDatabase_order (env : StartupEnv) (h : env.allSucceed) (n : Nat)
    (dbManagers : List DatabaseManager) (i : Nat) (dbConfig : DatabaseConfig) :
    (setupDatabase env n dbManagers i dbConfig).2.isSome = true
      ∧ (setupDatabase env n dbManagers i dbConfig).1.filter Event.isStartupStep
          = startupOrder dbConfig := by
  obtain ⟨hC, hS, hL, hP, hI, hSt, hLs⟩ := h
  have hc := Connect_succeeds
    (NewConnectionManager
      { Name := dbConfig.Name, ConnectionString := dbConfig.ConnectionString,
        MaxConnections := 0, MinConnections := 0, HealthCheckPeriod := 0 }
      (some .system)) (env.connect i) (NewConnectionManager_isConnected _ _) (hC i)
  have hsm := startModules_order env dbManagers i dbConfig (hL i) (hP i) (hI i) (hSt i) (hLs i)
    dbConfig.ActiveModules 0
  have hname : ((NewConnectionManager
      { Name := dbConfig.Name, ConnectionString := dbConfig.ConnectionString,
        MaxConnections := 0, MinConnections := 0, HealthCheckPeriod := 0 }
      (some LoggerRef.system)).Connect (env.connect i)).2.1.config.Name = dbConfig.Name := by
    rw [Connect_config, NewConnectionManager_name]
  unfold setupDatabase
  simp only []
  rcases hcon : (NewConnectionManager
      { Name := dbConfig.Name, ConnectionString := dbConfig.ConnectionString,
        MaxConnections := 0, MinConnections := 0, HealthCheckPeriod := 0 }
      (some LoggerRef.system)).Connect (env.connect i) with ⟨err, cm1, t1⟩
  have ht1 := Connect_startupSteps (NewConnectionManager
      { Name := dbConfig.Name, ConnectionString := dbConfig.ConnectionString,
        MaxConnections := 0, MinConnections := 0, HealthCheckPeriod := 0 }
      (some LoggerRef.system)) (env.connect i)
  rw [hcon] at hc ht1 hname
  simp only at hc ht1 hname
  rw [NewConnectionManager_name] at ht1
  rw [hc.1]
  simp only [hS]
  have hm := hsm
    { name := dbConfig.Name, connMgr := cm1, modules := [], listeners := [],
      logger := some LoggerRef.main }
  rcases hst : startModules env dbManagers i dbConfig 0 dbConfig.ActiveModules
    { name := dbConfig.Name, connMgr := cm1, modules := [], listeners := [],
      logger := some LoggerRef.main } with ⟨t3, r⟩
  rw [hst] at hm
  simp only at hm
  cases r with
  | none => simp at hm
  | some dbMgr1 =>
    obtain ⟨hm1, hm2⟩ := hm
    simp only [Option.map_some', Option.some.injEq] at hm1
    simp only [ConnectionManager.StartHealthCheck, Option.isSome_some, true_and]
    have ht2 : (if i = 0 then
        [Event.loggerStart cm1.pool,
          Event.log LoggerRef.system (.LogSystemf .Info "main" "Database logging initialized on: %s"
            [dbConfig.Name])]
      else []).filter Event.isStartupStep = [] := by
      split <;> rfl
    simp only [List.filter_append, List.filter_cons, ht1, ht2, hm2, hm1, hname,
      Event.isStartupStep, startupOrder]
    simp

theorem setupDatabases_order (env : StartupEnv) (h : env.allSucceed) (n : Nat)
    (dbs : List DatabaseConfig) :
    ∀ i dbManagers,
      (setupDatabases env n i dbs dbManagers).2.isSome = true
        ∧ (setupDatabases env n i dbs dbManagers).1.filter Event.isStartupStep
            = (dbs.map startupOrder).flatten := by
  induction dbs with
  | nil => intro i dbManagers; exact ⟨rfl, rfl⟩
  | cons dbConfig rest ih =>
    intro i dbManagers
    have h1 := setupDatabase_order env h n dbManagers i dbConfig
    unfold setupDatabases
    rcases hs : setupDatabase env n dbManagers i dbConfig with ⟨t, r⟩
    rw [hs] at h1
    simp only at h1
    cases r with
    | none => simp at h1
    | some dbMgr =>
      simp only
      have h2 := ih (i + 1) (dbManagers ++ [dbMgr])
      refine ⟨h2.1, ?_⟩
      simp only [List.filter_append, h1.2, h2.2, List.map_cons, List.flatten_cons]

/-- C3 as amended: when every fallible start-up step succeeds, start-up
completes and its steps are, database after database in configuration
order: `Connect`, the schema bootstrap, then for each configured module
identifier that `main` recognises, in list order, `Initialize`, `Start`,
`ProcessQueue`, `Listener.Start`, and last `StartHealthCheck`.  So no
listener starts before the catch-up scan of its module has returned, and
the health check starts after the last listener. -/
theorem startup_order (env : StartupEnv) (cfg : Config) (h : env.allSucceed) :
    (startup env cfg).2.isSome = true
      ∧ (startup env cfg).1.filter Event.isStartupStep
          = (cfg.Databases.map fun dbConfig =>
              [Event.cmConnect dbConfig.Name, Event.schemaInit dbConfig.Name]
                ++ ((dbConfig.ActiveModules.filterMap moduleOfName).map fun module =>
                      [Event.moduleInitialize dbConfig.Name module.Name,
                        Event.moduleStart dbConfig.Name module.Name,
                        Event.moduleProcessQueue dbConfig.Name module.Name,
                        Event.listenerStart dbConfig.Name module.GetChannelName]).flatten
                ++ [Event.healthCheckStart dbConfig.Name]).flatten := by
  have hs := setupDatabases_order env h cfg.Databases.length cfg.Databases 0 []
  refine ⟨hs.1, ?_⟩
  have e : startupOrder = fun dbConfig =>
      [Event.cmConnect dbConfig.Name, Event.schemaInit dbConfig.Name]
        ++ ((dbConfig.ActiveModules.filterMap moduleOfName).map fun module =>
              [Event.moduleInitialize dbConfig.Name module.Name,
                Event.moduleStart dbConfig.Name module.Name,
                Event.moduleProcessQueue dbConfig.Name module.Name,
                Event.listenerStart dbConfig.Name module.GetChannelName]).flatten
        ++ [Event.healthCheckStart dbConfig.Name] := by
    funext dbConfig
    rfl
  rw [← e]
  exact hs.2

theorem calmStartupEnv_allSucceed : calmStartupEnv.allSucceed :=
  ⟨fun _ => rfl, fun _ => rfl, fun _ _ => rfl, fun _ _ => rfl, fun _ _ => rfl, fun _ _ => rfl,
    fun _ _ => rfl⟩

/-- Witness for C3 as amended: the sample configuration, every step succeeding. -/
theorem startup_order_witness :
    (startup calmStartupEnv sampleConfig).2.isSome = true
      ∧ (startup calmStartupEnv sampleConfig).1.filter Event.isStartupStep
          = (sampleConfig.Databases.map fun dbConfig =>
              [Event.cmConnect dbConfig.Name, Event.schemaInit dbConfig.Name]
                ++ ((dbConfig.ActiveModules.filterMap moduleOfName).map fun module =>
                      [Event.moduleInitialize dbConfig.Name module.Name,
                        Event.moduleStart dbConfig.Name module.Name,
                        Event.moduleProcessQueue dbConfig.Name module.Name,
                        Event.listenerStart dbConfig.Name module.GetChannelName]).flatten
                ++ [Event.healthCheckStart dbConfig.Name]).flatten :=
  startup_order calmStartupEnv sampleConfig calmStartupEnv_allSucceed

/-- C3 as stated fails: in the sample configuration the identifier
`pgb_sms` is configured for `db1` and every step succeeds, yet start-up
runs the four module steps for `pgb_mail` only; for `pgb_sms` there is no
`Initialize`, `Start`, `ProcessQueue` or `Listener.Start`. -/
theorem startup_skips_unrecognised_module :
    (sampleConfig.Databases.map fun dbConfig => dbConfig.ActiveModules)
        = [["pgb_mail", "pgb_sms"]]
      ∧ (startup calmStartupEnv sampleConfig).2.isSome = true
      ∧ (startup calmStartupEnv sampleConfig).1.filter Event.isStartupStep
          = [Event.cmConnect "db1", Event.schemaInit "db1",
              Event.moduleInitialize "db1" "pgb_mail", Event.moduleStart "db1" "pgb_mail",
              Event.moduleProcessQueue "db1" "pgb_mail", Event.listenerStart "db1" "pgb_mail",
              Event.healthCheckStart "db1"]
      ∧ Event.log LoggerRef.main (.LogSystemf .Warn "main" "Unknown module: %s" ["pgb_sms"])
          ∈ (startup calmStartupEnv sampleConfig).1 := by
  refine ⟨rfl, rfl, rfl, ?_⟩
  decide

/-! ## Bridge: every listener `main` builds carries the main logger -/

theorem mem_mapInsert {α : Type} (m : List (String × α)) (key : String) (value : α)
    (kv : String × α) (h : kv ∈ mapInsert m key value) : kv ∈ m ∨ kv = (key, value) := by
  unfold mapInsert at h
  split at h
  · rw [List.mem_map] at h
    obtain ⟨a, ha, e⟩ := h
    split at e
    · exact Or.inr e.symm
    · exact Or.inl (e ▸ ha)
  · rw [List.mem_append] at h
    rcases h with h | h
    · exact Or.inl h
    · exact Or.inr (by simpa using h)

theorem startModules_listeners_logger (env : StartupEnv) (dbManagers : List DatabaseManager)
    (i : Nat) (dbConfig : DatabaseConfig) (mods : List String) :
    ∀ j dbMgr d, (∀ kv ∈ dbMgr.listeners, kv.2.logger = some LoggerRef.main) →
      (startModules env dbManagers i dbConfig j mods dbMgr).2 = some d →
      ∀ kv ∈ d.listeners, kv.2.logger = some LoggerRef.main := by
  induction mods with
  | nil =>
    intro j dbMgr d hinv h
    simp only [startModules, Option.some.injEq] at h
    subst h
    exact hinv
  | cons moduleName rest ih =>
    intro j dbMgr d hinv h
    rw [startModules] at h
    split at h
    · exact ih _ _ _ hinv h
    · split at h
      · exact absurd h (by simp)
      · split at h
        · exact absurd h (by simp)
        · split at h
          · exact absurd h (by simp)
          · simp only [] at h
            split at h
            · exact absurd h (by simp)
            · refine ih _ _ _ ?_ h
              intro kv hkv
              rcases mem_mapInsert _ _ _ _ hkv with h1 | h1
              · exact hinv kv h1
              · rw [h1]

theorem setupDatabase_listeners_logger (env : StartupEnv) (n : Nat)
    (dbManagers : List DatabaseManager) (i : Nat) (dbConfig : DatabaseConfig)
    (d : DatabaseManager) (h : (setupDatabase env n dbManagers i dbConfig).2 = some d) :
    ∀ kv ∈ d.listeners, kv.2.logger = some LoggerRef.main := by
  unfold setupDatabase at h
  simp only [] at h
  split at h
  · exact absurd h (by simp)
  · split at h
    · exact absurd h (by simp)
    · split at h
      · exact absurd h (by simp)
      · next cm1 t1 hc hs t3 dbMgr1 hst =>
        simp only [ConnectionManager.StartHealthCheck, Option.some.injEq] at h
        subst h
        exact startModules_listeners_logger env dbManagers i dbConfig dbConfig.ActiveModules 0 _
          dbMgr1 (fun kv hkv => absurd hkv (by simp)) (congrArg Prod.snd hst)

theorem setupDatabases_listeners_logger (env : StartupEnv) (n : Nat) (dbs : List DatabaseConfig) :
    ∀ i dbManagers managers,
      (∀ mgr ∈ dbManagers, ∀ kv ∈ mgr.listeners, kv.2.logger = some LoggerRef.main) →
      (setupDatabases env n i dbs dbManagers).2 = some managers →
      ∀ mgr ∈ managers, ∀ kv ∈ mgr.listeners, kv.2.logger = some LoggerRef.main := by
  induction dbs with
  | nil =>
    intro i dbManagers managers hinv h
    simp only [setupDatabases, Option.some.injEq] at h
    subst h
    exact hinv
  | cons dbConfig rest ih =>
    intro i dbManagers managers hinv h
    rw [setupDatabases] at h
    split at h
    · exact absurd h (by simp)
    · next t dbMgr hs =>
      refine ih _ _ _ ?_ h
      intro mgr hmgr
      rw [List.mem_append] at hmgr
      rcases hmgr with h1 | h1
      · exact hinv mgr h1
      · have e : mgr = dbMgr := by simpa using h1
        subst e
        exact setupDatabase_listeners_logger env n dbManagers i dbConfig mgr (by rw [hs])

/-- Every listener registered by a completed start-up has the main logger. -/
theorem startup_listeners_logger (env : StartupEnv) (cfg : Config)
    (managers : List DatabaseManager) (h : (startup env cfg).2 = some managers) :
    ∀ mgr ∈ managers, ∀ kv ∈ mgr.listeners, kv.2.logger = some LoggerRef.main :=
  setupDatabases_listeners_logger env cfg.Databases.length cfg.Databases 0 [] managers
    (fun mgr hmgr => absurd hmgr (by simp)) h

/-! ## Bridge: global shutdown -/

/-- C5 (the code at the failing input): after a start-up of the sample
configuration, with the main logger on pool 100 and nothing left in its
queue, the global shutdown sequence closes pool 100 inside `cleanup` and
only then enqueues the service-stop entry, which `Logger.Shutdown` flushes
with an `INSERT` on the closed pool 100. -/
theorem shutdown_writes_log_after_pool_close :
    (((startup calmStartupEnv sampleConfig).2.getD []).map fun mgr => mgr.connMgr.pool)
        = [some 100]
      ∧ sampleMainLogger.dbPool = some 100
      ∧ ((shutdownSequence closedPoolWriterEnv ((startup calmStartupEnv sampleConfig).2.getD [])
            (some sampleMainLogger)).map fun r =>
          r.2.2.filter fun e =>
            match e with
            | .poolClose _ => true
            | .logWrite _ _ => true
            | .log LoggerRef.main (.Log _ _ _ _) => true
            | _ => false)
          = some [Event.poolClose 100,
              Event.log LoggerRef.main (.Log .Info "main" "SERVICE_STOP" "pgbridge stopped"),
              Event.logWrite 100 "SERVICE_STOP"] := by
  refine ⟨rfl, rfl, rfl⟩

/-! ## Logger: enqueue after shutdown -/

/-- C14 (the code at the failing input): on the sample logger after
`Shutdown()` has returned (channel `shutdown` closed, queue empty), the
`select` of `LogDatabase` has both the send and the shutdown case ready;
when the runtime picks the send case the entry is queued and no warning
is written. -/
theorem LogDatabase_enqueues_after_shutdown :
    stoppedLogger.shutdown = true
      ∧ stoppedLogger.logChan = []
      ∧ stoppedLogger.logDatabaseReady = [LogDatabaseCase.send, LogDatabaseCase.shutdown]
      ∧ stoppedLogger.LogDatabase sampleEntry 0
          = some { stoppedLogger with logChan := [sampleEntry] }
      ∧ ((stoppedLogger.LogDatabase sampleEntry 0).map fun l => l.systemLog)
          = some stoppedLogger.systemLog := by
  refine ⟨rfl, rfl, rfl, rfl, rfl⟩

/-! ## Connection manager: Connect, Shutdown, health check -/

/-- C16: on a manager that is already Connected, `Connect` returns `nil`
and leaves every field of the manager as it was; it opens no pool and
makes no probe (the only event is the entry into `Connect`). -/
theorem Connect_idempotent (cm : ConnectionManager) (o : ConnectOutcome)
    (h : cm.isConnected = true) :
    cm.Connect o = (none, cm, [Event.cmConnect cm.config.Name]) := by
  simp [ConnectionManager.Connect, h]

/-- Witness for C16: the sample Connected manager, with a new pool on offer. -/
theorem Connect_idempotent_witness :
    connectedManager.Connect (ConnectOutcome.ok 9)
      = (none, connectedManager, [Event.cmConnect connectedManager.config.Name]) :=
  Connect_idempotent connectedManager (ConnectOutcome.ok 9) rfl

/-- C17: on a Disconnected manager, a `Connect` that fails at the parse,
at the pool creation or at the probe returns an error and leaves the
manager as it was (Disconnected, stored pool unchanged); a `Connect` whose
every stage succeeds returns `nil` and leaves the manager Connected with
the new pool stored. -/
theorem Connect_from_disconnected (cm : ConnectionManager) (h : cm.isConnected = false) :
    (∀ err, (cm.Connect (.parseFail err)).1.isSome = true
        ∧ (cm.Connect (.parseFail err)).2.1 = cm)
      ∧ (∀ err, (cm.Connect (.poolFail err)).1.isSome = true
        ∧ (cm.Connect (.poolFail err)).2.1 = cm)
      ∧ (∀ p err, (cm.Connect (.pingFail p err)).1.isSome = true
        ∧ (cm.Connect (.pingFail p err)).2.1 = cm)
      ∧ (∀ p, (cm.Connect (.ok p)).1 = none
        ∧ (cm.Connect (.ok p)).2.1 = { cm with pool := some p, isConnected := true }) := by
  simp [ConnectionManager.Connect, h]

/-- Witness for C17: the sample manager, fresh from `NewConnectionManager`. -/
theorem Connect_from_disconnected_witness :
    (∀ err, (sampleManager.Connect (.parseFail err)).1.isSome = true
        ∧ (sampleManager.Connect (.parseFail err)).2.1 = sampleManager)
      ∧ (∀ err, (sampleManager.Connect (.poolFail err)).1.isSome = true
        ∧ (sampleManager.Connect (.poolFail err)).2.1 = sampleManager)
      ∧ (∀ p err, (sampleManager.Connect (.pingFail p err)).1.isSome = true
        ∧ (sampleManager.Connect (.pingFail p err)).2.1 = sampleManager)
      ∧ (∀ p, (sampleManager.Connect (.ok p)).1 = none
        ∧ (sampleManager.Connect (.ok p)).2.1
            = { sampleManager with pool := some p, isConnected := true }) :=
  Connect_from_disconnected sampleManager rfl

theorem Shutdown_done (cm : ConnectionManager) (h : cm.shutdownOnce = true) :
    cm.Shutdown = (cm, [Event.cmShutdown cm.config.Name]) := by
  simp [ConnectionManager.Shutdown, h]

theorem Shutdown_first (cm : ConnectionManager) (h : cm.shutdownOnce = false) :
    cm.Shutdown.1.shutdownOnce = true ∧ cm.Shutdown.1.config = cm.config
      ∧ cm.Shutdown.1.isConnected = false ∧ cm.Shutdown.1.pool = none
      ∧ cm.Shutdown.1.shutdown = true ∧ cm.Shutdown.1.ctxDone = true := by
  unfold ConnectionManager.Shutdown ConnectionManager.Disconnect
  cases hp : cm.pool <;> simp [h, hp]

theorem shutdownTimes_done (k : Nat) :
    ∀ cm : ConnectionManager, cm.shutdownOnce = true →
      cm.shutdownTimes k = (cm, List.replicate k (Event.cmShutdown cm.config.Name)) := by
  induction k with
  | zero => intro cm _; rfl
  | succ k ih =>
    intro cm h
    rw [ConnectionManager.shutdownTimes, Shutdown_done cm h]
    simp only [ih cm h, List.replicate_succ, List.singleton_append]

theorem Shutdown_disconnects_once (cm : ConnectionManager) (h : cm.shutdownOnce = false) :
    (cm.Shutdown.2.filter fun e => decide (e = Event.cmDisconnect cm.config.Name))
      = [Event.cmDisconnect cm.config.Name] := by
  unfold ConnectionManager.Shutdown ConnectionManager.Disconnect
  cases hp : cm.pool <;> cases hl : cm.logger <;> simp [h, hp, hl, logIf]

/-- C18: on a manager that has not been shut down, `k >= 1` calls of
`Shutdown` leave the manager exactly as one call does, and their events
are those of one call followed by `k - 1` bare entries into `Shutdown`:
the body runs once (one `Disconnect`), the later calls do nothing; in the
end the manager is Disconnected with no pool. -/
theorem Shutdown_runs_once (cm : ConnectionManager) (k : Nat)
    (h : cm.shutdownOnce = false) (hk : 1 ≤ k) :
    (cm.shutdownTimes k).1 = cm.Shutdown.1
      ∧ (cm.shutdownTimes k).2
          = cm.Shutdown.2 ++ List.replicate (k - 1) (Event.cmShutdown cm.config.Name)
      ∧ ((cm.shutdownTimes k).2.filter
            fun e => decide (e = Event.cmDisconnect cm.config.Name)).length = 1
      ∧ (cm.shutdownTimes k).1.isConnected = false
      ∧ (cm.shutdownTimes k).1.pool = none := by
  obtain ⟨j, rfl⟩ : ∃ j, k = j + 1 := ⟨k - 1, by omega⟩
  obtain ⟨h1, h2, h3, h4, _, _⟩ := Shutdown_first cm h
  have e : cm.shutdownTimes (j + 1)
      = (cm.Shutdown.1, cm.Shutdown.2 ++ List.replicate j (Event.cmShutdown cm.config.Name)) := by
    rw [ConnectionManager.shutdownTimes]
    simp only [shutdownTimes_done j cm.Shutdown.1 h1, h2]
  rw [e]
  refine ⟨rfl, by simp, ?_, h3, h4⟩
  simp only [List.filter_append, Shutdown_disconnects_once cm h, List.length_append,
    List.length_singleton]
  simp

/-- Witness for C18: three calls on the sample Connected manager. -/
theorem Shutdown_runs_once_witness :
    (connectedManager.shutdownTimes 3).1 = connectedManager.Shutdown.1
      ∧ (connectedManager.shutdownTimes 3).2
          = connectedManager.Shutdown.2
              ++ List.replicate (3 - 1) (Event.cmShutdown connectedManager.config.Name)
      ∧ ((connectedManager.shutdownTimes 3).2.filter
            fun e => decide (e = Event.cmDisconnect connectedManager.config.Name)).length = 1
      ∧ (connectedManager.shutdownTimes 3).1.isConnected = false
      ∧ (connectedManager.shutdownTimes 3).1.pool = none :=
  Shutdown_runs_once connectedManager 3 rfl (by decide)

theorem Ping_no_launch (cm : ConnectionManager) (probe : Option String) :
    reconnectLaunches (cm.Ping probe).2 = [] := by
  unfold ConnectionManager.Ping
  cases cm.pool <;> rfl

theorem reconnectLaunches_logIf (lg : Option LoggerRef) (c : LogCall) :
    reconnectLaunches (logIf lg c) = [] := by
  cases lg <;> rfl

theorem reconnectLaunches_append (a b : List Event) :
    reconnectLaunches (a ++ b) = reconnectLaunches a ++ reconnectLaunches b := by
  simp [reconnectLaunches]

/-- C19 as amended: on a health-check tick whose probe fails the manager
becomes Disconnected (nothing else changes) and a `Reconnect` is launched
exactly when the manager was Connected before the tick; on a tick whose
probe succeeds the manager is left unchanged and no `Reconnect` is
launched. -/
theorem healthCheckTick_effect (cm : ConnectionManager) (probe : Option String) :
    (∀ err, (cm.Ping probe).1 = some err →
        (cm.healthCheckTick probe).1 = { cm with isConnected := false }
          ∧ reconnectLaunches (cm.healthCheckTick probe).2
              = if cm.isConnected then [Event.reconnectLaunch cm.config.Name] else [])
      ∧ ((cm.Ping probe).1 = none →
          (cm.healthCheckTick probe).1 = cm
            ∧ reconnectLaunches (cm.healthCheckTick probe).2 = []) := by
  have hp := Ping_no_launch cm probe
  unfold ConnectionManager.healthCheckTick ConnectionManager.handleConnectionLoss
  rcases hping : cm.Ping probe with ⟨r, t⟩
  rw [hping] at hp
  simp only at hp
  constructor
  · intro err herr
    simp only at herr
    subst herr
    cases hc : cm.isConnected <;>
      (constructor
       · simp
       · simp only [Bool.false_eq_true, ↓reduceIte, reconnectLaunches_append,
           reconnectLaunches_logIf, hp]
         rfl)
  · intro hnone
    simp only at hnone
    subst hnone
    constructor
    · trivial
    · simp only [reconnectLaunches_append, reconnectLaunches_logIf, hp]
      rfl

/-- C19 as stated fails: on the sample Connected manager two ticks in a
row have a failing probe; the first makes the manager Disconnected and
launches a `Reconnect`, the second finds it Disconnected and launches
none. -/
theorem second_failed_tick_launches_nothing :
    ((connectedManager.healthCheckLoop downHealthEnv 3 0).map
        fun r => r.2.filter Event.isHealthOutcome)
      = some [Event.log LoggerRef.system (.LogHealthCheckFail "db1" "connection refused"),
          Event.reconnectLaunch "db1",
          Event.log LoggerRef.system (.LogHealthCheckFail "db1" "connection refused")] := by
  rfl

/-! ## Reconnect: no giving up -/

theorem Connect_entry_once (cm : ConnectionManager) (o : ConnectOutcome) :
    ((cm.Connect o).2.2.filter fun e => decide (e = Event.cmConnect cm.config.Name)).length
      = 1 := by
  unfold ConnectionManager.Connect
  cases cm.isConnected <;> cases o <;> cases cm.logger <;> simp [logIf]

/-- The bounded run and the followed run of `Reconnect` agree: the loop has
returned within `fuel` iterations exactly when the followed run has a
result, with the same error, manager and events. -/
theorem reconnectLoop_eq_progress (env : ReconnectEnv) (fuel : Nat) :
    ∀ (i : Nat) (cm : ConnectionManager) (d : Duration) (a : Int),
      cm.reconnectLoop env fuel i d a
        = (cm.reconnectProgress env fuel i d a).result.map fun err =>
            { err := err, cm := (cm.reconnectProgress env fuel i d a).cm,
              trace := (cm.reconnectProgress env fuel i d a).trace } := by
  induction fuel with
  | zero => intro i cm d a; rfl
  | succ fuel ih =>
    intro i cm d a
    rw [ConnectionManager.reconnectLoop, ConnectionManager.reconnectProgress]
    cases hs : env.selectTop i with
    | shutdown => rfl
    | ctxDone => rfl
    | none =>
      simp only
      cases hc : (cm.Disconnect.1.Connect (env.connect i)).1 with
      | none => rfl
      | some e =>
        simp only
        cases hw : env.selectWait i with
        | shutdown => rfl
        | ctxDone => rfl
        | none =>
          simp only [ih]
          cases (ConnectionManager.reconnectProgress env fuel (i + 1)
            (cm.Disconnect.1.Connect (env.connect i)).2.1 (nextDelay d)
            (wrapInt64 (a + 1))).result <;> rfl

theorem reconnectLoop_error_observed (env : ReconnectEnv) (fuel : Nat) :
    ∀ (i : Nat) (cm : ConnectionManager) (d : Duration) (a : Int) (r : ReconnectResult),
      cm.reconnectLoop env fuel i d a = some r → r.err.isSome = true →
      ∃ j, i ≤ j ∧ j < i + fuel ∧ env.observes j = true
        ∧ ∀ k, i ≤ k → k < j → env.observes k = false := by
  induction fuel with
  | zero => intro i cm d a r h; simp [ConnectionManager.reconnectLoop] at h
  | succ fuel ih =>
    intro i cm d a r h herr
    have here : env.observes i = true →
        ∃ j, i ≤ j ∧ j < i + (fuel + 1) ∧ env.observes j = true
          ∧ ∀ k, i ≤ k → k < j → env.observes k = false :=
      fun ho => ⟨i, Nat.le_refl i, by omega, ho, fun k h1 h2 => by omega⟩
    rw [ConnectionManager.reconnectLoop] at h
    cases hs : env.selectTop i with
    | shutdown => exact here (by simp [ReconnectEnv.observes, hs])
    | ctxDone => exact here (by simp [ReconnectEnv.observes, hs])
    | none =>
      simp only [hs] at h
      cases hc : (cm.Disconnect.1.Connect (env.connect i)).1 with
      | none =>
        simp only [hc, Option.some.injEq] at h
        subst h
        simp at herr
      | some e =>
        simp only [hc] at h
        cases hw : env.selectWait i with
        | shutdown => exact here (by simp [ReconnectEnv.observes, hw])
        | ctxDone => exact here (by simp [ReconnectEnv.observes, hw])
        | none =>
          simp only [hw, Option.map_eq_some'] at h
          obtain ⟨r2, hr2, e2⟩ := h
          subst e2
          obtain ⟨j, hj, hj2, ho, hb⟩ := ih (i + 1) _ _ _ r2 hr2 herr
          refine ⟨j, by omega, by omega, ho, ?_⟩
          intro k h1 h2
          by_cases e : k = i
          · subst e
            simp [ReconnectEnv.observes, hs, hw]
          · exact hb k (by omega) h2

theorem reconnectLoop_returns (env : ReconnectEnv) (n : Nat) :
    ∀ (i : Nat) (cm : ConnectionManager) (d : Duration) (a : Int),
      env.observes (i + n) = true → ∃ r, cm.reconnectLoop env (n + 1) i d a = some r := by
  induction n with
  | zero =>
    intro i cm d a ho
    rw [ConnectionManager.reconnectLoop]
    simp only [ReconnectEnv.observes, Nat.add_zero, Bool.or_eq_true, bne_iff_ne, ne_eq] at ho
    cases hs : env.selectTop i with
    | shutdown => exact ⟨_, rfl⟩
    | ctxDone => exact ⟨_, rfl⟩
    | none =>
      simp only
      cases hc : (cm.Disconnect.1.Connect (env.connect i)).1 with
      | none => exact ⟨_, rfl⟩
      | some e =>
        simp only
        cases hw : env.selectWait i with
        | shutdown => exact ⟨_, rfl⟩
        | ctxDone => exact ⟨_, rfl⟩
        | none => simp [hs, hw] at ho
  | succ n ih =>
    intro i cm d a ho
    rw [ConnectionManager.reconnectLoop]
    cases hs : env.selectTop i with
    | shutdown => exact ⟨_, rfl⟩
    | ctxDone => exact ⟨_, rfl⟩
    | none =>
      simp only
      cases hc : (cm.Disconnect.1.Connect (env.connect i)).1 with
      | none => exact ⟨_, rfl⟩
      | some e =>
        simp only
        cases hw : env.selectWait i with
        | shutdown => exact ⟨_, rfl⟩
        | ctxDone => exact ⟨_, rfl⟩
        | none =>
          simp only
          have e1 : i + 1 + n = i + (n + 1) := by omega
          obtain ⟨r, hr⟩ := ih (i + 1) (cm.Disconnect.1.Connect (env.connect i)).2.1
            (nextDelay d) (wrapInt64 (a + 1)) (by rw [e1]; exact ho)
          rw [hr]
          exact ⟨_, rfl⟩

theorem reconnectProgress_keeps_trying (env : ReconnectEnv) (N : Nat)
    (hTop : ∀ i, i ≤ N → env.selectTop i = Signal.none)
    (hWait : ∀ i, i < N → env.selectWait i = Signal.none)
    (hFail : ∀ i, i < N → (env.connect i).succeeds = false) :
    ∀ n i, i + n = N → ∀ (cm : ConnectionManager) (d : Duration) (a : Int),
      (cm.reconnectProgress env n i d a).result = none
        ∧ ((cm.reconnectProgress env n i d a).trace.filter
            fun e => decide (e = Event.cmConnect cm.config.Name)).length = n
        ∧ ((cm.reconnectProgress env (n + 1) i d a).trace.filter
            fun e => decide (e = Event.cmConnect cm.config.Name)).length = n + 1 := by
  intro n
  induction n with
  | zero =>
    intro i hi cm d a
    refine ⟨rfl, rfl, ?_⟩
    have h1 := Connect_entry_once cm.Disconnect.1 (env.connect i)
    rw [Disconnect_config] at h1
    have h2 : (cm.Disconnect.2.filter
        fun e => decide (e = Event.cmConnect cm.config.Name)).length = 0 := by
      unfold ConnectionManager.Disconnect
      cases cm.pool <;> cases cm.logger <;> simp [logIf]
    have h3 : ∀ (lg : Option LoggerRef) (c : LogCall),
        ((logIf lg c).filter fun e => decide (e = Event.cmConnect cm.config.Name)).length = 0 := by
      intro lg c
      cases lg <;> simp [logIf]
    rw [ConnectionManager.reconnectProgress]
    simp only [hTop i (by omega)]
    cases hc : (cm.Disconnect.1.Connect (env.connect i)).1 with
    | none =>
      simp only [List.filter_append, List.length_append, h1, h2, h3]
    | some e =>
      simp only
      cases hw : env.selectWait i with
      | shutdown => simp only [List.filter_append, List.length_append, h1, h2, h3]
      | ctxDone => simp only [List.filter_append, List.length_append, h1, h2, h3]
      | none =>
        simp only [ConnectionManager.reconnectProgress, List.filter_append, List.length_append,
          h1, h2, h3, List.filter_cons, List.filter_nil]
        rw [if_neg (by simp)]
        rfl
  | succ n ih =>
    intro i hi cm d a
    have hiN : i < N := by omega
    obtain ⟨e, he⟩ := Connect_fails cm.Disconnect.1 (env.connect i) (Disconnect_isConnected cm)
      (hFail i hiN)
    have hcfg : (cm.Disconnect.1.Connect (env.connect i)).2.1.config = cm.config := by
      rw [Connect_config, Disconnect_config]
    have h1 := Connect_entry_once cm.Disconnect.1 (env.connect i)
    rw [Disconnect_config] at h1
    have h2 : (cm.Disconnect.2.filter
        fun e => decide (e = Event.cmConnect cm.config.Name)).length = 0 := by
      unfold ConnectionManager.Disconnect
      cases cm.pool <;> cases cm.logger <;> simp [logIf]
    have h3 : ∀ (lg : Option LoggerRef) (c : LogCall),
        ((logIf lg c).filter fun e => decide (e = Event.cmConnect cm.config.Name)).length = 0 := by
      intro lg c
      cases lg <;> simp [logIf]
    have ih2 := ih (i + 1) (by omega) (cm.Disconnect.1.Connect (env.connect i)).2.1
      (nextDelay d) (wrapInt64 (a + 1))
    rw [hcfg] at ih2
    obtain ⟨i1, i2, i3⟩ := ih2
    have step : ∀ m, cm.reconnectProgress env (m + 1) i d a
        = { (ConnectionManager.reconnectProgress env m (i + 1)
              (cm.Disconnect.1.Connect (env.connect i)).2.1 (nextDelay d) (wrapInt64 (a + 1))) with
            trace := (logIf cm.logger (.LogDBReconnect cm.config.Name (wrapInt64 (a + 1)) d)
                ++ cm.Disconnect.2 ++ (cm.Disconnect.1.Connect (env.connect i)).2.2)
              ++ Event.sleep d ::
                (ConnectionManager.reconnectProgress env m (i + 1)
                  (cm.Disconnect.1.Connect (env.connect i)).2.1 (nextDelay d)
                  (wrapInt64 (a + 1))).trace } := by
      intro m
      rw [ConnectionManager.reconnectProgress]
      simp only [hTop i (by omega), he, hWait i hiN]
    refine ⟨?_, ?_, ?_⟩
    · rw [step]; exact i1
    · rw [step]
      simp only [List.filter_append, List.length_append, h1, h2, h3, List.filter_cons]
      rw [if_neg (by simp), i2]
      omega
    · rw [step]
      simp only [List.filter_append, List.length_append, h1, h2, h3, List.filter_cons]
      rw [if_neg (by simp), i3]
      omega

/-- C15: `Reconnect` never gives up on its own.  It returns an error only
when one of its `select` statements has observed the shutdown signal or the
cancellation of the context, at the first iteration that observes one; and
once an iteration observes one it has returned.  After `N` failed
connection attempts in a row with no shutdown or cancellation it has not
returned, it has entered `Connect` exactly `N` times, and it goes on to
attempt `N + 1`: one iteration later it has entered `Connect` `N + 1`
times.  (The run followed for a number of iterations and the bounded run
are the same run.) -/
theorem Reconnect_never_gives_up (env : ReconnectEnv) (cm : ConnectionManager) :
    (∀ fuel r, cm.Reconnect env fuel = some r → r.err.isSome = true →
        ∃ j, j < fuel ∧ env.observes j = true ∧ ∀ k, k < j → env.observes k = false)
      ∧ (∀ k, env.observes k = true → ∃ r, cm.Reconnect env (k + 1) = some r)
      ∧ (∀ fuel, cm.Reconnect env fuel
          = (cm.reconnectSoFar env fuel).result.map fun err =>
              { err := err, cm := (cm.reconnectSoFar env fuel).cm,
                trace := (cm.reconnectSoFar env fuel).trace })
      ∧ (∀ N, (∀ i, i ≤ N → env.selectTop i = Signal.none) →
          (∀ i, i < N → env.selectWait i = Signal.none) →
          (∀ i, i < N → (env.connect i).succeeds = false) →
          cm.Reconnect env N = none
            ∧ (cm.reconnectSoFar env N).result = none
            ∧ ((cm.reconnectSoFar env N).trace.filter
                fun e => decide (e = Event.cmConnect cm.config.Name)).length = N
            ∧ ((cm.reconnectSoFar env (N + 1)).trace.filter
                fun e => decide (e = Event.cmConnect cm.config.Name)).length = N + 1) := by
  refine ⟨?_, ?_, ?_, ?_⟩
  · intro fuel r hr herr
    obtain ⟨j, _, hj, ho, hb⟩ := reconnectLoop_error_observed env fuel 0 cm initialDelay 0 r hr herr
    exact ⟨j, by omega, ho, fun k hk => hb k (Nat.zero_le k) hk⟩
  · intro k ho
    exact reconnectLoop_returns env k 0 cm initialDelay 0 (by simpa using ho)
  · intro fuel
    exact reconnectLoop_eq_progress env fuel 0 cm initialDelay 0
  · intro N hTop hWait hFail
    obtain ⟨h1, h2, h3⟩ :=
      reconnectProgress_keeps_trying env N hTop hWait hFail N 0 (by omega) cm initialDelay 0
    refine ⟨?_, h1, h2, h3⟩
    unfold ConnectionManager.Reconnect
    rw [reconnectLoop_eq_progress, h1]
    rfl

/-- Witness for C15: with every probe failing and the shutdown signal
arriving during the third wait, `Reconnect` returns the shutdown error at
the first iteration that observes the signal; with every probe failing and
no signal it has not returned after three attempts and makes a fourth. -/
theorem Reconnect_never_gives_up_witness :
    (∃ r, sampleManager.Reconnect interruptedReconnectEnv 3 = some r
        ∧ r.err = some "shutdown requested")
      ∧ (∃ j, j < 3 ∧ interruptedReconnectEnv.observes j = true
          ∧ ∀ k, k < j → interruptedReconnectEnv.observes k = false)
      ∧ (∃ r, sampleManager.Reconnect interruptedReconnectEnv (2 + 1) = some r)
      ∧ sampleManager.Reconnect downReconnectEnv 3 = none
      ∧ ((sampleManager.reconnectSoFar downReconnectEnv (3 + 1)).trace.filter
          fun e => decide (e = Event.cmConnect sampleManager.config.Name)).length = 3 + 1 :=
  ⟨⟨_, rfl, rfl⟩,
    (Reconnect_never_gives_up interruptedReconnectEnv sampleManager).1 3 _ rfl rfl,
    (Reconnect_never_gives_up interruptedReconnectEnv sampleManager).2.1 2 rfl,
    ((Reconnect_never_gives_up downReconnectEnv sampleManager).2.2.2 3 (fun _ _ => rfl)
      (fun _ _ => rfl) (fun _ _ => rfl)).1,
    ((Reconnect_never_gives_up downReconnectEnv sampleManager).2.2.2 3 (fun _ _ => rfl)
      (fun _ _ => rfl) (fun _ _ => rfl)).2.2.2⟩

/-! ## Bridge: fail-fast start-up -/

theorem runFailFast_append (a b : List (Event × Bool)) :
    runFailFast (a ++ b)
      = if (runFailFast a).2 then
          ((runFailFast a).1 ++ (runFailFast b).1, (runFailFast b).2)
        else runFailFast a := by
  induction a with
  | nil => simp [runFailFast]
  | cons x rest ih =>
    obtain ⟨e, fatal⟩ := x
    cases fatal
    · simp only [List.cons_append, runFailFast, Bool.false_eq_true, ↓reduceIte, ih]
      split <;> simp_all
    · simp [runFailFast]

theorem filter_plan_logIf (lg : Option LoggerRef) (c : LogCall) :
    (logIf lg c).filter Event.isPlanStep = [] := by
  cases lg <;> rfl

theorem stopListeners_no_plan_step (mgr : DatabaseManager) (log : Option LoggerRef)
    (ls : List (String × Listener)) :
    (stopListeners mgr log ls).filter Event.isPlanStep = [] := by
  induction ls with
  | nil => rfl
  | cons kv rest ih =>
    obtain ⟨channel, listener⟩ := kv
    simp [stopListeners, List.filter_append, filter_plan_logIf, Event.isPlanStep, ih]

theorem stopModules_no_plan_step (mgr : DatabaseManager) (log : Option LoggerRef)
    (ms : List Module) : (stopModules mgr log ms).filter Event.isPlanStep = [] := by
  induction ms with
  | nil => rfl
  | cons module rest ih =>
    cases module <;>
      simp [stopModules, Module.Stop, List.filter_append, filter_plan_logIf, Event.isPlanStep, ih]

theorem Shutdown_no_plan_step (cm : ConnectionManager) :
    cm.Shutdown.2.filter Event.isPlanStep = [] := by
  unfold ConnectionManager.Shutdown ConnectionManager.Disconnect
  by_cases h : cm.shutdownOnce = true
  · simp [h, Event.isPlanStep]
  · cases hp : cm.pool <;>
      simp [h, hp, Event.isPlanStep, List.filter_append, filter_plan_logIf]

theorem cleanup_no_plan_step (managers : List DatabaseManager) (log : Option LoggerRef) :
    (cleanup managers log).2.filter Event.isPlanStep = [] := by
  induction managers with
  | nil => rfl
  | cons mgr rest ih =>
    unfold cleanup cleanupManager
    simp only [List.filter_append, filter_plan_logIf, stopListeners_no_plan_step,
      stopModules_no_plan_step, Shutdown_no_plan_step, ih, List.append_nil]

theorem abortStartup_no_plan_step (managers : List DatabaseManager) (log : LoggerRef) :
    (abortStartup managers log).filter Event.isPlanStep = [] := by
  simp [abortStartup, List.filter_append, cleanup_no_plan_step, Event.isPlanStep]

theorem startModules_refines_plan (env : StartupEnv) (dbManagers : List DatabaseManager)
    (i : Nat) (dbConfig : DatabaseConfig) (mods : List String) :
    ∀ j dbMgr,
      (startModules env dbManagers i dbConfig j mods dbMgr).1.filter Event.isPlanStep
          = (runFailFast (planModules env i dbConfig.Name j mods)).1
        ∧ (startModules env dbManagers i dbConfig j mods dbMgr).2.isSome
          = (runFailFast (planModules env i dbConfig.Name j mods)).2
        ∧ ∀ d, (startModules env dbManagers i dbConfig j mods dbMgr).2 = some d →
            d.connMgr = dbMgr.connMgr := by
  induction mods with
  | nil =>
    intro j dbMgr
    refine ⟨rfl, rfl, ?_⟩
    intro d h
    simp only [startModules, Option.some.injEq] at h
    rw [← h]
  | cons moduleName rest ih =>
    intro j dbMgr
    have ih1 := fun j d => (ih j d).1
    have ih2 := fun j d => (ih j d).2.1
    have ih3 := fun j d => (ih j d).2.2
    cases hm : moduleOfName moduleName with
    | none =>
      simp only [startModules, hm, planModules, List.nil_append]
      refine ⟨?_, ih2 _ _, ih3 _ _⟩
      simp [List.filter_cons, Event.isPlanStep, ih1]
    | some module =>
      cases module <;>
        cases hL : env.loadCentralConfig i j <;> cases hP : env.centralPool i j <;>
        cases hI : env.moduleInitialize i j <;> cases hS : env.moduleStart i j <;>
        cases hLs : env.listenerStart i j <;> cases hQ : env.processQueue i j <;>
        (simp only [startModules, hm, constructModule, planModules, planModule, hL, hP, hI, hS,
           hLs, hQ]
         refine ⟨?_, ?_, ?_⟩
         · simp [List.filter_cons, List.filter_append, Event.isPlanStep, ih1, runFailFast,
             runFailFast_append, abortStartup_no_plan_step]
         · simp [ih2, runFailFast, runFailFast_append]
         · intro d hd
           first
             | exact absurd hd (by simp)
             | exact (ih3 _ _ d hd).trans rfl)

theorem Connect_planSteps (cm : ConnectionManager) (o : ConnectOutcome) :
    (cm.Connect o).2.2.filter Event.isPlanStep = [Event.cmConnect cm.config.Name] := by
  unfold ConnectionManager.Connect
  by_cases h : cm.isConnected = true
  · simp [h, Event.isPlanStep]
  · cases o <;> simp [h, Event.isPlanStep, filter_plan_logIf, List.filter_append]

theorem Connect_error_iff (cm : ConnectionManager) (o : ConnectOutcome)
    (h : cm.isConnected = false) : (cm.Connect o).1.isSome = !o.succeeds := by
  unfold ConnectionManager.Connect
  cases o <;> simp [h, ConnectOutcome.succeeds]

theorem setupDatabase_refines_plan (env : StartupEnv) (n : Nat)
    (dbManagers : List DatabaseManager) (i : Nat) (dbConfig : DatabaseConfig) :
    (setupDatabase env n dbManagers i dbConfig).1.filter Event.isPlanStep
        = (runFailFast (planDatabase env i dbConfig)).1
      ∧ (setupDatabase env n dbManagers i dbConfig).2.isSome
        = (runFailFast (planDatabase env i dbConfig)).2 := by
  have hsm := startModules_refines_plan env dbManagers i dbConfig dbConfig.ActiveModules 0
  have herr := Connect_error_iff
    (NewConnectionManager
      { Name := dbConfig.Name, ConnectionString := dbConfig.ConnectionString,
        MaxConnections := 0, MinConnections := 0, HealthCheckPeriod := 0 }
      (some LoggerRef.system)) (env.connect i) (NewConnectionManager_isConnected _ _)
  have hname : ((NewConnectionManager
      { Name := dbConfig.Name, ConnectionString := dbConfig.ConnectionString,
        MaxConnections := 0, MinConnections := 0, HealthCheckPeriod := 0 }
      (some LoggerRef.system)).Connect (env.connect i)).2.1.config.Name = dbConfig.Name := by
    rw [Connect_config, NewConnectionManager_name]
  have ht1 := Connect_planSteps (NewConnectionManager
      { Name := dbConfig.Name, ConnectionString := dbConfig.ConnectionString,
        MaxConnections := 0, MinConnections := 0, HealthCheckPeriod := 0 }
      (some LoggerRef.system)) (env.connect i)
  rw [NewConnectionManager_name] at ht1
  unfold setupDatabase planDatabase
  simp only []
  rcases hcon : (NewConnectionManager
      { Name := dbConfig.Name, ConnectionString := dbConfig.ConnectionString,
        MaxConnections := 0, MinConnections := 0, HealthCheckPeriod := 0 }
      (some LoggerRef.system)).Connect (env.connect i) with ⟨err, cm1, t1⟩
  rw [hcon] at herr ht1 hname
  simp only at herr ht1 hname
  have ht2 : (if i = 0 then
      [Event.loggerStart cm1.pool,
        Event.log LoggerRef.system (.LogSystemf .Info "main" "Database logging initialized on: %s"
          [dbConfig.Name])]
    else []).filter Event.isPlanStep = [] := by
    split <;> rfl
  cases err with
  | some e =>
    have hs : (env.connect i).succeeds = false := by simpa using herr.symm
    simp [hs, runFailFast, List.filter_append, ht1, cleanup_no_plan_step, Event.isPlanStep]
  | none =>
    have hs : (env.connect i).succeeds = true := by simpa using herr.symm
    cases hsc : env.schemaInit i with
    | some e =>
      simp [hs, hsc, runFailFast, List.filter_append, ht1, cleanup_no_plan_step,
        Event.isPlanStep]
    | none =>
      have hm := hsm
        { name := dbConfig.Name, connMgr := cm1, modules := [], listeners := [],
          logger := some LoggerRef.main }
      rcases hst : startModules env dbManagers i dbConfig 0 dbConfig.ActiveModules
        { name := dbConfig.Name, connMgr := cm1, modules := [], listeners := [],
          logger := some LoggerRef.main } with ⟨t3, r⟩
      rw [hst] at hm
      simp only at hm
      obtain ⟨hm1, hm2, hm3⟩ := hm
      cases r with
      | none =>
        have hf : (runFailFast (planModules env i dbConfig.Name 0 dbConfig.ActiveModules)).2
            = false := by simpa using hm2.symm
        simp [hs, hsc, hst, runFailFast, runFailFast_append, List.filter_append, ht1, ht2, hm1,
          hf, Event.isPlanStep]
      | some dbMgr1 =>
        have hf : (runFailFast (planModules env i dbConfig.Name 0 dbConfig.ActiveModules)).2
            = true := by simpa using hm2.symm
        have hcm := hm3 dbMgr1 rfl
        simp only at hcm
        simp [hs, hsc, hst, runFailFast, runFailFast_append, List.filter_append, ht1, ht2, hm1,
          hf, Event.isPlanStep, ConnectionManager.StartHealthCheck, hcm, hname]

theorem setupDatabases_refines_plan (env : StartupEnv) (n : Nat) (dbs : List DatabaseConfig) :
    ∀ i dbManagers,
      (setupDatabases env n i dbs dbManagers).1.filter Event.isPlanStep
          = (runFailFast (planDatabases env i dbs)).1
        ∧ (setupDatabases env n i dbs dbManagers).2.isSome
          = (runFailFast (planDatabases env i dbs)).2 := by
  induction dbs with
  | nil => intro i dbManagers; exact ⟨rfl, rfl⟩
  | cons dbConfig rest ih =>
    intro i dbManagers
    have h1 := setupDatabase_refines_plan env n dbManagers i dbConfig
    unfold setupDatabases planDatabases
    rcases hs : setupDatabase env n dbManagers i dbConfig with ⟨t, r⟩
    rw [hs] at h1
    simp only at h1
    obtain ⟨h1a, h1b⟩ := h1
    cases r with
    | none =>
      have hf : (runFailFast (planDatabase env i dbConfig)).2 = false := by simpa using h1b.symm
      simp [runFailFast_append, hf, h1a]
    | some dbMgr =>
      have hf : (runFailFast (planDatabase env i dbConfig)).2 = true := by simpa using h1b.symm
      have h2 := ih (i + 1) (dbManagers ++ [dbMgr])
      simp [runFailFast_append, hf, h1a, h2.1, h2.2, List.filter_append]

theorem startup_refines_plan (env : StartupEnv) (cfg : Config) :
    (startup env cfg).1.filter Event.isPlanStep = (runFailFast (startupPlan env cfg)).1
      ∧ (startup env cfg).2.isSome = (runFailFast (startupPlan env cfg)).2 :=
  setupDatabases_refines_plan env cfg.Databases.length cfg.Databases 0 []

theorem getLast?_cons_of_some {α : Type} (a : α) (t : List α) (x : α)
    (h : t.getLast? = some x) : (a :: t).getLast? = some x := by
  cases t with
  | nil => simp at h
  | cons b rest => rw [List.getLast?_cons_cons]; exact h

theorem getLast?_append_of_some {α : Type} (a t : List α) (x : α)
    (h : t.getLast? = some x) : (a ++ t).getLast? = some x := by
  simp [List.getLast?_append, h]

theorem abortStartup_last (managers : List DatabaseManager) (log : LoggerRef) :
    (abortStartup managers log).getLast? = some (Event.exit 1) := by
  simp [abortStartup]

theorem startModules_exit (env : StartupEnv) (dbManagers : List DatabaseManager)
    (i : Nat) (dbConfig : DatabaseConfig) (mods : List String) :
    ∀ j dbMgr, (startModules env dbManagers i dbConfig j mods dbMgr).2 = none →
      (startModules env dbManagers i dbConfig j mods dbMgr).1.getLast? = some (Event.exit 1) := by
  induction mods with
  | nil => intro j dbMgr h; simp [startModules] at h
  | cons moduleName rest ih =>
    intro j dbMgr h
    cases hm : moduleOfName moduleName with
    | none =>
      simp only [startModules, hm] at h ⊢
      exact getLast?_cons_of_some _ _ _ (ih _ _ h)
    | some module =>
      cases module <;>
        cases hL : env.loadCentralConfig i j <;> cases hP : env.centralPool i j <;>
        cases hI : env.moduleInitialize i j <;> cases hS : env.moduleStart i j <;>
        cases hLs : env.listenerStart i j <;>
        (simp only [startModules, hm, constructModule, hL, hP, hI, hS, hLs] at h ⊢
         repeat (first
           | exact abortStartup_last _ _
           | exact ih _ _ h
           | with_reducible apply getLast?_append_of_some
           | with_reducible apply getLast?_cons_of_some))

theorem setupDatabase_exit (env : StartupEnv) (n : Nat) (dbManagers : List DatabaseManager)
    (i : Nat) (dbConfig : DatabaseConfig)
    (h : (setupDatabase env n dbManagers i dbConfig).2 = none) :
    (setupDatabase env n dbManagers i dbConfig).1.getLast? = some (Event.exit 1) := by
  unfold setupDatabase at h ⊢
  simp only [] at h ⊢
  split
  · repeat (first
      | exact rfl
      | with_reducible apply getLast?_append_of_some
      | with_reducible apply getLast?_cons_of_some)
  · next cm1 t1 hc =>
    rw [hc] at h
    simp only at h
    split
    · repeat (first
        | exact rfl
        | with_reducible apply getLast?_append_of_some
        | with_reducible apply getLast?_cons_of_some)
    · next hsc =>
      rw [hsc] at h
      simp only at h
      split
      · next t3 hst =>
        have hx := startModules_exit env dbManagers i dbConfig dbConfig.ActiveModules 0 _
          (congrArg Prod.snd hst)
        rw [hst] at hx
        repeat (first
          | exact hx
          | with_reducible apply getLast?_append_of_some
          | with_reducible apply getLast?_cons_of_some)
      · next t3 dbMgr1 hst =>
        rw [hst] at h
        simp at h

theorem setupDatabases_exit (env : StartupEnv) (n : Nat) (dbs : List DatabaseConfig) :
    ∀ i dbManagers, (setupDatabases env n i dbs dbManagers).2 = none →
      (setupDatabases env n i dbs dbManagers).1.getLast? = some (Event.exit 1) := by
  induction dbs with
  | nil => intro i dbManagers h; simp [setupDatabases] at h
  | cons dbConfig rest ih =>
    intro i dbManagers h
    rw [setupDatabases] at h ⊢
    split
    · next t hs =>
      have hx := setupDatabase_exit env n dbManagers i dbConfig (congrArg Prod.snd hs)
      rw [hs] at hx
      exact hx
    · next t dbMgr hs =>
      rw [hs] at h
      simp only at h
      exact getLast?_append_of_some _ _ _ (ih _ _ h)

/-- C11 as amended: start-up runs its plan fail-fast.  The plan lists,
per database in order, connect, schema bootstrap, then per recognised
module the construction steps of `pgb_notify`, `Initialize`, `Start`,
`ProcessQueue` and `Listener.Start`, then the health check; every step
but `ProcessQueue` (and the health check, which cannot fail) is fatal when
it returns an error.  The steps start-up performs are exactly the planned
steps up to and including the first one that fails fatally; start-up
completes if and only if none does, and otherwise the last thing the
process does is `os.Exit(1)`. -/
theorem startup_fail_fast (env : StartupEnv) (cfg : Config) :
    (startup env cfg).1.filter Event.isPlanStep = (runFailFast (startupPlan env cfg)).1
      ∧ (startup env cfg).2.isSome = (runFailFast (startupPlan env cfg)).2
      ∧ ((startup env cfg).2 = none → (startup env cfg).1.getLast? = some (Event.exit 1)) :=
  ⟨(startup_refines_plan env cfg).1, (startup_refines_plan env cfg).2,
    setupDatabases_exit env cfg.Databases.length cfg.Databases 0 []⟩

/-- C11 as stated fails: in the sample configuration with every catch-up
scan returning an error and every other step succeeding, `ProcessQueue`
of `pgb_mail` fails, yet start-up goes on to `Listener.Start` and the
health check, completes, and never calls `os.Exit`. -/
theorem startup_continues_after_failed_scan :
    failingScanEnv.processQueue 0 0 = some "failed to query unsent mails"
      ∧ (startup failingScanEnv sampleConfig).2.isSome = true
      ∧ (startup failingScanEnv sampleConfig).1.filter Event.isStartupStep
          = [Event.cmConnect "db1", Event.schemaInit "db1",
              Event.moduleInitialize "db1" "pgb_mail", Event.moduleStart "db1" "pgb_mail",
              Event.moduleProcessQueue "db1" "pgb_mail", Event.listenerStart "db1" "pgb_mail",
              Event.healthCheckStart "db1"]
      ∧ Event.exit 1 ∉ (startup failingScanEnv sampleConfig).1 := by
  refine ⟨rfl, rfl, rfl, ?_⟩
  decide

/-! ## Bridge: rollback on a failed start-up -/

/-- C12 (the code at the failing input): with two databases, `db1`
completes its start-up and `db2` fails when the central configuration of
its `pgb_notify` module cannot be loaded, after `db2` has connected (pool
101) and started its mail module and listener.  `cleanup` is called with
the completed managers only: `db1` is rolled back (listener stopped, module
stopped, manager shut down, pool 100 closed), while for `db2` no listener
is stopped, no module is stopped and its manager is never shut down
before `os.Exit(1)`. -/
theorem failed_startup_leaves_current_database :
    (startup noCentralConfigEnv twoDatabaseConfig).2 = none
      ∧ (startup noCentralConfigEnv twoDatabaseConfig).1.filter Event.isPlanStep
          = [Event.cmConnect "db1", Event.schemaInit "db1",
              Event.moduleInitialize "db1" "pgb_mail", Event.moduleStart "db1" "pgb_mail",
              Event.moduleProcessQueue "db1" "pgb_mail", Event.listenerStart "db1" "pgb_mail",
              Event.healthCheckStart "db1",
              Event.cmConnect "db2", Event.schemaInit "db2",
              Event.moduleInitialize "db2" "pgb_mail", Event.moduleStart "db2" "pgb_mail",
              Event.moduleProcessQueue "db2" "pgb_mail", Event.listenerStart "db2" "pgb_mail",
              Event.loadCentralConfig "db2"]
      ∧ Event.poolOpen 101 ∈ (startup noCentralConfigEnv twoDatabaseConfig).1
      ∧ (startup noCentralConfigEnv twoDatabaseConfig).1.filter Event.isShutdownStep
          = [Event.listenerStop "db1" "pgb_mail", Event.moduleStop "db1" "pgb_mail",
              Event.cmShutdown "db1", Event.poolClose 100]
      ∧ (startup noCentralConfigEnv twoDatabaseConfig).1.getLast? = some (Event.exit 1) := by
  refine ⟨rfl, rfl, ?_, rfl, rfl⟩
  decide

/-! ## Bridge: one listener per channel -/

/-- C13 as stated fails: the sample configuration that names `pgb_mail`
twice for `db1` is accepted by `Config.Validate`; start-up then starts two
listeners on channel `pgb_mail` of `db1`, and the listeners map of the
manager, keyed by channel, holds one entry only. -/
theorem repeated_module_starts_two_listeners :
    repeatedModuleConfig.Validate = none
      ∧ listenerStarts (startup calmStartupEnv repeatedModuleConfig).1
          = [Event.listenerStart "db1" "pgb_mail", Event.listenerStart "db1" "pgb_mail"]
      ∧ (((startup calmStartupEnv repeatedModuleConfig).2.getD []).map
            fun mgr => mgr.heldListeners)
          = [[Event.listenerStart "db1" "pgb_mail"]] := by
  refine ⟨rfl, rfl, rfl⟩

theorem moduleOfName_some (a : String) (m : Module) (h : moduleOfName a = some m) :
    a = m.Name := by
  unfold moduleOfName at h
  by_cases h1 : a = "pgb_mail"
  · rw [if_pos h1] at h
    simp only [Option.some.injEq] at h
    subst h
    exact h1
  · rw [if_neg h1] at h
    by_cases h2 : a = "pgb_notify"
    · rw [if_pos h2] at h
      simp only [Option.some.injEq] at h
      subst h
      exact h2
    · rw [if_neg h2] at h
      by_cases h3 : a = "pgb_instance_roles"
      · rw [if_pos h3] at h
        simp only [Option.some.injEq] at h
        subst h
        exact h3
      · rw [if_neg h3] at h
        exact absurd h (by simp)

theorem moduleOfName_inj (a b : String) (m : Module)
    (ha : moduleOfName a = some m) (hb : moduleOfName b = some m) : a = b :=
  (moduleOfName_some a m ha).trans (moduleOfName_some b m hb).symm

theorem GetChannelName_inj (a b : Module) (h : a.GetChannelName = b.GetChannelName) : a = b := by
  cases a <;> cases b <;> first | rfl | exact absurd h (by decide)

theorem recognised_nodup (mods : List String) (h : mods.Nodup) :
    (mods.filterMap moduleOfName).Nodup :=
  List.Nodup.filterMap (fun a b m ha hb => moduleOfName_inj a b m ha hb) h

theorem mapInsert_absent {α : Type} (m : List (String × α)) (key : String) (value : α)
    (h : ∀ kv ∈ m, kv.1 ≠ key) : mapInsert m key value = m ++ [(key, value)] := by
  unfold mapInsert
  have : m.any (fun kv => kv.1 == key) = false := by
    rw [List.any_eq_false]
    intro kv hkv
    simpa using h kv hkv
  simp [this]

theorem startModules_listeners (env : StartupEnv) (dbManagers : List DatabaseManager)
    (i : Nat) (dbConfig : DatabaseConfig) (mods : List String) :
    ∀ j dbMgr d, (startModules env dbManagers i dbConfig j mods dbMgr).2 = some d →
      (mods.filterMap moduleOfName).Nodup →
      (∀ m ∈ mods.filterMap moduleOfName, ∀ kv ∈ dbMgr.listeners, kv.1 ≠ m.GetChannelName) →
      d.listeners
        = dbMgr.listeners ++ (mods.filterMap moduleOfName).map (listenerOf dbConfig.Name) := by
  induction mods with
  | nil =>
    intro j dbMgr d h _ _
    simp only [startModules, Option.some.injEq] at h
    subst h
    simp
  | cons moduleName rest ih =>
    intro j dbMgr d h hnd hkeys
    cases hm : moduleOfName moduleName with
    | none =>
      simp only [startModules, hm] at h
      simp only [List.filterMap_cons, hm] at hnd hkeys ⊢
      exact ih _ _ _ h hnd hkeys
    | some module =>
      simp only [List.filterMap_cons, hm, List.nodup_cons, List.mem_cons, forall_eq_or_imp,
        List.map_cons] at hnd hkeys ⊢
      rw [startModules] at h
      simp only [hm] at h
      split at h
      · exact absurd h (by simp)
      · split at h
        · exact absurd h (by simp)
        · split at h
          · exact absurd h (by simp)
          · try simp only [] at h
            split at h
            · exact absurd h (by simp)
            · have hins := mapInsert_absent dbMgr.listeners module.GetChannelName
                ({ dbName := dbConfig.Name, channel := module.GetChannelName,
                   module := module.Name, logger := some LoggerRef.main } : Listener) hkeys.1
              have := ih _ _ _ h hnd.2 (by
                intro m hmem kv hkv
                simp only [hins, List.mem_append, List.mem_singleton] at hkv
                rcases hkv with h1 | h1
                · exact hkeys.2 m hmem kv h1
                · subst h1
                  intro heq
                  exact hnd.1 (GetChannelName_inj _ _ heq ▸ hmem))
              rw [this]
              simp [hins, listenerOf]

theorem setupDatabase_listeners (env : StartupEnv) (n : Nat) (dbManagers : List DatabaseManager)
    (i : Nat) (dbConfig : DatabaseConfig) (d : DatabaseManager)
    (h : (setupDatabase env n dbManagers i dbConfig).2 = some d)
    (hnd : dbConfig.ActiveModules.Nodup) :
    d.heldListeners = plannedListenerStarts dbConfig := by
  unfold setupDatabase at h
  simp only [] at h
  split at h
  · exact absurd h (by simp)
  · split at h
    · exact absurd h (by simp)
    · split at h
      · exact absurd h (by simp)
      · next cm1 t1 hc hs t3 dbMgr1 hst =>
        simp only [ConnectionManager.StartHealthCheck, Option.some.injEq] at h
        subst h
        have hl := startModules_listeners env dbManagers i dbConfig dbConfig.ActiveModules 0 _
          dbMgr1 (congrArg Prod.snd hst) (recognised_nodup _ hnd)
          (fun m _ kv hkv => absurd hkv (by simp))
        simp [DatabaseManager.heldListeners, hl, plannedListenerStarts, listenerOf]

theorem setupDatabases_listeners (env : StartupEnv) (n : Nat) (dbs : List DatabaseConfig) :
    ∀ i acc managers, (setupDatabases env n i dbs acc).2 = some managers →
      (∀ db ∈ dbs, db.ActiveModules.Nodup) →
      managers.map DatabaseManager.heldListeners
        = acc.map DatabaseManager.heldListeners ++ dbs.map plannedListenerStarts := by
  induction dbs with
  | nil =>
    intro i acc managers h _
    simp only [setupDatabases, Option.some.injEq] at h
    subst h
    simp
  | cons dbConfig rest ih =>
    intro i acc managers h hnd
    rw [setupDatabases] at h
    split at h
    · exact absurd h (by simp)
    · next t dbMgr hs =>
      have h1 := setupDatabase_listeners env n acc i dbConfig dbMgr (congrArg Prod.snd hs)
        (hnd dbConfig (List.mem_cons_self _ _))
      have h2 := ih _ _ _ h (fun db hdb => hnd db (List.mem_cons_of_mem _ hdb))
      rw [h2]
      simp [h1]

theorem listenerStarts_planSteps (t : List Event) :
    listenerStarts t = listenerStarts (t.filter Event.isPlanStep) := by
  unfold listenerStarts
  rw [List.filter_filter]
  congr 1
  funext e
  cases e <;> rfl

theorem listenerStarts_append (a b : List Event) :
    listenerStarts (a ++ b) = listenerStarts a ++ listenerStarts b := by
  simp [listenerStarts]

theorem planModule_listenerStarts (env : StartupEnv) (i j : Nat) (db : String) (m : Module) :
    listenerStarts ((planModule env i j db m).map Prod.fst)
      = [Event.listenerStart db m.GetChannelName] := by
  cases m <;> rfl

theorem planModules_listenerStarts (env : StartupEnv) (i : Nat) (db : String)
    (mods : List String) :
    ∀ j, listenerStarts ((planModules env i db j mods).map Prod.fst)
      = (mods.filterMap moduleOfName).map fun m => Event.listenerStart db m.GetChannelName := by
  induction mods with
  | nil => intro j; rfl
  | cons moduleName rest ih =>
    intro j
    cases hm : moduleOfName moduleName with
    | none => simp only [planModules, hm, List.nil_append, ih, List.filterMap_cons]
    | some m =>
      simp only [planModules, hm, List.map_append, listenerStarts_append,
        planModule_listenerStarts, ih, List.filterMap_cons, List.map_cons, List.singleton_append]

theorem planDatabases_listenerStarts (env : StartupEnv) (dbs : List DatabaseConfig) :
    ∀ i, listenerStarts ((planDatabases env i dbs).map Prod.fst)
      = (dbs.map plannedListenerStarts).flatten := by
  induction dbs with
  | nil => intro i; rfl
  | cons dbConfig rest ih =>
    intro i
    simp only [planDatabases, planDatabase, List.map_append, listenerStarts_append,
      planModules_listenerStarts, ih, List.map_cons, List.flatten_cons, plannedListenerStarts]
    simp [listenerStarts]

theorem runFailFast_initial_part (p : List (Event × Bool)) :
    List.IsPrefix (runFailFast p).1 (p.map Prod.fst) := by
  induction p with
  | nil => exact List.prefix_refl _
  | cons x rest ih =>
    obtain ⟨e, fatal⟩ := x
    cases fatal
    · simp only [runFailFast, Bool.false_eq_true, ↓reduceIte, List.map_cons]
      exact (List.prefix_cons_inj e).mpr ih
    · simp only [runFailFast, ↓reduceIte, List.map_cons]
      exact (List.prefix_cons_inj e).mpr (List.nil_prefix)

theorem runFailFast_complete (p : List (Event × Bool)) (h : (runFailFast p).2 = true) :
    (runFailFast p).1 = p.map Prod.fst := by
  induction p with
  | nil => rfl
  | cons x rest ih =>
    obtain ⟨e, fatal⟩ := x
    cases fatal
    · simp only [runFailFast, Bool.false_eq_true, ↓reduceIte, List.map_cons] at h ⊢
      rw [ih h]
    · simp [runFailFast] at h

theorem validateDatabases_names (dbs : List DatabaseConfig) :
    ∀ names, validateDatabases names dbs = none →
      (dbs.map fun db => db.Name).Nodup ∧ ∀ db ∈ dbs, db.Name ∉ names := by
  induction dbs with
  | nil => intro names _; simp
  | cons db rest ih =>
    intro names h
    rw [validateDatabases] at h
    split at h
    · exact absurd h (by simp)
    · next hc =>
      split at h
      · exact absurd h (by simp)
      · obtain ⟨h1, h2⟩ := ih _ h
        have hc2 : db.Name ∉ names := by simpa using hc
        refine ⟨?_, ?_⟩
        · simp only [List.map_cons, List.nodup_cons, List.mem_map, not_exists, not_and]
          refine ⟨?_, h1⟩
          intro db2 hdb2 heq
          exact h2 db2 hdb2 (by simp [heq])
        · intro db2 hdb2
          rcases List.mem_cons.mp hdb2 with e | e
          · subst e; exact hc2
          · intro hmem
            exact h2 db2 e (List.mem_cons_of_mem _ hmem)

theorem Validate_names_nodup (cfg : Config) (h : cfg.Validate = none) :
    (cfg.Databases.map fun db => db.Name).Nodup := by
  unfold Config.Validate at h
  split at h
  · exact absurd h (by simp)
  · exact (validateDatabases_names cfg.Databases [] h).1

theorem planned_nodup (dbs : List DatabaseConfig)
    (hn : (dbs.map fun db => db.Name).Nodup) (hm : ∀ db ∈ dbs, db.ActiveModules.Nodup) :
    (dbs.map plannedListenerStarts).flatten.Nodup := by
  induction dbs with
  | nil => simp
  | cons db rest ih =>
    simp only [List.map_cons, List.nodup_cons, List.flatten_cons] at hn ⊢
    refine List.Nodup.append ?_ (ih hn.2 (fun d hd => hm d (List.mem_cons_of_mem _ hd))) ?_
    · unfold plannedListenerStarts
      refine List.Nodup.map ?_ (recognised_nodup _ (hm db (List.mem_cons_self _ _)))
      intro a b hab
      simp only [Event.listenerStart.injEq, true_and] at hab
      exact GetChannelName_inj a b hab
    · intro e he1 he2
      obtain ⟨m, _, hm1⟩ := List.mem_map.mp he1
      obtain ⟨l, hl, hel⟩ := List.mem_flatten.mp he2
      obtain ⟨db2, hdb2, hl2⟩ := List.mem_map.mp hl
      rw [← hl2] at hel
      obtain ⟨m2, _, hm2⟩ := List.mem_map.mp hel
      rw [← hm1] at hm2
      simp only [Event.listenerStart.injEq] at hm2
      exact hn.1 (List.mem_map.mpr ⟨db2, hdb2, hm2.1⟩)

/-- C13 as amended: for a configuration accepted by `Config.Validate` in
which no database lists a module identifier twice, every run of start-up
(completed or aborted) starts at most one listener per (database, channel)
pair, and when start-up completes the listeners maps of the managers hold,
manager by manager, exactly the listeners that were started. -/
theorem startup_one_listener_per_channel (env : StartupEnv) (cfg : Config)
    (hv : cfg.Validate = none) (hm : ∀ db ∈ cfg.Databases, db.ActiveModules.Nodup) :
    (listenerStarts (startup env cfg).1).Nodup
      ∧ ∀ managers, (startup env cfg).2 = some managers →
          listenerStarts (startup env cfg).1
            = (managers.map fun mgr =>
                mgr.listeners.map fun kv => Event.listenerStart kv.2.dbName kv.2.channel).flatten := by
  have hp := startup_refines_plan env cfg
  have hall := planDatabases_listenerStarts env cfg.Databases 0
  constructor
  · rw [listenerStarts_planSteps, hp.1]
    have hsub : List.Sublist (listenerStarts (runFailFast (startupPlan env cfg)).1)
        (listenerStarts ((startupPlan env cfg).map Prod.fst)) :=
      List.Sublist.filter _ (runFailFast_initial_part _).sublist
    refine List.Nodup.sublist hsub ?_
    rw [startupPlan, hall]
    exact planned_nodup cfg.Databases (Validate_names_nodup cfg hv) hm
  · intro managers hmg
    have hok : (runFailFast (startupPlan env cfg)).2 = true := by
      rw [← hp.2, hmg]; rfl
    rw [listenerStarts_planSteps, hp.1, runFailFast_complete _ hok, startupPlan, hall]
    have hl := setupDatabases_listeners env cfg.Databases.length cfg.Databases 0 [] managers hmg hm
    simp only [List.map_nil, List.nil_append] at hl
    rw [← hl]
    rfl


/-- Witness for C13 as amended: the sample configuration, every step succeeding. -/
theorem startup_one_listener_per_channel_witness :
    (listenerStarts (startup calmStartupEnv sampleConfig).1).Nodup
      ∧ ∀ managers, (startup calmStartupEnv sampleConfig).2 = some managers →
          listenerStarts (startup calmStartupEnv sampleConfig).1
            = (managers.map fun mgr =>
                mgr.listeners.map fun kv => Event.listenerStart kv.2.dbName kv.2.channel).flatten :=
  startup_one_listener_per_channel calmStartupEnv sampleConfig rfl (by decide)

/-! ## Modules: `Initialize` twice -/

theorem apply_schemas {s : Statement} {c c' : Catalog} (h : s.apply c = .ok c') :
    c'.schemas = c.schemas := by
  cases s <;> simp only [Statement.apply] at h <;> (repeat' split at h) <;>
    first | (cases h; rfl) | (exact absurd h (by simp))

theorem apply_relations {s : Statement} {c c' : Catalog} (h : s.apply c = .ok c')
    {r : QName} {x : Relation} (hr : c.relations r = some x) : c'.relations r = some x := by
  cases s with
  | createTableIfNotExists table columns references =>
    simp only [Statement.apply] at h
    split_ifs at h with h1 h2 h3
    · cases h; exact hr
    · cases h
      have hne : r ≠ table := by rintro rfl; simp [hr] at h2
      simp [Function.update_noteq hne, hr]
  | createIndexIfNotExists index table column predicate =>
    simp only [Statement.apply] at h
    split_ifs at h with h1 h2
    · cases h; exact hr
    · cases h
      have hne : r ≠ (table.1, index) := by rintro rfl; simp [hr] at h2
      simp [Function.update_noteq hne, hr]
  | createOrReplaceFunction function returns body =>
    simp only [Statement.apply] at h
    (repeat' split at h) <;> first | (cases h; exact hr) | (exact absurd h (by simp))
  | dropTriggerIfExists trigger table =>
    simp only [Statement.apply] at h
    cases h; exact hr
  | createTrigger trigger table function =>
    simp only [Statement.apply] at h
    (repeat' split at h) <;> first | (cases h; exact hr) | (exact absurd h (by simp))
  | commentOn object text =>
    simp only [Statement.apply] at h
    (repeat' split at h) <;> first | (cases h; exact hr) | (exact absurd h (by simp))

theorem apply_hasColumn {s : Statement} {c c' : Catalog} (h : s.apply c = .ok c')
    {table : QName} {column : String} (hc : c.hasColumn table column = true) :
    c'.hasColumn table column = true := by
  unfold Catalog.hasColumn at hc ⊢
  rcases hr : c.relations table with _ | r
  · rw [hr] at hc; simp at hc
  · rw [hr] at hc
    rw [apply_relations h hr]
    exact hc

theorem apply_functions_type {s : Statement} {c c' : Catalog} (h : s.apply c = .ok c')
    {f : QName} {r b : String} (hf : c.functions f = some (r, b)) :
    ∃ b', c'.functions f = some (r, b') := by
  cases s with
  | createOrReplaceFunction function returns body =>
    simp only [Statement.apply] at h
    by_cases hfe : f = function
    · subst hfe
      rw [hf] at h
      simp only at h
      split_ifs at h with h1 h2
      cases h
      exact ⟨body, by simp [h2]⟩
    · (repeat' split at h) <;>
        first
        | (cases h; exact ⟨b, by simp [Function.update_noteq hfe, hf]⟩)
        | (exact absurd h (by simp))
  | createTableIfNotExists table columns references =>
    simp only [Statement.apply] at h
    (repeat' split at h) <;> first | (cases h; exact ⟨b, hf⟩) | (exact absurd h (by simp))
  | createIndexIfNotExists index table column predicate =>
    simp only [Statement.apply] at h
    (repeat' split at h) <;> first | (cases h; exact ⟨b, hf⟩) | (exact absurd h (by simp))
  | dropTriggerIfExists trigger table =>
    simp only [Statement.apply] at h
    cases h; exact ⟨b, hf⟩
  | createTrigger trigger table function =>
    simp only [Statement.apply] at h
    (repeat' split at h) <;> first | (cases h; exact ⟨b, hf⟩) | (exact absurd h (by simp))
  | commentOn object text =>
    simp only [Statement.apply] at h
    (repeat' split at h) <;> first | (cases h; exact ⟨b, hf⟩) | (exact absurd h (by simp))

theorem apply_functions {s : Statement} {c c' : Catalog} (h : s.apply c = .ok c')
    {f : QName} {r b : String} (hf : c.functions f = some (r, b))
    (hs : ∀ r' b', s = .createOrReplaceFunction f r' b' → (r', b') = (r, b)) :
    c'.functions f = some (r, b) := by
  cases s with
  | createOrReplaceFunction function returns body =>
    simp only [Statement.apply] at h
    by_cases hfe : f = function
    · subst hfe
      have := hs returns body rfl
      simp only [Prod.mk.injEq] at this
      obtain ⟨rfl, rfl⟩ := this
      rw [hf] at h
      simp only [↓reduceIte] at h
      split_ifs at h
      cases h
      simp
    · (repeat' split at h) <;>
        first
        | (cases h; simp [Function.update_noteq hfe, hf])
        | (exact absurd h (by simp))
  | createTableIfNotExists table columns references =>
    simp only [Statement.apply] at h
    (repeat' split at h) <;> first | (cases h; exact hf) | (exact absurd h (by simp))
  | createIndexIfNotExists index table column predicate =>
    simp only [Statement.apply] at h
    (repeat' split at h) <;> first | (cases h; exact hf) | (exact absurd h (by simp))
  | dropTriggerIfExists trigger table =>
    simp only [Statement.apply] at h
    cases h; exact hf
  | createTrigger trigger table function =>
    simp only [Statement.apply] at h
    (repeat' split at h) <;> first | (cases h; exact hf) | (exact absurd h (by simp))
  | commentOn object text =>
    simp only [Statement.apply] at h
    (repeat' split at h) <;> first | (cases h; exact hf) | (exact absurd h (by simp))

theorem apply_triggers {s : Statement} {c c' : Catalog} (h : s.apply c = .ok c')
    {k : String × QName} {f : QName} (hk : c.triggers k = some f)
    (hs : s ≠ .dropTriggerIfExists k.1 k.2) : c'.triggers k = some f := by
  cases s with
  | dropTriggerIfExists trigger table =>
    simp only [Statement.apply] at h
    cases h
    have hne : k ≠ (trigger, table) := by
      rintro rfl
      exact hs rfl
    simp [Function.update_noteq hne, hk]
  | createTrigger trigger table function =>
    simp only [Statement.apply] at h
    by_cases hke : k = (trigger, table)
    · subst hke
      (repeat' split at h) <;> first | (cases h; done) | simp_all
    · (repeat' split at h) <;>
        first
        | (cases h; simp [Function.update_noteq hke, hk])
        | (exact absurd h (by simp))
  | createTableIfNotExists table columns references =>
    simp only [Statement.apply] at h
    (repeat' split at h) <;> first | (cases h; exact hk) | (exact absurd h (by simp))
  | createIndexIfNotExists index table column predicate =>
    simp only [Statement.apply] at h
    (repeat' split at h) <;> first | (cases h; exact hk) | (exact absurd h (by simp))
  | createOrReplaceFunction function returns body =>
    simp only [Statement.apply] at h
    (repeat' split at h) <;> first | (cases h; exact hk) | (exact absurd h (by simp))
  | commentOn object text =>
    simp only [Statement.apply] at h
    (repeat' split at h) <;> first | (cases h; exact hk) | (exact absurd h (by simp))

theorem apply_comments {s : Statement} {c c' : Catalog} (h : s.apply c = .ok c')
    {o : DbObject} {t : String} (ho : c.comments o = some t)
    (h1 : ∀ t', s = .commentOn o t' → t' = t)
    (h2 : ∀ n tb, s = .dropTriggerIfExists n tb → o ≠ .trigger n tb) :
    c'.comments o = some t := by
  cases s with
  | dropTriggerIfExists trigger table =>
    simp only [Statement.apply] at h
    cases h
    have hne := h2 trigger table rfl
    simp [Function.update_noteq hne, ho]
  | commentOn object text =>
    simp only [Statement.apply] at h
    by_cases hoe : o = object
    · subst hoe
      have := h1 text rfl
      subst this
      split_ifs at h
      cases h
      simp
    · split_ifs at h
      cases h
      simp [Function.update_noteq hoe, ho]
  | createTableIfNotExists table columns references =>
    simp only [Statement.apply] at h
    (repeat' split at h) <;> first | (cases h; exact ho) | (exact absurd h (by simp))
  | createIndexIfNotExists index table column predicate =>
    simp only [Statement.apply] at h
    (repeat' split at h) <;> first | (cases h; exact ho) | (exact absurd h (by simp))
  | createOrReplaceFunction function returns body =>
    simp only [Statement.apply] at h
    (repeat' split at h) <;> first | (cases h; exact ho) | (exact absurd h (by simp))
  | createTrigger trigger table function =>
    simp only [Statement.apply] at h
    (repeat' split at h) <;> first | (cases h; exact ho) | (exact absurd h (by simp))

theorem apply_hasObject {s : Statement} {c c' : Catalog} (h : s.apply c = .ok c')
    {o : DbObject} (ho : c.hasObject o = true)
    (hs : ∀ n tb, s = .dropTriggerIfExists n tb → o ≠ .trigger n tb) :
    c'.hasObject o = true := by
  cases o with
  | table name =>
    simp only [Catalog.hasObject] at ho ⊢
    rcases hr : c.relations name with _ | r
    · rw [hr] at ho; simp at ho
    · rw [hr] at ho
      rw [apply_relations h hr]
      exact ho
  | column table column => exact apply_hasColumn h ho
  | function name =>
    simp only [Catalog.hasObject] at ho ⊢
    rcases hf : c.functions name with _ | ⟨r, b⟩
    · rw [hf] at ho; simp at ho
    · obtain ⟨b', hb⟩ := apply_functions_type h hf
      simp [hb]
  | trigger name table =>
    simp only [Catalog.hasObject] at ho ⊢
    rcases hk : c.triggers (name, table) with _ | f
    · rw [hk] at ho; simp at ho
    · have hne : s ≠ .dropTriggerIfExists name table := by
        rintro rfl
        exact hs name table rfl rfl
      simp [apply_triggers h hk hne]

theorem apply_established {s : Statement} {c c' : Catalog} (h : s.apply c = .ok c') :
    s.established c' := by
  cases s with
  | createTableIfNotExists table columns references =>
    simp only [Statement.apply] at h
    split_ifs at h with h1 h2 h3
    · cases h
      exact ⟨by simpa using h1, h2⟩
    · cases h
      exact ⟨by simpa using h1, by simp⟩
  | createIndexIfNotExists index table column predicate =>
    have h0 := h
    simp only [Statement.apply] at h
    split_ifs at h with h1 h2
    · cases h
      exact ⟨h1, h2⟩
    · cases h
      exact ⟨apply_hasColumn h0 h1, by simp⟩
  | createOrReplaceFunction function returns body =>
    simp only [Statement.apply] at h
    split_ifs at h with h1
    (repeat' split at h) <;> first
      | (cases h; done)
      | (cases h; exact ⟨by simpa using h1, by simp⟩)
  | dropTriggerIfExists trigger table => trivial
  | createTrigger trigger table function =>
    simp only [Statement.apply] at h
    (repeat' split at h) <;> first
      | (cases h; done)
      | (cases h
         rename_i hr _ _ _ hf ht _
         subst ht
         exact ⟨by simp, by simp [Catalog.hasObject, hr], _, hf⟩)
  | commentOn object text =>
    have h0 := h
    simp only [Statement.apply] at h
    split_ifs at h with h1
    cases h
    refine ⟨apply_hasObject h0 h1 ?_, by simp⟩
    intro n tb hn
    cases hn

theorem apply_preserves {s later : Statement} {c c' : Catalog} (hs : s.established c)
    (hc : later.clobbers s = false) (h : later.apply c = .ok c') : s.established c' := by
  cases s with
  | createTableIfNotExists table columns references =>
    obtain ⟨h1, h2⟩ := hs
    rcases hr : c.relations table with _ | r
    · rw [hr] at h2; simp at h2
    · exact ⟨by rw [apply_schemas h]; exact h1, by rw [apply_relations h hr]; rfl⟩
  | createIndexIfNotExists index table column predicate =>
    obtain ⟨h1, h2⟩ := hs
    rcases hr : c.relations (table.1, index) with _ | r
    · rw [hr] at h2; simp at h2
    · exact ⟨apply_hasColumn h h1, by rw [apply_relations h hr]; rfl⟩
  | createOrReplaceFunction function returns body =>
    obtain ⟨h1, h2⟩ := hs
    refine ⟨by rw [apply_schemas h]; exact h1, apply_functions h h2 ?_⟩
    intro r' b' hl
    subst hl
    simpa [Statement.clobbers] using hc
  | dropTriggerIfExists trigger table => trivial
  | createTrigger trigger table function =>
    obtain ⟨h1, h2, b, h3⟩ := hs
    refine ⟨apply_triggers h h1 ?_, apply_hasObject h h2 ?_, apply_functions_type h h3⟩
    · rintro rfl
      simp [Statement.clobbers] at hc
    · intro n tb _ hn
      cases hn
  | commentOn object text =>
    obtain ⟨h1, h2⟩ := hs
    refine ⟨apply_hasObject h h1 ?_, apply_comments h h2 ?_ ?_⟩
    · rintro n tb rfl rfl
      simp [Statement.clobbers] at hc
    · rintro t' rfl
      simpa [Statement.clobbers] using hc
    · rintro n tb rfl rfl
      simp [Statement.clobbers] at hc

theorem runStatements_append (a b : List Statement) (c : Catalog) :
    runStatements (a ++ b) c =
      match runStatements a c with
      | .error e => .error e
      | .ok c1 => runStatements b c1 := by
  induction a generalizing c with
  | nil => rfl
  | cons s rest ih =>
    simp only [List.cons_append, runStatements]
    cases s.apply c with
    | error e => rfl
    | ok c1 => exact ih c1

theorem run_preserves {s : Statement} {ss : List Statement} {c c' : Catalog}
    (hc : ∀ later ∈ ss, later.clobbers s = false) (hs : s.established c)
    (h : runStatements ss c = .ok c') : s.established c' := by
  induction ss generalizing c with
  | nil =>
    simp only [runStatements] at h
    cases h
    exact hs
  | cons x rest ih =>
    simp only [runStatements] at h
    rcases hx : x.apply c with e | c1
    · rw [hx] at h; cases h
    · rw [hx] at h
      exact ih (fun later hl => hc later (List.mem_cons_of_mem _ hl))
        (apply_preserves hs (hc x (List.mem_cons_self _ _)) hx) h

theorem run_establishes {ss : List Statement} {c c' : Catalog}
    (hp : ss.Pairwise fun a b => b.clobbers a = false)
    (h : runStatements ss c = .ok c') : ∀ s ∈ ss, s.established c' := by
  induction ss generalizing c with
  | nil => intro s hs; cases hs
  | cons x rest ih =>
    simp only [runStatements] at h
    rcases hx : x.apply c with e | c1
    · rw [hx] at h; cases h
    · rw [hx] at h
      rw [List.pairwise_cons] at hp
      intro s hs
      rcases List.mem_cons.mp hs with rfl | hs
      · exact run_preserves hp.1 (apply_established hx) h
      · exact ih hp.2 h s hs

theorem apply_settled {s : Statement} {c : Catalog} (hs : s.established c)
    (ht : s.settles = true) : s.apply c = .ok c := by
  cases s with
  | createTableIfNotExists table columns references =>
    obtain ⟨h1, h2⟩ := hs
    simp [Statement.apply, h1, h2]
  | createIndexIfNotExists index table column predicate =>
    obtain ⟨h1, h2⟩ := hs
    simp [Statement.apply, h1, h2]
  | createOrReplaceFunction function returns body =>
    obtain ⟨h1, h2⟩ := hs
    simp only [Statement.apply, h1, h2, Bool.true_eq_false, ↓reduceIte]
    rw [← h2, Function.update_eq_self]
  | dropTriggerIfExists trigger table => simp [Statement.settles] at ht
  | createTrigger trigger table function => simp [Statement.settles] at ht
  | commentOn object text =>
    obtain ⟨h1, h2⟩ := hs
    simp only [Statement.apply, h1, ↓reduceIte]
    rw [← h2, Function.update_eq_self]

theorem run_settled {ss : List Statement} {c : Catalog}
    (h : ∀ s ∈ ss, s.settles = true ∧ s.established c) : runStatements ss c = .ok c := by
  induction ss with
  | nil => rfl
  | cons x rest ih =>
    simp only [runStatements]
    rw [apply_settled (h x (List.mem_cons_self _ _)).2 (h x (List.mem_cons_self _ _)).1]
    exact ih fun s hs => h s (List.mem_cons_of_mem _ hs)

theorem run_trigger_settled {c : Catalog} {trigger : String} {table function : QName}
    {text : String} (h1 : (Statement.createTrigger trigger table function).established c)
    (h2 : (Statement.commentOn (.trigger trigger table) text).established c) :
    runStatements
      [.dropTriggerIfExists trigger table, .createTrigger trigger table function,
        .commentOn (.trigger trigger table) text] c = .ok c := by
  obtain ⟨ht, hr, b, hf⟩ := h1
  obtain ⟨_, hcm⟩ := h2
  simp only [Catalog.hasObject] at hr
  rcases hrel : c.relations table with _ | r
  · rw [hrel] at hr; simp at hr
  · rw [hrel] at hr
    cases r with
    | index t col p => simp at hr
    | table cols =>
      simp only [runStatements, Statement.apply, hrel, hf, ↓reduceIte, Function.update_same,
        Option.isSome_none, Bool.false_eq_true, Catalog.hasObject, Option.isSome_some,
        Function.update_idem]
      rw [← ht, ← hcm, Function.update_eq_self, Function.update_eq_self]

theorem Exec_central (env : DbEnv) (db : SchemaDB) (q : List Statement) :
    (db.Exec env q).2.central = db.central := by
  unfold SchemaDB.Exec
  cases env.fail db.step with
  | some e => rfl
  | none =>
    cases runStatements q db.source with
    | error e => rfl
    | ok c => rfl

theorem Exec_step (env : DbEnv) (db : SchemaDB) (q : List Statement) :
    (db.Exec env q).2.step = db.step + 1 := by
  unfold SchemaDB.Exec
  cases env.fail db.step with
  | some e => rfl
  | none =>
    cases runStatements q db.source with
    | error e => rfl
    | ok c => rfl

theorem Exec_none {env : DbEnv} {db : SchemaDB} {q : List Statement}
    (h : (db.Exec env q).1 = none) :
    runStatements q db.source = .ok (db.Exec env q).2.source := by
  unfold SchemaDB.Exec at h ⊢
  cases hf : env.fail db.step with
  | some e => rw [hf] at h; cases h
  | none =>
    rw [hf] at h
    cases hr : runStatements q db.source with
    | error e => rw [hr] at h; cases h
    | ok c => rfl

theorem Exec_settled_source {env : DbEnv} {db : SchemaDB} {q : List Statement}
    (h : runStatements q db.source = .ok db.source) : (db.Exec env q).2.source = db.source := by
  unfold SchemaDB.Exec
  cases env.fail db.step with
  | some e => rfl
  | none => rw [h]

theorem Exec_settled_none {env : DbEnv} {db : SchemaDB} {q : List Statement}
    (h : runStatements q db.source = .ok db.source) (hf : env.fail db.step = none) :
    (db.Exec env q).1 = none := by
  unfold SchemaDB.Exec
  rw [hf, h]

theorem execEach_central (env : DbEnv) (db : SchemaDB) (qs : List (List Statement)) :
    (execEach env db qs).2.central = db.central := by
  induction qs generalizing db with
  | nil => rfl
  | cons q rest ih =>
    simp only [execEach]
    rcases hx : db.Exec env q with ⟨_ | e, db1⟩
    · simp only
      rw [ih db1, ← Exec_central env db q, hx]
    · simp only
      rw [← Exec_central env db q, hx]

theorem execEach_none {env : DbEnv} {db : SchemaDB} {qs : List (List Statement)}
    (h : (execEach env db qs).1 = none) :
    runStatements qs.flatten db.source = .ok (execEach env db qs).2.source := by
  induction qs generalizing db with
  | nil => rfl
  | cons q rest ih =>
    simp only [execEach] at h ⊢
    have hq := @Exec_none env db q
    rcases hx : db.Exec env q with ⟨_ | e, db1⟩
    · rw [hx] at h hq
      simp only at h hq ⊢
      rw [List.flatten_cons, runStatements_append, hq trivial]
      exact ih h
    · rw [hx] at h
      cases h

theorem execEach_settled_source {env : DbEnv} {db : SchemaDB} {qs : List (List Statement)}
    (h : ∀ q ∈ qs, runStatements q db.source = .ok db.source) :
    (execEach env db qs).2.source = db.source := by
  induction qs generalizing db with
  | nil => rfl
  | cons q rest ih =>
    simp only [execEach]
    have hq := @Exec_settled_source env db q (h q (List.mem_cons_self _ _))
    rcases hx : db.Exec env q with ⟨_ | e, db1⟩
    · rw [hx] at hq
      simp only at hq ⊢
      rw [ih (fun q2 h2 => by rw [hq]; exact h q2 (List.mem_cons_of_mem _ h2)), hq]
    · rw [hx] at hq
      exact hq

theorem execEach_settled_none {env : DbEnv} {db : SchemaDB} {qs : List (List Statement)}
    (h : ∀ q ∈ qs, runStatements q db.source = .ok db.source)
    (hf : ∀ k, env.fail (db.step + k) = none) :
    (execEach env db qs).1 = none ∧ (execEach env db qs).2.step = db.step + qs.length := by
  induction qs generalizing db with
  | nil => exact ⟨rfl, rfl⟩
  | cons q rest ih =>
    simp only [execEach]
    have hq := @Exec_settled_source env db q (h q (List.mem_cons_self _ _))
    have hn := @Exec_settled_none env db q (h q (List.mem_cons_self _ _)) (hf 0)
    have hs := Exec_step env db q
    rcases hx : db.Exec env q with ⟨_ | e, db1⟩
    · rw [hx] at hq hs
      simp only at hq hs ⊢
      have := @ih db1 (fun q2 h2 => by rw [hq]; exact h q2 (List.mem_cons_of_mem _ h2))
        (fun k => by rw [hs, Nat.add_assoc]; exact hf (1 + k))
      refine ⟨this.1, ?_⟩
      rw [this.2, hs, List.length_cons]
      omega
    · rw [hx] at hn
      cases hn

theorem mail_Initialize_exec (m : MailModule) (env : DbEnv) (db : SchemaDB) :
    (m.Initialize env db).2.1 = (execEach env db mailInitializeSQL).2
      ∧ ((m.Initialize env db).1 = none ↔ (execEach env db mailInitializeSQL).1 = none) := by
  have e : execEach env db mailInitializeSQL =
      match db.Exec env mailSettingsTableSQL with
      | (some err, db1) => (some err, db1)
      | (none, db1) =>
        match db1.Exec env mailTableSQL with
        | (some err, db2) => (some err, db2)
        | (none, db2) => execEach env db2 mailIndexesSQL := rfl
  rw [e]
  simp only [MailModule.Initialize, MailModule.createMailSettingsTable,
    MailModule.createMailTable, MailModule.createIndexes, initError]
  rcases h1 : db.Exec env mailSettingsTableSQL with ⟨_ | e1, db1⟩
  · simp only
    rcases h2 : db1.Exec env mailTableSQL with ⟨_ | e2, db2⟩
    · simp only
      rcases h3 : execEach env db2 mailIndexesSQL with ⟨_ | e3, db3⟩ <;> simp
    · simp
  · simp

theorem mail_settled {c c1 : Catalog}
    (h : runStatements mailInitializeSQL.flatten c = .ok c1) :
    ∀ q ∈ mailInitializeSQL, runStatements q c1 = .ok c1 := by
  have he := run_establishes (by decide) h
  have ht : ∀ q ∈ mailInitializeSQL, ∀ s ∈ q, s.settles = true := by decide
  intro q hq
  exact run_settled fun s hs => ⟨ht q hq s hs, he s (List.mem_flatten.mpr ⟨q, hq, hs⟩)⟩

theorem execEach_append (env : DbEnv) (db : SchemaDB) (a b : List (List Statement)) :
    execEach env db (a ++ b) =
      match execEach env db a with
      | (some err, db1) => (some err, db1)
      | (none, db1) => execEach env db1 b := by
  induction a generalizing db with
  | nil => rfl
  | cons q rest ih =>
    simp only [List.cons_append, execEach]
    rcases db.Exec env q with ⟨_ | e, db1⟩
    · exact ih db1
    · rfl

theorem verifyCentralTable_source (n : NotifyModule) (env : DbEnv) (db : SchemaDB) :
    (n.verifyCentralTable env db).2.source = db.source
      ∧ (n.verifyCentralTable env db).2.central = db.central := by
  unfold NotifyModule.verifyCentralTable
  cases env.fail db.step with
  | some e => exact ⟨rfl, rfl⟩
  | none =>
    cases db.central.hasObject (.table centralTable) with
    | true => exact ⟨rfl, rfl⟩
    | false => exact ⟨rfl, rfl⟩

theorem verifyCentralTable_none {n : NotifyModule} {env : DbEnv} {db : SchemaDB} :
    (n.verifyCentralTable env db).1 = none ↔
      env.fail db.step = none ∧ db.central.hasObject (.table centralTable) = true := by
  unfold NotifyModule.verifyCentralTable
  cases env.fail db.step with
  | some e => simp
  | none =>
    cases db.central.hasObject (.table centralTable) with
    | true => simp
    | false => simp

theorem notify_Initialize_exec (n : NotifyModule) (env : DbEnv) (db : SchemaDB) :
    (n.Initialize env db).2.1 =
        (match execEach env db notifyInitializeSQL with
          | (some _, db1) => db1
          | (none, db1) => (n.verifyCentralTable env db1).2)
      ∧ ((n.Initialize env db).1 = none ↔
          (execEach env db notifyInitializeSQL).1 = none
            ∧ (n.verifyCentralTable env (execEach env db notifyInitializeSQL).2).1 = none) := by
  have e1 : ∀ d, execEach env d [notifyTableSQL] = d.Exec env notifyTableSQL := by
    intro d
    unfold execEach
    rcases d.Exec env notifyTableSQL with ⟨_ | e, d1⟩ <;> rfl
  have e2 : ∀ d, execEach env d [notifyFunctionSQL, notifyTriggerSQL] =
      match d.Exec env notifyFunctionSQL with
      | (some err, d1) => (some err, d1)
      | (none, d1) => d1.Exec env notifyTriggerSQL := by
    intro d
    unfold execEach
    rcases d.Exec env notifyFunctionSQL with ⟨_ | e, d1⟩
    · simp only
      unfold execEach
      rcases d1.Exec env notifyTriggerSQL with ⟨_ | e, d2⟩ <;> rfl
    · rfl
  rw [notifyInitializeSQL, execEach_append, execEach_append, e1]
  simp only [NotifyModule.Initialize, NotifyModule.createNotificationTable,
    NotifyModule.createIndexes, NotifyModule.createTriggers, initError]
  rcases h1 : db.Exec env notifyTableSQL with ⟨_ | x1, db1⟩
  · simp only
    rcases h2 : execEach env db1 notifyIndexesSQL with ⟨_ | x2, db2⟩
    · simp only
      rw [e2]
      rcases h3 : db2.Exec env notifyFunctionSQL with ⟨_ | x3, db3⟩
      · simp only
        rcases h4 : db3.Exec env notifyTriggerSQL with ⟨_ | x4, db4⟩
        · simp only
          rcases h5 : n.verifyCentralTable env db4 with ⟨_ | x5, db5⟩ <;> simp
        · simp
      · simp
    · simp
  · simp

theorem notify_settled {c c1 : Catalog}
    (h : runStatements notifyInitializeSQL.flatten c = .ok c1) :
    ∀ q ∈ notifyInitializeSQL, runStatements q c1 = .ok c1 := by
  have he := run_establishes (by decide) h
  have ht : ∀ q ∈ [notifyTableSQL] ++ notifyIndexesSQL ++ [notifyFunctionSQL],
      ∀ s ∈ q, s.settles = true := by decide
  intro q hq
  have hq2 : q ∈ [notifyTableSQL] ++ notifyIndexesSQL ++ [notifyFunctionSQL]
      ∨ q = notifyTriggerSQL := by
    simp only [notifyInitializeSQL, List.mem_append, List.mem_cons, List.mem_singleton,
      List.not_mem_nil, or_false] at hq ⊢
    tauto
  rcases hq2 with hq2 | rfl
  · exact run_settled fun s hs => ⟨ht q hq2 s hs, he s (List.mem_flatten.mpr ⟨q, hq, hs⟩)⟩
  · exact run_trigger_settled
      (he _ (List.mem_flatten.mpr ⟨_, hq, by simp [notifyTriggerSQL]⟩))
      (he _ (List.mem_flatten.mpr ⟨_, hq, by simp [notifyTriggerSQL]⟩))

theorem mail_Initialize_twice (m : MailModule) (env : DbEnv) (db : SchemaDB)
    (h : (m.Initialize env db).1 = none) :
    (m.Initialize env (m.Initialize env db).2.1).2.1.source = (m.Initialize env db).2.1.source
      ∧ (m.Initialize env (m.Initialize env db).2.1).2.1.central
          = (m.Initialize env db).2.1.central
      ∧ ((∀ k, env.fail ((m.Initialize env db).2.1.step + k) = none) →
          (m.Initialize env (m.Initialize env db).2.1).1 = none) := by
  obtain ⟨hdb, herr⟩ := mail_Initialize_exec m env db
  have hrun := execEach_none (herr.mp h)
  rw [← hdb] at hrun
  have hset := mail_settled hrun
  obtain ⟨hdb2, herr2⟩ := mail_Initialize_exec m env (m.Initialize env db).2.1
  refine ⟨?_, ?_, ?_⟩
  · rw [hdb2]
    exact execEach_settled_source hset
  · rw [hdb2]
    exact execEach_central _ _ _
  · intro hf
    exact herr2.mpr (execEach_settled_none hset hf).1

theorem notify_Initialize_twice (n : NotifyModule) (env : DbEnv) (db : SchemaDB)
    (h : (n.Initialize env db).1 = none) :
    (n.Initialize env (n.Initialize env db).2.1).2.1.source = (n.Initialize env db).2.1.source
      ∧ (n.Initialize env (n.Initialize env db).2.1).2.1.central
          = (n.Initialize env db).2.1.central
      ∧ ((∀ k, env.fail ((n.Initialize env db).2.1.step + k) = none) →
          (n.Initialize env (n.Initialize env db).2.1).1 = none) := by
  obtain ⟨hdb, herr⟩ := notify_Initialize_exec n env db
  obtain ⟨hE, hV⟩ := herr.mp h
  have hrun := execEach_none hE
  rcases hx : execEach env db notifyInitializeSQL with ⟨_ | x, db3⟩
  · rw [hx] at hdb hrun hV
    simp only at hdb hrun hV
    have hsrc : (n.Initialize env db).2.1.source = db3.source := by
      rw [hdb]; exact (verifyCentralTable_source n env db3).1
    have hcen : (n.Initialize env db).2.1.central = db3.central := by
      rw [hdb]; exact (verifyCentralTable_source n env db3).2
    rw [← hsrc] at hrun
    have hset := notify_settled hrun
    obtain ⟨hdb2, herr2⟩ := notify_Initialize_exec n env (n.Initialize env db).2.1
    have hs2 := @execEach_settled_source env (n.Initialize env db).2.1 _ hset
    have hc2 := execEach_central env (n.Initialize env db).2.1 notifyInitializeSQL
    refine ⟨?_, ?_, ?_⟩
    · rw [hdb2]
      rcases hy : execEach env (n.Initialize env db).2.1 notifyInitializeSQL with ⟨_ | y, d⟩
      · rw [hy] at hs2
        simp only at hs2 ⊢
        rw [(verifyCentralTable_source n env d).1, hs2]
      · rw [hy] at hs2
        exact hs2
    · rw [hdb2]
      rcases hy : execEach env (n.Initialize env db).2.1 notifyInitializeSQL with ⟨_ | y, d⟩
      · rw [hy] at hc2
        simp only at hc2 ⊢
        rw [(verifyCentralTable_source n env d).2, hc2]
      · rw [hy] at hc2
        exact hc2
    · intro hf
      obtain ⟨hn, hstep⟩ := execEach_settled_none hset hf
      refine herr2.mpr ⟨hn, verifyCentralTable_none.mpr ⟨?_, ?_⟩⟩
      · rw [hstep]
        exact hf _
      · rw [hc2, hcen]
        exact (verifyCentralTable_none.mp hV).2
  · rw [hx] at hE
    cases hE

/-- C20: for each of the three modules, when a first `Initialize` has returned
no error, a second `Initialize` right after it leaves the catalogue of the
source database (tables, indexes, trigger function, trigger, comments) and that
of the central database exactly as the first call left them, and returns no
error unless the connection fails during the second call. -/
theorem Initialize_twice (module : ModuleInstance) (env : DbEnv) (db : SchemaDB)
    (h : (module.Initialize env db).1 = none) :
    (module.Initialize env (module.Initialize env db).2.1).2.1.source
        = (module.Initialize env db).2.1.source
      ∧ (module.Initialize env (module.Initialize env db).2.1).2.1.central
        = (module.Initialize env db).2.1.central
      ∧ ((∀ k, env.fail ((module.Initialize env db).2.1.step + k) = none) →
          (module.Initialize env (module.Initialize env db).2.1).1 = none) := by
  cases module with
  | mail m => exact mail_Initialize_twice m env db h
  | notify n => exact notify_Initialize_twice n env db h
  | roles r => exact ⟨rfl, rfl, fun _ => rfl⟩

theorem Initialize_twice_witness :
    ((ModuleInstance.notify sampleNotify).Initialize calmEnv freshSchemaDB).1 = none
      ∧ ((ModuleInstance.notify sampleNotify).Initialize calmEnv
          ((ModuleInstance.notify sampleNotify).Initialize calmEnv freshSchemaDB).2.1).1 = none
      ∧ ((ModuleInstance.notify sampleNotify).Initialize calmEnv
          ((ModuleInstance.notify sampleNotify).Initialize calmEnv freshSchemaDB).2.1).2.1.source
        = ((ModuleInstance.notify sampleNotify).Initialize calmEnv freshSchemaDB).2.1.source :=
  ⟨rfl,
    (Initialize_twice (.notify sampleNotify) calmEnv freshSchemaDB rfl).2.2 (fun _ => rfl),
    (Initialize_twice (.notify sampleNotify) calmEnv freshSchemaDB rfl).1⟩

/-! ## Mail: the message -/

/-- C28: `buildMessage` returns the From, To, optional Cc and Subject
headers, the three MIME headers, an empty line and the body, each header
line ended by CRLF; the Cc line is there exactly when Cc is not empty; and
the result is the same for two mails that differ only in Bcc. -/
theorem buildMessage_exact (mail : MailMessage) :
    MailModule.buildMessage mail
        = "From: " ++ mail.HeaderFrom ++ CRLF ++ "To: " ++ mail.HeaderTo ++ CRLF
          ++ (if mail.HeaderCC = "" then "" else "Cc: " ++ mail.HeaderCC ++ CRLF)
          ++ "Subject: " ++ mail.Subject ++ CRLF ++ "MIME-Version: 1.0" ++ CRLF
          ++ "Content-Type: text/plain; charset=UTF-8" ++ CRLF
          ++ "Content-Transfer-Encoding: 8bit" ++ CRLF ++ CRLF ++ mail.BodyText
      ∧ ∀ bcc, MailModule.buildMessage { mail with HeaderBCC := bcc }
          = MailModule.buildMessage mail := by
  refine ⟨?_, fun _ => rfl⟩
  unfold MailModule.buildMessage CRLF
  by_cases h : mail.HeaderCC = ""
  · simp only [h, bne_self_eq_false, Bool.false_eq_true, ↓reduceIte, String.empty_append,
      String.append_empty, String.append_assoc]
    congr 4
  · have hb : (mail.HeaderCC != "") = true := by simpa using h
    simp only [hb, h, ↓reduceIte, String.empty_append, String.append_assoc]
    congr 6

/-! ## Trimming and splitting -/

theorem trimSpace_eq (s : List Char) :
    trimSpace s = (s.dropWhile isSpaceRune).rdropWhile isSpaceRune := rfl

theorem trimSpace_trimmed (s : List Char) : Trimmed (trimSpace s) := by
  rw [trimSpace_eq]
  constructor
  · intro c hc
    obtain ⟨t, ht⟩ := List.rdropWhile_prefix isSpaceRune (s.dropWhile isSpaceRune)
    have hd := List.head?_dropWhile_not isSpaceRune s
    rw [← ht] at hd
    cases hx : (s.dropWhile isSpaceRune).rdropWhile isSpaceRune with
    | nil => rw [hx] at hc; cases hc
    | cons x xs =>
      rw [hx] at hc hd
      simp only [List.head?_cons, Option.some.injEq] at hc
      subst hc
      simpa using hd
  · intro c hc
    by_cases hne : (s.dropWhile isSpaceRune).rdropWhile isSpaceRune = []
    · rw [hne] at hc; cases hc
    · have := List.rdropWhile_last_not isSpaceRune (s.dropWhile isSpaceRune) hne
      rw [List.getLast?_eq_getLast _ hne] at hc
      simp only [Option.some.injEq] at hc
      subst hc
      simpa using this

theorem trimSpace_of_trimmed {s : List Char} (h : Trimmed s) : trimSpace s = s := by
  rw [trimSpace_eq]
  have h1 : s.dropWhile isSpaceRune = s := by
    rw [List.dropWhile_eq_self_iff]
    intro hl
    cases s with
    | nil => simp at hl
    | cons x xs => simpa using h.1 x rfl
  rw [h1, List.rdropWhile_eq_self_iff]
  intro hne
  have := h.2 _ (List.getLast?_eq_getLast _ hne)
  simpa using this

theorem trimSpace_blank {s : List Char} (h : ∀ c ∈ s, isSpaceRune c = true) : trimSpace s = [] := by
  rw [trimSpace_eq, List.dropWhile_eq_nil_iff.mpr h]
  rfl

theorem trimSpace_padded {l s r : List Char} (hs : Trimmed s) (hne : s ≠ [])
    (hl : ∀ c ∈ l, isSpaceRune c = true) (hr : ∀ c ∈ r, isSpaceRune c = true) :
    trimSpace (l ++ s ++ r) = s := by
  rw [trimSpace_eq, List.append_assoc, List.dropWhile_append_of_pos hl]
  have h1 : (s ++ r).dropWhile isSpaceRune = s ++ r := by
    rw [List.dropWhile_eq_self_iff]
    intro hl2
    cases s with
    | nil => exact absurd rfl hne
    | cons x xs => simpa using hs.1 x rfl
  rw [h1]
  clear h1 hl
  induction r using List.reverseRecOn with
  | nil =>
    rw [List.append_nil, List.rdropWhile_eq_self_iff]
    intro hne2
    simpa using hs.2 _ (List.getLast?_eq_getLast _ hne2)
  | append_singleton r x ih =>
    rw [← List.append_assoc, List.rdropWhile_concat_pos _ _ _ (hr x (by simp))]
    exact ih fun c hc => hr c (by simp [hc])

theorem splitComma_ne_nil (s : List Char) : splitComma s ≠ [] := by
  cases s with
  | nil => simp [splitComma]
  | cons c cs =>
    simp only [splitComma]
    split
    · simp
    · split <;> simp

theorem mem_splitComma {s piece : List Char} (hp : piece ∈ splitComma s) :
    ∀ c ∈ piece, c ∈ s ∧ c ≠ ',' := by
  induction s generalizing piece with
  | nil =>
    simp only [splitComma, List.mem_singleton] at hp
    subst hp
    intro c hc
    cases hc
  | cons x xs ih =>
    simp only [splitComma] at hp
    split at hp
    · rcases List.mem_cons.mp hp with rfl | hp
      · intro c hc; cases hc
      · intro c hc
        exact ⟨List.mem_cons_of_mem _ (ih hp c hc).1, (ih hp c hc).2⟩
    · next hx =>
      rcases hsp : splitComma xs with _ | ⟨q, qs⟩
      · exact absurd hsp (splitComma_ne_nil xs)
      · rw [hsp] at hp
        simp only at hp
        rcases List.mem_cons.mp hp with rfl | hp
        · intro c hc
          rcases List.mem_cons.mp hc with rfl | hc
          · exact ⟨List.mem_cons_self _ _, hx⟩
          · have := @ih q (by rw [hsp]; exact List.mem_cons_self _ _) c hc
            exact ⟨List.mem_cons_of_mem _ this.1, this.2⟩
        · intro c hc
          have := @ih piece (by rw [hsp]; exact List.mem_cons_of_mem _ hp) c hc
          exact ⟨List.mem_cons_of_mem _ this.1, this.2⟩

theorem parseEmailList_blank (s : String) (h : ∀ c ∈ s.toList, c = ',' ∨ isSpaceRune c = true) :
    MailModule.parseEmailList s = [] := by
  unfold MailModule.parseEmailList
  rw [List.filter_eq_nil_iff]
  intro a ha
  obtain ⟨piece, hp, rfl⟩ := List.mem_map.mp ha
  have hb : trimSpace piece = [] := by
    apply trimSpace_blank
    intro c hc
    have := mem_splitComma hp c hc
    rcases h c this.1 with e | e
    · exact absurd e this.2
    · exact e
  rw [hb]
  decide

theorem mem_parseEmailList {s a : String} (h : a ∈ MailModule.parseEmailList s) :
    a ≠ "" ∧ Trimmed a.toList := by
  unfold MailModule.parseEmailList at h
  obtain ⟨h1, h2⟩ := List.mem_filter.mp h
  obtain ⟨piece, _, rfl⟩ := List.mem_map.mp h1
  exact ⟨by simpa using h2, trimSpace_trimmed piece⟩

/-! ## Configuration: validation -/

theorem DatabaseConfig_Validate_none (dc : DatabaseConfig) :
    dc.Validate = none ↔ dc.Name ≠ "" ∧ dc.ConnectionString ≠ "" ∧ dc.ActiveModules ≠ [] := by
  unfold DatabaseConfig.Validate
  by_cases h1 : dc.Name = ""
  · simp [h1]
  · by_cases h2 : dc.ConnectionString = ""
    · simp [h1, h2]
    · by_cases h3 : dc.ActiveModules = []
      · simp [h1, h2, h3]
      · simp [h1, h2, h3]

theorem validateDatabases_none (dbs : List DatabaseConfig) :
    ∀ names, validateDatabases names dbs = none ↔
      (dbs.map fun db => db.Name).Nodup ∧ (∀ db ∈ dbs, db.Name ∉ names)
        ∧ ∀ db ∈ dbs, db.Validate = none := by
  induction dbs with
  | nil => intro names; simp [validateDatabases]
  | cons db rest ih =>
    intro names
    rw [validateDatabases]
    by_cases hc : names.contains db.Name = true
    · rw [if_pos hc]
      have hm : db.Name ∈ names := by simpa using hc
      constructor
      · intro h; cases h
      · rintro ⟨_, h2, _⟩
        exact absurd hm (h2 db (List.mem_cons_self _ _))
    · rw [if_neg hc]
      have hm : db.Name ∉ names := by simpa using hc
      cases hv : db.Validate with
      | some err =>
        simp only
        constructor
        · intro h; cases h
        · rintro ⟨_, _, h3⟩
          have := h3 db (List.mem_cons_self _ _)
          rw [hv] at this
          cases this
      | none =>
        simp only
        rw [ih]
        simp only [List.map_cons, List.nodup_cons, List.mem_map, not_exists, not_and,
          List.mem_cons, forall_eq_or_imp, not_or]
        constructor
        · rintro ⟨h1, h2, h3⟩
          refine ⟨⟨?_, h1⟩, ⟨hm, ?_⟩, hv, h3⟩
          · intro d hd he
            exact (h2 d hd).1 he
          · intro d hd
            exact (h2 d hd).2
        · rintro ⟨⟨h0, h1⟩, ⟨_, h2⟩, _, h3⟩
          refine ⟨h1, ?_, h3⟩
          intro d hd
          exact ⟨fun he => h0 d hd he, h2 d hd⟩

/-- C21: `Config.Validate` returns nil exactly when there is at least one
database, the database names are pairwise distinct, and every database has
a non-empty name, a non-empty connection string and at least one module. -/
theorem Config_Validate_iff (c : Config) :
    c.Validate = none ↔
      c.Databases ≠ [] ∧ (c.Databases.map fun db => db.Name).Nodup
        ∧ ∀ db ∈ c.Databases,
            db.Name ≠ "" ∧ db.ConnectionString ≠ "" ∧ db.ActiveModules ≠ [] := by
  unfold Config.Validate
  by_cases h : c.Databases = []
  · simp [h]
  · have hl : ¬ c.Databases.length = 0 := by simpa using h
    rw [if_neg hl, validateDatabases_none]
    simp only [List.not_mem_nil, not_false_eq_true, implies_true, true_and, ne_eq, h]
    constructor
    · rintro ⟨h1, h2⟩
      exact ⟨h1, fun db hdb => (DatabaseConfig_Validate_none db).mp (h2 db hdb)⟩
    · rintro ⟨h1, h2⟩
      exact ⟨h1, fun db hdb => (DatabaseConfig_Validate_none db).mpr (h2 db hdb)⟩

/-! ## Central configuration: the database name -/

theorem splitRune_ne_nil (sep : Char) (s : List Char) : splitRune sep s ≠ [] := by
  cases s with
  | nil => simp [splitRune]
  | cons c cs =>
    simp only [splitRune]
    split
    · simp
    · split <;> simp

theorem splitRune_append (sep : Char) {a : List Char} (ha : sep ∉ a) (rest : List Char) :
    splitRune sep (a ++ sep :: rest) = a :: splitRune sep rest := by
  induction a with
  | nil => simp [splitRune]
  | cons x xs ih =>
    have hx : x ≠ sep := fun e => ha (by simp [e])
    have hxs : sep ∉ xs := fun e => ha (List.mem_cons_of_mem _ e)
    rw [List.cons_append, splitRune, if_neg hx, ih hxs]

theorem splitRune_whole (sep : Char) {a : List Char} (ha : sep ∉ a) : splitRune sep a = [a] := by
  induction a with
  | nil => simp [splitRune]
  | cons x xs ih =>
    have hx : x ≠ sep := fun e => ha (by simp [e])
    have hxs : sep ∉ xs := fun e => ha (List.mem_cons_of_mem _ e)
    simp only [splitRune, if_neg hx, ih hxs]

theorem splitRune_first (sep : Char) (s : List Char) :
    ∃ pieces, splitRune sep s = (s.takeWhile fun c => c != sep) :: pieces := by
  induction s with
  | nil => exact ⟨[], rfl⟩
  | cons x xs ih =>
    obtain ⟨pieces, hp⟩ := ih
    by_cases hx : x = sep
    · subst hx
      exact ⟨splitRune x xs, by simp [splitRune]⟩
    · refine ⟨pieces, ?_⟩
      have hb : (x != sep) = true := by simpa using hx
      simp only [splitRune, if_neg hx, hp, List.takeWhile_cons, hb, ↓reduceIte]

theorem splitRune_length (sep : Char) (s : List Char) :
    (splitRune sep s).length = s.count sep + 1 := by
  induction s with
  | nil => rfl
  | cons x xs ih =>
    by_cases hx : x = sep
    · subst hx
      simp [splitRune, ih]
    · have hb : (x == sep) = false := by simpa using hx
      simp only [splitRune, if_neg hx, List.count_cons, hb, Bool.false_eq_true, ↓reduceIte,
        Nat.add_zero]
      rcases hs : splitRune sep xs with _ | ⟨p, ps⟩
      · exact absurd hs (splitRune_ne_nil sep xs)
      · rw [hs] at ih
        simpa using ih

theorem indexRune_append (sep : Char) {a : List Char} (ha : sep ∉ a) (rest : List Char) :
    indexRune sep (a ++ sep :: rest) = a.length := by
  unfold indexRune
  rw [if_pos (by simp)]
  have : ((a ++ sep :: rest).takeWhile fun c => c != sep) = a := by
    rw [List.takeWhile_append_of_pos]
    · simp
    · intro c hc
      have : c ≠ sep := fun e => ha (e ▸ hc)
      simpa using this
  rw [this]

theorem indexRune_absent (sep : Char) {a : List Char} (ha : sep ∉ a) : indexRune sep a = -1 := by
  unfold indexRune
  rw [if_neg ha]

theorem extractDatabaseName_of_segment (s : String) (p0 p1 p2 seg : List Char)
    (pieces : List (List Char))
    (h : splitRune '/' s.toList = p0 :: p1 :: p2 :: seg :: pieces) :
    extractDatabaseName s =
      if (if indexRune '?' seg ≠ -1 then seg.take (indexRune '?' seg).toNat else seg) ≠ []
      then String.mk (if indexRune '?' seg ≠ -1 then seg.take (indexRune '?' seg).toNat else seg)
      else "central_db" := by
  unfold extractDatabaseName
  simp only [h, List.length_cons, ge_iff_le, Nat.le_add_left, ↓reduceIte, List.getD_cons_succ,
    List.getD_cons_zero]

theorem extractDatabaseName_few (s : String) (h : s.toList.count '/' < 3) :
    extractDatabaseName s = "central_db" := by
  unfold extractDatabaseName
  have hl := splitRune_length '/' s.toList
  have : ¬ (splitRune '/' s.toList).length ≥ 4 := by omega
  simp only [this, ↓reduceIte]

/-- C29: for `scheme://authority/db` and `scheme://authority/db?query`, where
scheme and authority contain no slash and `db` is non-empty with neither a
slash nor a question mark, `extractDatabaseName` returns `db`; for a string
with fewer than three slashes, and for a string whose text after the third
slash is empty or begins with a slash or a question mark, it returns
`central_db`. -/
theorem extractDatabaseName_spec :
    (∀ scheme authority db query : String,
        '/' ∉ scheme.toList → '/' ∉ authority.toList → db ≠ "" → '/' ∉ db.toList →
        '?' ∉ db.toList →
        extractDatabaseName (scheme ++ "://" ++ authority ++ "/" ++ db) = db
          ∧ extractDatabaseName (scheme ++ "://" ++ authority ++ "/" ++ db ++ "?" ++ query) = db)
      ∧ (∀ s : String, s.toList.count '/' < 3 → extractDatabaseName s = "central_db")
      ∧ ∀ a b c rest : String,
          '/' ∉ a.toList → '/' ∉ b.toList → '/' ∉ c.toList →
          (∀ ch, rest.toList.head? = some ch → ch = '/' ∨ ch = '?') →
          extractDatabaseName (a ++ "/" ++ b ++ "/" ++ c ++ "/" ++ rest) = "central_db" := by
  refine ⟨?_, extractDatabaseName_few, ?_⟩
  · intro scheme authority db query hs ha hne hd hq
    have hdb : db.toList ≠ [] := by
      intro e
      apply hne
      exact String.ext e
    have hsc : '/' ∉ scheme.toList ++ [':'] := by
      simp only [List.mem_append, List.mem_singleton, not_or]
      exact ⟨hs, by decide⟩
    constructor
    · have h : splitRune '/' (scheme ++ "://" ++ authority ++ "/" ++ db).toList
          = (scheme.toList ++ [':']) :: [] :: authority.toList :: db.toList :: [] := by
        have e : (scheme ++ "://" ++ authority ++ "/" ++ db).toList
            = (scheme.toList ++ [':']) ++ '/' :: ([] ++ '/' :: (authority.toList ++ '/' :: db.toList)) := by
          simp [String.toList, String.data_append]
        rw [e, splitRune_append '/' hsc, splitRune_append '/' (by simp), splitRune_append '/' ha,
          splitRune_whole '/' hd]
      rw [extractDatabaseName_of_segment _ _ _ _ _ _ h, indexRune_absent '?' hq]
      simp only [String.toList] at hdb
      simp
      intro e
      exact absurd e hdb
    · obtain ⟨pieces, hp⟩ := splitRune_first '/' (db.toList ++ '?' :: query.toList)
      have ht : ((db.toList ++ '?' :: query.toList).takeWhile fun c => c != '/')
          = db.toList ++ '?' :: (query.toList.takeWhile fun c => c != '/') := by
        rw [List.takeWhile_append_of_pos]
        · simp
        · intro c hc
          have : c ≠ '/' := fun e => hd (e ▸ hc)
          simpa using this
      rw [ht] at hp
      have h : splitRune '/' (scheme ++ "://" ++ authority ++ "/" ++ db ++ "?" ++ query).toList
          = (scheme.toList ++ [':']) :: [] :: authority.toList
              :: (db.toList ++ '?' :: (query.toList.takeWhile fun c => c != '/')) :: pieces := by
        have e : (scheme ++ "://" ++ authority ++ "/" ++ db ++ "?" ++ query).toList
            = (scheme.toList ++ [':']) ++ '/' :: ([] ++ '/' :: (authority.toList ++ '/'
                :: (db.toList ++ '?' :: query.toList))) := by
          simp [String.toList, String.data_append]
        rw [e, splitRune_append '/' hsc, splitRune_append '/' (by simp), splitRune_append '/' ha,
          hp]
      rw [extractDatabaseName_of_segment _ _ _ _ _ _ h, indexRune_append '?' hq]
      simp only [String.toList] at hdb
      simp
      intro e
      exact absurd e hdb
  · intro a b c rest ha hb hc hr
    obtain ⟨pieces, hp⟩ := splitRune_first '/' rest.toList
    have h : splitRune '/' (a ++ "/" ++ b ++ "/" ++ c ++ "/" ++ rest).toList
        = a.toList :: b.toList :: c.toList :: (rest.toList.takeWhile fun ch => ch != '/')
            :: pieces := by
      have e : (a ++ "/" ++ b ++ "/" ++ c ++ "/" ++ rest).toList
          = a.toList ++ '/' :: (b.toList ++ '/' :: (c.toList ++ '/' :: rest.toList)) := by
        simp [String.toList, String.data_append]
      rw [e, splitRune_append '/' ha, splitRune_append '/' hb, splitRune_append '/' hc, hp]
    rw [extractDatabaseName_of_segment _ _ _ _ _ _ h]
    cases hrest : rest.toList with
    | nil => simp [indexRune]
    | cons x xs =>
      rcases hr x (by rw [hrest]; rfl) with rfl | rfl
      · simp [indexRune]
      · have : indexRune '?' (('?' :: xs).takeWhile fun ch => ch != '/') = 0 := by
          simp [indexRune]
        rw [this]
        simp

/-! ## Health check: reconnects in flight -/

theorem healthCheckTick_launches (cm : ConnectionManager) (probe : Option String) :
    reconnectLaunches (cm.healthCheckTick probe).2
      = if (cm.Ping probe).1.isSome ∧ cm.isConnected = true
        then [Event.reconnectLaunch cm.config.Name] else [] := by
  have hp := Ping_no_launch cm probe
  unfold ConnectionManager.healthCheckTick ConnectionManager.handleConnectionLoss
  rcases hping : cm.Ping probe with ⟨_ | err, t⟩
  · rw [hping] at hp
    simp only at hp
    simp only [reconnectLaunches_append, reconnectLaunches_logIf, hp, Option.isSome_none,
      Bool.false_eq_true, false_and, ↓reduceIte, List.append_nil]
  · rw [hping] at hp
    simp only at hp
    cases hc : cm.isConnected
    · simp only [Bool.false_eq_true, ↓reduceIte, reconnectLaunches_append,
        reconnectLaunches_logIf, hp, and_false, List.append_nil]
    · simp only [↓reduceIte, reconnectLaunches_append, reconnectLaunches_logIf, hp,
        Option.isSome_some, and_self, List.append_nil, List.nil_append]
      rfl

theorem healthCheckTick_isConnected (cm : ConnectionManager) (probe : Option String) :
    (cm.healthCheckTick probe).1.isConnected
      = (cm.isConnected && (cm.Ping probe).1.isNone) := by
  unfold ConnectionManager.healthCheckTick ConnectionManager.handleConnectionLoss
  rcases hping : cm.Ping probe with ⟨_ | err, t⟩
  · simp
  · cases hc : cm.isConnected <;> simp

theorem healthCheckLoop_disconnected (env : HealthEnv) (hn : env.neverConnects) :
    ∀ (fuel k : Nat) (cm : ConnectionManager) (r : ConnectionManager × List Event),
      cm.isConnected = false → cm.healthCheckLoop env fuel k = some r →
      reconnectLaunches r.2 = [] := by
  intro fuel
  induction fuel with
  | zero => intro k cm r _ h; simp [ConnectionManager.healthCheckLoop] at h
  | succ fuel ih =>
    intro k cm r hc h
    have h0 : (env.interfere k cm).isConnected = false := by
      cases hx : (env.interfere k cm).isConnected with
      | false => rfl
      | true => rw [hn k cm hx] at hc; cases hc
    simp only [ConnectionManager.healthCheckLoop] at h
    cases hs : env.select k with
    | shutdown => rw [hs] at h; simp only [Option.some.injEq] at h; subst h; rfl
    | ctxDone => rw [hs] at h; simp only [Option.some.injEq] at h; subst h; rfl
    | tick =>
      rw [hs] at h
      simp only [Option.map_eq_some'] at h
      obtain ⟨r2, hr2, rfl⟩ := h
      have hl := healthCheckTick_launches (env.interfere k cm) (env.probe k)
      have hi := healthCheckTick_isConnected (env.interfere k cm) (env.probe k)
      rw [h0] at hl hi
      simp only [Bool.false_eq_true, and_false, ↓reduceIte, Bool.false_and] at hl hi
      rw [reconnectLaunches_append, hl, ih _ _ _ hi hr2]
      rfl

theorem healthCheckLoop_launches (env : HealthEnv) (hn : env.neverConnects) :
    ∀ (fuel k : Nat) (cm : ConnectionManager) (r : ConnectionManager × List Event),
      cm.healthCheckLoop env fuel k = some r → (reconnectLaunches r.2).length ≤ 1 := by
  intro fuel
  induction fuel with
  | zero => intro k cm r h; simp [ConnectionManager.healthCheckLoop] at h
  | succ fuel ih =>
    intro k cm r h
    have h0 := h
    simp only [ConnectionManager.healthCheckLoop] at h
    cases hs : env.select k with
    | shutdown => rw [hs] at h; simp only [Option.some.injEq] at h; subst h; simp [reconnectLaunches]
    | ctxDone => rw [hs] at h; simp only [Option.some.injEq] at h; subst h; simp [reconnectLaunches]
    | tick =>
      rw [hs] at h
      simp only [Option.map_eq_some'] at h
      obtain ⟨r2, hr2, rfl⟩ := h
      have hl := healthCheckTick_launches (env.interfere k cm) (env.probe k)
      have hi := healthCheckTick_isConnected (env.interfere k cm) (env.probe k)
      rw [reconnectLaunches_append, List.length_append, hl]
      split
      · next hc =>
        rw [hc.2] at hi
        have hnone : ((env.interfere k cm).Ping (env.probe k)).1.isNone = false := by
          cases hx : ((env.interfere k cm).Ping (env.probe k)).1 with
          | none => rw [hx] at hc; simp at hc
          | some e => rfl
        rw [hnone] at hi
        rw [healthCheckLoop_disconnected env hn _ _ _ _ hi hr2]
        simp
      · have := ih _ _ _ hr2
        simpa using this

/-- C26 as stated fails: there are no two health-check ticks in succession,
both with a failing probe and with no successful `Connect` between them
(whatever else happens to the manager between them leaves a Disconnected
manager Disconnected), that each launch a `Reconnect`. -/
theorem no_two_launches_in_succession :
    ¬ ∃ (cm : ConnectionManager) (probe1 probe2 : Option String)
        (between : ConnectionManager → ConnectionManager),
        (∀ c, (between c).isConnected = true → c.isConnected = true)
          ∧ (cm.Ping probe1).1.isSome = true
          ∧ reconnectLaunches (cm.healthCheckTick probe1).2 ≠ []
          ∧ reconnectLaunches ((between (cm.healthCheckTick probe1).1).healthCheckTick probe2).2
              ≠ [] := by
  rintro ⟨cm, probe1, probe2, between, hb, hp, _, h2⟩
  apply h2
  have hi := healthCheckTick_isConnected cm probe1
  have hnone : (cm.Ping probe1).1.isNone = false := by
    cases hx : (cm.Ping probe1).1 with
    | none => rw [hx] at hp; cases hp
    | some e => rfl
  rw [hnone, Bool.and_false] at hi
  have hc : (between (cm.healthCheckTick probe1).1).isConnected = false := by
    cases hx : (between (cm.healthCheckTick probe1).1).isConnected with
    | false => rfl
    | true => rw [hb _ hx] at hi; cases hi
  rw [healthCheckTick_launches, hc]
  simp

/-- C26 as amended: in every run of the health-check loop during which no
`Connect` succeeds, at most one `Reconnect` is launched however many ticks
fail, and none at all when the manager is Disconnected at the start: the
flag that `handleConnectionLoss` tests and clears keeps a second sequence
from being launched. -/
theorem healthCheckLoop_single_flight (env : HealthEnv) (fuel k : Nat) (cm : ConnectionManager)
    (r : ConnectionManager × List Event) (hn : env.neverConnects)
    (h : cm.healthCheckLoop env fuel k = some r) :
    (reconnectLaunches r.2).length ≤ 1
      ∧ (cm.isConnected = false → reconnectLaunches r.2 = []) :=
  ⟨healthCheckLoop_launches env hn fuel k cm r h,
    fun hc => healthCheckLoop_disconnected env hn fuel k cm r hc h⟩

/-- Witness for C26: three ticks in a row with a failing probe on the sample
Connected manager launch one `Reconnect`. -/
theorem healthCheckLoop_single_flight_witness :
    ((connectedManager.healthCheckLoop threeFailedTicksEnv 4 0).map
        fun r => reconnectLaunches r.2) = some [Event.reconnectLaunch "db1"]
      ∧ (reconnectLaunches
            ((connectedManager.healthCheckLoop threeFailedTicksEnv 4 0).get rfl).2).length ≤ 1 :=
  ⟨rfl,
    (healthCheckLoop_single_flight threeFailedTicksEnv 4 0 connectedManager _ (fun _ _ h => h)
      rfl).1⟩

/-! ## Modules: payloads that are not a decimal integer -/

/-- C25 (the code at the failing input): the payloads ` 2abc` (mail) and
`+8 or so` (notify) are not the decimal string form of an integer, yet
`Sscanf` with `%d` reads the integers 2 and 8 from their start and leaves
the rest unread; `ProcessNotification` returns nil, and the mail is sent and
the notification forwarded. -/
theorem ProcessNotification_reads_leading_integer :
    sscanfInt " 2abc" = .ok 2
      ∧ (sampleMail.ProcessNotification calmEnv sampleMailDB " 2abc").1 = none
      ∧ (sampleMail.ProcessNotification calmEnv sampleMailDB " 2abc").2.2
          = [Event.mailSelect 2, Event.mailSettingsSelect 1,
              Event.smtpSend 2 ["a@example.org"],
              Event.log LoggerRef.main (.LogMailSent "db1" 2 "a@example.org"),
              Event.mailMarkSent 2]
      ∧ sscanfInt "+8 or so" = .ok 8
      ∧ (sampleNotify.ProcessNotification calmEnv sampleNotifyDB "+8 or so").1 = none
      ∧ notifyAttempts (sampleNotify.ProcessNotification calmEnv sampleNotifyDB "+8 or so").2.2
          = [8]
      ∧ (sampleNotify.ProcessNotification calmEnv sampleNotifyDB "+8 or so").2.1.central.length
          = 1 := by
  refine ⟨rfl, rfl, rfl, rfl, rfl, rfl, rfl⟩

/-! ## Mail: the retry budget -/

theorem retryIncrements_append (a b : List Event) :
    retryIncrements (a ++ b) = retryIncrements a ++ retryIncrements b := by
  simp [retryIncrements]

theorem retryIncrements_logIf (lg : Option LoggerRef) (c : LogCall) :
    retryIncrements (logIf lg c) = [] := by
  cases lg <;> rfl

theorem smtpSends_append (a b : List Event) : smtpSends (a ++ b) = smtpSends a ++ smtpSends b := by
  simp [smtpSends]

theorem smtpSends_logIf (lg : Option LoggerRef) (c : LogCall) : smtpSends (logIf lg c) = [] := by
  cases lg <;> rfl

theorem exhaustedMail_eq (mailID : Int) (msg : String) (mails : List MailMessage) :
    List.map
        (fun r : MailMessage => if (r.ID == mailID) = true then { r with ErrorMessage := some msg }
          else r)
        (List.map
          (fun r : MailMessage =>
            if (r.ID == mailID) = true then { r with RetryCount := r.RetryCount + 1 } else r)
          (List.map
            (fun r : MailMessage =>
              if (r.ID == mailID) = true then { r with RetryCount := r.RetryCount + 1 } else r)
            (List.map
              (fun r : MailMessage =>
                if (r.ID == mailID) = true then { r with RetryCount := r.RetryCount + 1 } else r)
              mails)))
      = exhaustedMail mailID msg mails := by
  unfold exhaustedMail
  simp only [List.map_map]
  apply List.map_congr_left
  intro r _
  by_cases h : (r.ID == mailID) = true
  · simp only [Function.comp_apply, h, ↓reduceIte, add_assoc]
    rfl
  · simp only [Function.comp_apply, h, Bool.false_eq_true, ↓reduceIte]

theorem sendLoop_exhausted_sending (m : MailModule) (env : DbEnv) (mail : MailMessage)
    (settings : MailSettings) (mailID : Int) (db : MailDB) (lastErr : String)
    (hr : (MailModule.collectRecipients mail).length ≠ 0) (e0 e1 e2 : String)
    (f0 : env.fail db.step = some e0) (u0 : env.fail (db.step + 1) = none)
    (c1 : env.ctxDone (db.step + 2) = false)
    (f1 : env.fail (db.step + 3) = some e1) (u1 : env.fail (db.step + 4) = none)
    (c2 : env.ctxDone (db.step + 5) = false)
    (f2 : env.fail (db.step + 6) = some e2) (u2 : env.fail (db.step + 7) = none)
    (u3 : env.fail (db.step + 8) = none) :
    (m.sendLoop env mail settings mailID 3 0 lastErr db).1
        = some ("failed to send mail " ++ toString mailID ++ ": " ++ e2)
      ∧ (m.sendLoop env mail settings mailID 3 0 lastErr db).2.1.mails
          = exhaustedMail mailID ("Failed after " ++ toString maxRetries ++ " attempts: " ++ e2)
              db.mails
      ∧ (m.sendLoop env mail settings mailID 3 0 lastErr db).2.1.settings = db.settings
      ∧ retryIncrements (m.sendLoop env mail settings mailID 3 0 lastErr db).2.2
          = List.replicate 3 (Event.mailIncrementRetry mailID)
      ∧ (smtpSends (m.sendLoop env mail settings mailID 3 0 lastErr db).2.2).length = 3 := by
  refine ⟨?a, ?b, ?c, ?d, ?e⟩ <;>
    simp only [MailModule.sendLoop, MailModule.retryWait, MailModule.sendSMTP,
      MailModule.incrementRetryCount, MailModule.recordError, MailDB.update, hr, f0, u0, c1, f1,
      u1, c2, f2, u2, u3, Nat.add_assoc, Nat.reduceAdd, ↓reduceIte, gt_iff_lt, Nat.lt_irrefl,
      Nat.zero_lt_succ, Nat.zero_add, Nat.lt_add_one, Bool.false_eq_true]
  case b => exact exhaustedMail_eq mailID _ db.mails
  case d =>
    simp only [retryIncrements_append, retryIncrements_logIf]
    rfl
  case e =>
    simp only [smtpSends_append, smtpSends_logIf]
    rfl

theorem sendLoop_exhausted_unsent (m : MailModule) (env : DbEnv) (mail : MailMessage)
    (settings : MailSettings) (mailID : Int) (db : MailDB) (lastErr : String)
    (hr : (MailModule.collectRecipients mail).length = 0)
    (u0 : env.fail db.step = none) (c1 : env.ctxDone (db.step + 1) = false)
    (u1 : env.fail (db.step + 2) = none) (c2 : env.ctxDone (db.step + 3) = false)
    (u2 : env.fail (db.step + 4) = none) (u3 : env.fail (db.step + 5) = none) :
    (m.sendLoop env mail settings mailID 3 0 lastErr db).1
        = some ("failed to send mail " ++ toString mailID ++ ": " ++ "no recipients specified")
      ∧ (m.sendLoop env mail settings mailID 3 0 lastErr db).2.1.mails
          = exhaustedMail mailID
              ("Failed after " ++ toString maxRetries ++ " attempts: " ++ "no recipients specified")
              db.mails
      ∧ (m.sendLoop env mail settings mailID 3 0 lastErr db).2.1.settings = db.settings
      ∧ retryIncrements (m.sendLoop env mail settings mailID 3 0 lastErr db).2.2
          = List.replicate 3 (Event.mailIncrementRetry mailID)
      ∧ (smtpSends (m.sendLoop env mail settings mailID 3 0 lastErr db).2.2).length = 0 := by
  refine ⟨?a, ?b, ?c, ?d, ?e⟩ <;>
    simp only [MailModule.sendLoop, MailModule.retryWait, MailModule.sendSMTP,
      MailModule.incrementRetryCount, MailModule.recordError, MailDB.update, hr, u0, c1, u1,
      c2, u2, u3, Nat.add_assoc, Nat.reduceAdd, ↓reduceIte, gt_iff_lt, Nat.lt_irrefl,
      Nat.zero_lt_succ, Nat.zero_add, Nat.lt_add_one, Bool.false_eq_true]
  case b => exact exhaustedMail_eq mailID _ db.mails
  case d =>
    simp only [retryIncrements_append, retryIncrements_logIf]
    rfl
  case e =>
    simp only [smtpSends_append, smtpSends_logIf]
    rfl

theorem sendMail_loaded (m : MailModule) (env : DbEnv) (db : MailDB) (mailID : Int)
    (mail : MailMessage) (settings : MailSettings)
    (hrow : env.fail db.step = none)
    (hmail : (db.mails.find? fun r => r.ID == mailID) = some mail)
    (hsel : env.fail (db.step + 1) = none)
    (hset : (db.settings.find? fun r => r.ID == mail.MailSettingID) = some settings) :
    m.sendMail env db mailID
      = ((m.sendLoop env mail settings mailID 3 0 "" { db with step := db.step + 2 }).1,
          (m.sendLoop env mail settings mailID 3 0 "" { db with step := db.step + 2 }).2.1,
          [Event.mailSelect mailID] ++ [Event.mailSettingsSelect mail.MailSettingID]
            ++ (m.sendLoop env mail settings mailID 3 0 "" { db with step := db.step + 2 }).2.2) := by
  simp only [MailModule.sendMail, MailModule.getMailMessage, MailModule.getMailSettings, hrow,
    hmail, hsel, hset, maxRetries, Nat.add_assoc, Nat.reduceAdd]

theorem exhaustedMail_not_pending (db : MailDB) (mailID : Int) (msg : String)
    (mails : List MailMessage) (h0 : ∀ r ∈ mails, r.ID = mailID → 0 ≤ r.RetryCount)
    (hm : db.mails = exhaustedMail mailID msg mails) : mailID ∉ db.pending := by
  intro hp
  unfold MailDB.pending at hp
  obtain ⟨r, hr, hid⟩ := List.mem_map.mp hp
  rw [(List.perm_insertionSort _ _).mem_iff, List.mem_filter] at hr
  obtain ⟨hr1, hr2⟩ := hr
  rw [hm] at hr1
  unfold exhaustedMail at hr1
  obtain ⟨r0, hr0, he⟩ := List.mem_map.mp hr1
  by_cases hc : (r0.ID == mailID) = true
  · rw [if_pos hc] at he
    have h3 := h0 r0 hr0 (by simpa using hc)
    subst he
    simp only [maxRetries, Bool.and_eq_true, Bool.not_eq_true', decide_eq_true_eq] at hr2
    have := hr2.2
    simp only [Nat.cast_ofNat] at this
    omega
  · rw [if_neg hc] at he
    subst he
    exact hc (by simpa using hid)

theorem ProcessQueue_attempts_pending (m : MailModule) (env : DbEnv) (db : MailDB) (id : Int)
    (h : id ∉ db.pending) : id ∉ mailAttempts (m.ProcessQueue env db).2.2 := by
  unfold MailModule.ProcessQueue
  cases env.rows db.step with
  | queryErr e => simp [mailAttempts]
  | scanErr e => simp [mailAttempts]
  | iterErr e => simp [mailAttempts]
  | ok =>
    simp only
    have := mailAttempts_sendAll m env db.pending { db with step := db.step + 1 }
    rcases hs : m.sendAll env { db with step := db.step + 1 } db.pending with ⟨db2, t⟩
    rw [hs] at this
    simp only at this ⊢
    have hc : mailAttempts (Event.mailPending :: t) = mailAttempts t := rfl
    rw [hc, this]
    exact h

/-- C30 as stated fails: the row and the settings of mail 2 load, the
context is never done and each of the three SMTP attempts fails, but the
first `incrementRetryCount` update fails too (its error is dropped by
`sendMail`): the row ends at `retry_count` 2, still satisfies the selection
condition `retry_count < 3`, and the next catch-up scan attempts it again. -/
theorem sendMail_loses_failed_increment :
    (∀ k, updateDownEnv.ctxDone k = false)
      ∧ (sampleMail.sendMail updateDownEnv sampleMailDB 2).1
          = some "failed to send mail 2: connection refused"
      ∧ (smtpSends (sampleMail.sendMail updateDownEnv sampleMailDB 2).2.2).length = 3
      ∧ retryIncrements (sampleMail.sendMail updateDownEnv sampleMailDB 2).2.2
          = List.replicate 3 (Event.mailIncrementRetry 2)
      ∧ ((sampleMail.sendMail updateDownEnv sampleMailDB 2).2.1.mails.map
            fun r => (r.ID, r.RetryCount, r.ErrorMessage))
          = [(1, 0, none), (2, 2, some "Failed after 3 attempts: connection refused")]
      ∧ (sampleMail.sendMail updateDownEnv sampleMailDB 2).2.1.pending = [2]
      ∧ mailAttempts
          (sampleMail.ProcessQueue calmEnv
            (sampleMail.sendMail updateDownEnv sampleMailDB 2).2.1).2.2 = [2] :=
  ⟨fun _ => rfl, rfl, rfl, rfl, rfl, by decide, by decide⟩

/-- C30 as amended: when the row and the settings of a mail load, the
context is not done, every SMTP attempt of a `sendMail` call fails and the
`UPDATE` statements of the call succeed, the call makes `maxRetries` = 3 attempts, each followed
by one increment of `retry_count`, so that the row ends with `retry_count`
three higher and with an error message recorded, and the call returns an
error; a row that started at zero (or above) is then not among the rows the
catch-up query of `ProcessQueue` selects, and a later scan does not attempt
it. -/
theorem sendMail_exhausts_retries (m : MailModule) (env : DbEnv) (db : MailDB) (mailID : Int)
    (mail : MailMessage) (settings : MailSettings)
    (hrow : env.fail db.step = none)
    (hmail : (db.mails.find? fun r => r.ID == mailID) = some mail)
    (hsel : env.fail (db.step + 1) = none)
    (hset : (db.settings.find? fun r => r.ID == mail.MailSettingID) = some settings)
    (henv : env.everySendFails (db.step + 2) (MailModule.sendCost mail)) :
    (∃ lastErr,
        (m.sendMail env db mailID).1
            = some ("failed to send mail " ++ toString mailID ++ ": " ++ lastErr)
          ∧ (m.sendMail env db mailID).2.1.mails
              = exhaustedMail mailID
                  ("Failed after " ++ toString maxRetries ++ " attempts: " ++ lastErr) db.mails)
      ∧ retryIncrements (m.sendMail env db mailID).2.2
          = List.replicate maxRetries (Event.mailIncrementRetry mailID)
      ∧ (smtpSends (m.sendMail env db mailID).2.2).length
          = maxRetries * MailModule.sendCost mail
      ∧ ((∀ r ∈ db.mails, r.ID = mailID → 0 ≤ r.RetryCount) →
          mailID ∉ (m.sendMail env db mailID).2.1.pending
            ∧ ∀ env2,
                mailID ∉ mailAttempts (m.ProcessQueue env2 (m.sendMail env db mailID).2.1).2.2) := by
  rw [sendMail_loaded m env db mailID mail settings hrow hmail hsel hset]
  obtain ⟨hf, hu, hc1, hc2, hu3⟩ := henv
  have key : ∃ lastErr,
      (m.sendLoop env mail settings mailID 3 0 "" { db with step := db.step + 2 }).1
          = some ("failed to send mail " ++ toString mailID ++ ": " ++ lastErr)
        ∧ (m.sendLoop env mail settings mailID 3 0 "" { db with step := db.step + 2 }).2.1.mails
            = exhaustedMail mailID
                ("Failed after " ++ toString maxRetries ++ " attempts: " ++ lastErr) db.mails
        ∧ retryIncrements
              (m.sendLoop env mail settings mailID 3 0 "" { db with step := db.step + 2 }).2.2
            = List.replicate 3 (Event.mailIncrementRetry mailID)
        ∧ (smtpSends
              (m.sendLoop env mail settings mailID 3 0 "" { db with step := db.step + 2 }).2.2).length
            = 3 * MailModule.sendCost mail := by
    by_cases hr : (MailModule.collectRecipients mail).length = 0
    · have hcost : MailModule.sendCost mail = 0 := by simp [MailModule.sendCost, hr]
      rw [hcost] at hu hc1 hc2 hu3 ⊢
      have u0 := hu 0 (by omega)
      have u1 := hu 1 (by omega)
      have u2 := hu 2 (by omega)
      simp only [Nat.zero_mul, Nat.add_zero, Nat.one_mul, Nat.mul_zero, Nat.zero_add,
        Nat.add_assoc, Nat.reduceAdd, Nat.reduceMul] at u0 u1 u2 hc1 hc2 hu3
      obtain ⟨h1, h2, _, h4, h5⟩ :=
        sendLoop_exhausted_unsent m env mail settings mailID { db with step := db.step + 2 } ""
          hr u0 (by simpa [Nat.add_assoc] using hc1) (by simpa [Nat.add_assoc] using u1)
          (by simpa [Nat.add_assoc] using hc2) (by simpa [Nat.add_assoc] using u2)
          (by simpa [Nat.add_assoc] using hu3)
      exact ⟨_, h1, h2, h4, by rw [h5]⟩
    · have hcost : MailModule.sendCost mail = 1 := by simp [MailModule.sendCost, hr]
      rw [hcost] at hf hu hc1 hc2 hu3 ⊢
      have hf := hf rfl
      obtain ⟨e0, f0⟩ := Option.isSome_iff_exists.mp (hf 0 (by omega))
      obtain ⟨e1, f1⟩ := Option.isSome_iff_exists.mp (hf 1 (by omega))
      obtain ⟨e2, f2⟩ := Option.isSome_iff_exists.mp (hf 2 (by omega))
      have u0 := hu 0 (by omega)
      have u1 := hu 1 (by omega)
      have u2 := hu 2 (by omega)
      simp only [Nat.zero_mul, Nat.add_zero, Nat.one_mul, Nat.mul_zero, Nat.zero_add,
        Nat.add_assoc, Nat.reduceAdd, Nat.reduceMul] at f0 f1 f2 u0 u1 u2 hc1 hc2 hu3
      obtain ⟨h1, h2, _, h4, h5⟩ :=
        sendLoop_exhausted_sending m env mail settings mailID { db with step := db.step + 2 } ""
          hr e0 e1 e2 f0 (by simpa [Nat.add_assoc] using u0) (by simpa [Nat.add_assoc] using hc1)
          (by simpa [Nat.add_assoc] using f1) (by simpa [Nat.add_assoc] using u1)
          (by simpa [Nat.add_assoc] using hc2) (by simpa [Nat.add_assoc] using f2)
          (by simpa [Nat.add_assoc] using u2) (by simpa [Nat.add_assoc] using hu3)
      exact ⟨_, h1, h2, h4, by rw [h5]⟩
  obtain ⟨lastErr, k1, k2, k3, k4⟩ := key
  refine ⟨⟨lastErr, k1, k2⟩, ?_, ?_, ?_⟩
  · simp only [retryIncrements_append, k3, maxRetries]
    rfl
  · simp only [smtpSends_append, List.length_append, k4, maxRetries]
    have h1 : (smtpSends [Event.mailSelect mailID]).length = 0 := rfl
    have h2 : (smtpSends [Event.mailSettingsSelect mail.MailSettingID]).length = 0 := rfl
    rw [h1, h2]
    omega
  · intro h0
    have hp := exhaustedMail_not_pending _ mailID _ db.mails h0 k2
    exact ⟨hp, fun env2 => ProcessQueue_attempts_pending m env2 _ mailID hp⟩

/-- Witness for C30: mail 2 of the sample state, every transmission refused. -/
theorem sendMail_exhausts_retries_witness :
    (sampleMail.sendMail smtpDownEnv sampleMailDB 2).1.isSome = true
      ∧ retryIncrements (sampleMail.sendMail smtpDownEnv sampleMailDB 2).2.2
          = List.replicate maxRetries (Event.mailIncrementRetry 2)
      ∧ (smtpSends (sampleMail.sendMail smtpDownEnv sampleMailDB 2).2.2).length = 3
      ∧ ((sampleMail.sendMail smtpDownEnv sampleMailDB 2).2.1.mails.map
            fun r => (r.ID, r.RetryCount)) = [(1, 0), (2, 3)]
      ∧ (2 : Int) ∉ (sampleMail.sendMail smtpDownEnv sampleMailDB 2).2.1.pending :=
  ⟨rfl,
    (sendMail_exhausts_retries sampleMail smtpDownEnv sampleMailDB 2
      { sentMail with ID := 2, IsSent := false, SentTS := none } _ rfl rfl rfl rfl
      ⟨fun _ i hi => by interval_cases i <;> rfl, fun i hi => by interval_cases i <;> rfl,
        rfl, rfl, rfl⟩).2.1,
    rfl, rfl, by decide⟩

/-! ## Configuration: one line -/

theorem rdropWhile_append_of_pos {p : Char → Bool} (l : List Char) {r : List Char}
    (hr : ∀ c ∈ r, p c = true) : (l ++ r).rdropWhile p = l.rdropWhile p := by
  induction r using List.reverseRecOn with
  | nil => simp
  | append_singleton r x ih =>
    rw [← List.append_assoc, List.rdropWhile_concat_pos _ _ _ (hr x (by simp))]
    exact ih fun c hc => hr c (by simp [hc])

theorem dropWhile_append_stop {p : Char → Bool} (l : List Char) {x : Char} (r : List Char)
    (hx : p x = false) : (l ++ x :: r).dropWhile p = l.dropWhile p ++ x :: r := by
  induction l with
  | nil => simp [List.dropWhile_cons, hx]
  | cons y ys ih =>
    by_cases hy : p y = true
    · simp only [List.cons_append, List.dropWhile_cons, hy, ↓reduceIte, ih]
    · simp only [List.cons_append, List.dropWhile_cons, hy, Bool.false_eq_true, ↓reduceIte]

theorem mem_trimSpace {s : List Char} {c : Char} (h : c ∈ trimSpace s) : c ∈ s := by
  rw [trimSpace_eq] at h
  exact (List.dropWhile_suffix _).subset (( List.rdropWhile_prefix _ _).subset h)

theorem mem_trimRightComma {s : List Char} {c : Char} (h : c ∈ trimRightComma s) : c ∈ s :=
  ( List.rdropWhile_prefix _ _).subset h

theorem findModuleList_skip {B : List Char} (hB : '[' ∉ B) (r : List Char) :
    findModuleList (B ++ r) = findModuleList r := by
  induction B with
  | nil => rfl
  | cons x xs ih =>
    have hx : x ≠ '[' := fun e => hB (by simp [e])
    have hxs : '[' ∉ xs := fun e => hB (List.mem_cons_of_mem _ e)
    rw [List.cons_append, findModuleList, if_neg hx, ih hxs]

theorem findModuleList_match {ml : List Char} (h1 : ']' ∉ ml) (h2 : '\n' ∉ ml)
    (post : List Char) : findModuleList ('[' :: (ml ++ ']' :: post)) = some ml := by
  have ht : ((ml ++ ']' :: post).takeWhile fun c => c != ']') = ml := by
    rw [List.takeWhile_append_of_pos]
    · simp
    · intro c hc
      have : c ≠ ']' := fun e => h1 (e ▸ hc)
      simpa using this
  simp only [findModuleList, ↓reduceIte, matchModuleList, ht, List.length_append,
    List.length_cons, h2, not_false_eq_true, and_true]
  rw [if_pos (by omega)]

theorem findModuleList_mem {l ml : List Char} (h : findModuleList l = some ml) : '[' ∈ l := by
  induction l with
  | nil => cases h
  | cons x xs ih =>
    by_cases hx : x = '['
    · simp [hx]
    · rw [findModuleList, if_neg hx] at h
      exact List.mem_cons_of_mem _ (ih h)

theorem parseLine_without_list (line : String) (h : findModuleList line.toList = none) :
    ∃ err, parseLine line = .error err := by
  unfold parseLine
  rw [h]
  exact ⟨_, rfl⟩

theorem parseLine_before (line : String) (B rest ml : List Char)
    (hL : line.toList = B ++ '[' :: rest) (hB : '[' ∉ B)
    (hml : findModuleList ('[' :: rest) = some ml) :
    parseLine line =
      if indexRune ',' (trimSpace (trimRightComma (trimSpace B))) = -1 then
        .error "invalid format: expected 'name, connection_string, [modules]'"
      else if String.mk (trimSpace ((trimSpace (trimRightComma (trimSpace B))).take
          (indexRune ',' (trimSpace (trimRightComma (trimSpace B)))).toNat)) = "" then
        .error "database name cannot be empty"
      else if String.mk (trimSpace ((trimSpace (trimRightComma (trimSpace B))).drop
          (indexRune ',' (trimSpace (trimRightComma (trimSpace B))) + 1).toNat)) = "" then
        .error "connection string cannot be empty"
      else if (parseModules ml).length = 0 then .error "no modules specified"
      else
        .ok { Name := String.mk (trimSpace ((trimSpace (trimRightComma (trimSpace B))).take
                (indexRune ',' (trimSpace (trimRightComma (trimSpace B)))).toNat))
              ConnectionString :=
                String.mk (trimSpace ((trimSpace (trimRightComma (trimSpace B))).drop
                  (indexRune ',' (trimSpace (trimRightComma (trimSpace B))) + 1).toNat))
              ActiveModules := parseModules ml } := by
  unfold parseLine
  rw [hL, findModuleList_skip hB, hml]
  simp only [indexRune_append '[' hB]
  have h1 : ¬ ((B.length : Int) = -1) := by omega
  rw [if_neg h1]
  simp only [Int.toNat_ofNat, List.take_left']

theorem parseLine_split (line : String) (B rest ml n c : List Char)
    (hL : line.toList = B ++ '[' :: rest) (hB : '[' ∉ B)
    (hml : findModuleList ('[' :: rest) = some ml)
    (hX : trimSpace (trimRightComma (trimSpace B)) = n ++ ',' :: c) (hn : ',' ∉ n) :
    parseLine line =
      if String.mk (trimSpace n) = "" then .error "database name cannot be empty"
      else if String.mk (trimSpace c) = "" then .error "connection string cannot be empty"
      else if (parseModules ml).length = 0 then .error "no modules specified"
      else
        .ok { Name := String.mk (trimSpace n), ConnectionString := String.mk (trimSpace c),
              ActiveModules := parseModules ml } := by
  rw [parseLine_before line B rest ml hL hB hml, hX, indexRune_append ',' hn]
  have h1 : ¬ ((n.length : Int) = -1) := by omega
  rw [if_neg h1]
  have h2 : ((n.length : Int) + 1).toNat = n.length + 1 := by omega
  simp only [Int.toNat_ofNat, List.take_left', h2]
  have h3 : (n ++ ',' :: c).drop (n.length + 1) = c := by
    rw [show n ++ ',' :: c = (n ++ [',']) ++ c by simp]
    exact List.drop_left' (by simp)
  rw [h3]

theorem parseLine_without_comma (line : String) (B rest : List Char)
    (hL : line.toList = B ++ '[' :: rest) (hB : '[' ∉ B)
    (hX : ',' ∉ trimSpace (trimRightComma (trimSpace B))) :
    ∃ err, parseLine line = .error err := by
  cases hml : findModuleList ('[' :: rest) with
  | none =>
    apply parseLine_without_list
    rw [hL, findModuleList_skip hB, hml]
  | some ml =>
    rw [parseLine_before line B rest ml hL hB hml, indexRune_absent ',' hX]
    exact ⟨_, rfl⟩

theorem mem_split_first {l : List Char} {x : Char} (h : x ∈ l) :
    ∃ a b, l = a ++ x :: b ∧ x ∉ a := by
  induction l with
  | nil => cases h
  | cons y ys ih =>
    by_cases hy : y = x
    · exact ⟨[], ys, by simp [hy], by simp⟩
    · rcases List.mem_cons.mp h with e | e
      · exact absurd e.symm hy
      · obtain ⟨a, b, hab, ha⟩ := ih e
        refine ⟨y :: a, b, by simp [hab], ?_⟩
        intro hm
        rcases List.mem_cons.mp hm with e2 | e2
        · exact hy e2.symm
        · exact ha e2

theorem parseLine_ok {line : String} {dc : DatabaseConfig} (h : parseLine line = .ok dc) :
    ∃ ml n c, dc.Name = String.mk (trimSpace n) ∧ dc.ConnectionString = String.mk (trimSpace c)
      ∧ dc.ActiveModules = parseModules ml ∧ dc.Name ≠ "" ∧ dc.ConnectionString ≠ ""
      ∧ dc.ActiveModules ≠ [] := by
  cases hml : findModuleList line.toList with
  | none =>
    obtain ⟨err, he⟩ := parseLine_without_list line hml
    rw [he] at h
    cases h
  | some ml =>
    obtain ⟨B, rest, hL, hB⟩ := mem_split_first (findModuleList_mem hml)
    have hml2 : findModuleList ('[' :: rest) = some ml := by
      rw [← findModuleList_skip hB, ← hL, hml]
    rw [parseLine_before line B rest ml hL hB hml2] at h
    generalize trimSpace (trimRightComma (trimSpace B)) = X at h
    generalize indexRune ',' X = i at h
    split_ifs at h with h1 h2 h3 h4
    have h5 := Except.ok.inj h
    subst h5
    exact ⟨ml, X.take i.toNat, X.drop (i + 1).toNat, rfl, rfl, rfl, h2, h3, by simpa using h4⟩

theorem findModuleList_mem_close {l ml : List Char} (h : findModuleList l = some ml) :
    ']' ∈ l := by
  induction l with
  | nil => cases h
  | cons x xs ih =>
    rw [findModuleList] at h
    split_ifs at h with hx
    · cases hm : matchModuleList xs with
      | none =>
        rw [hm] at h
        exact List.mem_cons_of_mem _ (ih h)
      | some inner =>
        unfold matchModuleList at hm
        simp only at hm
        split_ifs at hm with hc
        by_contra hcon
        have hall : ∀ c ∈ xs, (c != ']') = true := by
          intro c hc2
          have : c ≠ ']' := fun e => hcon (List.mem_cons_of_mem _ (e ▸ hc2))
          simpa using this
        rw [List.takeWhile_eq_self_iff.mpr hall] at hc
        omega
    · exact List.mem_cons_of_mem _ (ih h)

theorem mem_parseModules {ml : List Char} {a : String} (h : a ∈ parseModules ml) :
    a ≠ "" ∧ Trimmed a.toList := by
  unfold parseModules at h
  obtain ⟨h1, h2⟩ := List.mem_filter.mp h
  obtain ⟨piece, _, rfl⟩ := List.mem_map.mp h1
  exact ⟨by simpa using h2, trimSpace_trimmed piece⟩

theorem parseModules_blank (ml : List Char) (h : ∀ c ∈ ml, c = ',' ∨ isSpaceRune c = true) :
    parseModules ml = [] := by
  unfold parseModules
  rw [List.filter_eq_nil_iff]
  intro a ha
  obtain ⟨piece, hp, rfl⟩ := List.mem_map.mp ha
  have hb : trimSpace piece = [] := by
    apply trimSpace_blank
    intro c hc
    have := mem_splitComma hp c hc
    rcases h c this.1 with e | e
    · exact absurd e this.2
    · exact e
  rw [hb]
  decide

theorem comma_cons_initial {s t : List Char} (h : s <+: ',' :: t) :
    s = [] ∨ ∃ u, s = ',' :: u := by
  cases s with
  | nil => exact Or.inl rfl
  | cons x xs =>
    obtain ⟨r, hr⟩ := h
    simp only [List.cons_append, List.cons.injEq] at hr
    exact Or.inr ⟨xs, by rw [hr.1]⟩

theorem clean_of_blank_name {B P B1 : List Char} (hB : B = P ++ ',' :: B1)
    (hP : ∀ c ∈ P, isSpaceRune c = true) :
    trimSpace (trimRightComma (trimSpace B)) = []
      ∨ ∃ t, trimSpace (trimRightComma (trimSpace B)) = ',' :: t := by
  have h1 : B.dropWhile isSpaceRune = ',' :: B1 := by
    rw [hB, List.dropWhile_append_of_pos hP, List.dropWhile_cons]
    rfl
  have h2 : trimRightComma (trimSpace B) <+: ',' :: B1 := by
    rw [trimSpace_eq, h1]
    exact ( List.rdropWhile_prefix _ _).trans ( List.rdropWhile_prefix _ _)
  rcases comma_cons_initial h2 with e | ⟨u, e⟩
  · left; rw [e]; rfl
  · rw [e, trimSpace_eq]
    have h3 : (',' :: u).dropWhile isSpaceRune = ',' :: u := by
      rw [List.dropWhile_cons]
      rfl
    rw [h3]
    exact comma_cons_initial ( List.rdropWhile_prefix _ _)

theorem parseLine_blank_name (line : String)
    (h : ∀ c ∈ line.toList.takeWhile (fun c => c != ','), isSpaceRune c = true) :
    ∃ err, parseLine line = .error err := by
  cases hml : findModuleList line.toList with
  | none => exact parseLine_without_list line hml
  | some ml =>
    obtain ⟨B, rest, hL, hB⟩ := mem_split_first (findModuleList_mem hml)
    have hml2 : findModuleList ('[' :: rest) = some ml := by
      rw [← findModuleList_skip hB, ← hL, hml]
    by_cases hc : ',' ∈ trimSpace (trimRightComma (trimSpace B))
    · have hcB : ',' ∈ B := mem_trimSpace (mem_trimRightComma (mem_trimSpace hc))
      obtain ⟨P, B1, hB1, hP⟩ := mem_split_first hcB
      have hPb : ∀ c ∈ P, isSpaceRune c = true := by
        have ht : (line.toList.takeWhile fun c => c != ',') = P := by
          rw [hL, hB1, List.append_assoc, List.takeWhile_append_of_pos]
          · simp
          · intro c hc2
            have : c ≠ ',' := fun e => hP (e ▸ hc2)
            simpa using this
        rw [ht] at h
        exact h
      obtain ⟨n, c, hX, hn⟩ := mem_split_first hc
      have hn0 : n = [] := by
        rcases clean_of_blank_name hB1 hPb with e | ⟨t, e⟩
        · rw [e] at hX
          cases n <;> cases hX
        · rw [e] at hX
          cases n with
          | nil => rfl
          | cons y ys =>
            simp only [List.cons_append, List.cons.injEq] at hX
            exact absurd (by rw [← hX.1]; exact List.mem_cons_self _ _) hn
      subst hn0
      rw [parseLine_split line B rest ml [] c hL hB hml2 hX hn]
      exact ⟨_, rfl⟩
    · exact parseLine_without_comma line B rest hL hB hc

theorem parseLine_without_modules (line : String) (pre inner post : List Char)
    (hL : line.toList = pre ++ '[' :: (inner ++ ']' :: post)) (hpre : '[' ∉ pre)
    (hin : ∀ c ∈ inner, c = ',' ∨ (isSpaceRune c = true ∧ c ≠ '\n')) :
    ∃ err, parseLine line = .error err := by
  have h1 : ']' ∉ inner := by
    intro hm
    rcases hin _ hm with e | e
    · exact absurd e (by decide)
    · exact absurd e.1 (by decide)
  have h2 : '\n' ∉ inner := by
    intro hm
    rcases hin _ hm with e | e
    · exact absurd e (by decide)
    · exact e.2 rfl
  have hml := findModuleList_match h1 h2 post
  have hpm : parseModules inner = [] :=
    parseModules_blank inner fun c hc => (hin c hc).imp id fun e => e.1
  by_cases hc : ',' ∈ trimSpace (trimRightComma (trimSpace pre))
  · obtain ⟨n, c, hX, hn⟩ := mem_split_first hc
    rw [parseLine_split line pre _ inner n c hL hpre hml hX hn, hpm]
    split_ifs <;> first | exact ⟨_, rfl⟩ | simp_all
  · exact parseLine_without_comma line pre _ hL hpre hc

theorem pad_space (n : Nat) : ∀ c ∈ pad n, isSpaceRune c = true := by
  intro c hc
  rw [pad, List.mem_replicate] at hc
  rw [hc.2]
  decide

theorem pad_mem {n : Nat} {c : Char} (h : c ∈ pad n) : c = ' ' := by
  rw [pad, List.mem_replicate] at h
  exact h.2

theorem dropWhile_dropWhile (p : Char → Bool) (l : List Char) :
    (l.dropWhile p).dropWhile p = l.dropWhile p := by
  have := List.head?_dropWhile_not p l
  generalize l.dropWhile p = d at this ⊢
  cases d with
  | nil => rfl
  | cons x xs =>
    simp only [List.head?_cons] at this
    simp [List.dropWhile_cons, this]

theorem clean_of_blank_connection (nm : List Char) (hn : ',' ∉ nm) (a b : Nat) :
    ',' ∉ trimSpace (trimRightComma (trimSpace (nm ++ ',' :: (pad a ++ ',' :: pad b))))
      ∨ trimSpace (trimRightComma (trimSpace (nm ++ ',' :: (pad a ++ ',' :: pad b))))
          = nm.dropWhile isSpaceRune ++ [','] := by
  have hc : isSpaceRune ',' = false := by decide
  have h1 : trimSpace (nm ++ ',' :: (pad a ++ ',' :: pad b))
      = (nm.dropWhile isSpaceRune ++ ',' :: pad a) ++ [','] := by
    rw [trimSpace_eq, dropWhile_append_stop nm _ hc]
    have e : nm.dropWhile isSpaceRune ++ ',' :: (pad a ++ ',' :: pad b)
        = ((nm.dropWhile isSpaceRune ++ ',' :: pad a) ++ [',']) ++ pad b := by simp
    rw [e, rdropWhile_append_of_pos _ (pad_space b), List.rdropWhile_concat_neg]
    simp [hc]
  rw [h1]
  unfold trimRightComma
  rw [List.rdropWhile_concat_pos _ _ _ (by decide)]
  cases a with
  | zero =>
    left
    intro hm
    have e : nm.dropWhile isSpaceRune ++ ',' :: pad 0 = nm.dropWhile isSpaceRune ++ [','] := rfl
    rw [e, List.rdropWhile_concat_pos _ _ _ (by decide)] at hm
    exact hn ((List.dropWhile_suffix _).subset (( List.rdropWhile_prefix _ _).subset
      (mem_trimSpace hm)))
  | succ k =>
    right
    have e : nm.dropWhile isSpaceRune ++ ',' :: pad (k + 1)
        = (nm.dropWhile isSpaceRune ++ ',' :: pad k) ++ [' '] := by
      simp [pad, List.replicate_succ']
    rw [e, List.rdropWhile_concat_neg _ _ _ (by decide), ← e, trimSpace_eq,
      dropWhile_append_stop _ _ hc, dropWhile_dropWhile]
    have e2 : nm.dropWhile isSpaceRune ++ ',' :: pad (k + 1)
        = (nm.dropWhile isSpaceRune ++ [',']) ++ pad (k + 1) := by simp
    rw [e2, rdropWhile_append_of_pos _ (pad_space (k + 1)), List.rdropWhile_concat_neg]
    simp [hc]

theorem clean_of_missing_connection (nm : List Char) (hn : ',' ∉ nm) (a : Nat) :
    ',' ∉ trimSpace (trimRightComma (trimSpace (nm ++ ',' :: pad a))) := by
  have hc : isSpaceRune ',' = false := by decide
  have h1 : trimSpace (nm ++ ',' :: pad a) = nm.dropWhile isSpaceRune ++ [','] := by
    rw [trimSpace_eq, dropWhile_append_stop nm _ hc]
    have e : nm.dropWhile isSpaceRune ++ ',' :: pad a
        = (nm.dropWhile isSpaceRune ++ [',']) ++ pad a := by simp
    rw [e, rdropWhile_append_of_pos _ (pad_space a), List.rdropWhile_concat_neg]
    simp [hc]
  rw [h1]
  unfold trimRightComma
  rw [List.rdropWhile_concat_pos _ _ _ (by decide)]
  intro hm
  exact hn ((List.dropWhile_suffix _).subset (( List.rdropWhile_prefix _ _).subset
    (mem_trimSpace hm)))

theorem parseLine_blank_connection (nm : List Char) (hn : ',' ∉ nm) (hb : '[' ∉ nm)
    (a b : Nat) (rest : List Char) :
    (∃ err, parseLine (String.mk (nm ++ ',' :: (pad a ++ ',' :: pad b) ++ '[' :: rest))
        = .error err)
      ∧ ∃ err, parseLine (String.mk (nm ++ ',' :: pad a ++ '[' :: rest)) = .error err := by
  have hpad : ∀ k, '[' ∉ pad k := fun k hm => absurd (pad_mem hm) (by decide)
  constructor
  · have hB : '[' ∉ nm ++ ',' :: (pad a ++ ',' :: pad b) := by
      simp only [List.mem_append, List.mem_cons, not_or]
      exact ⟨hb, by decide, hpad a, by decide, hpad b⟩
    rcases clean_of_blank_connection nm hn a b with h | h
    · exact parseLine_without_comma _ _ rest rfl hB h
    · cases hml : findModuleList ('[' :: rest) with
      | none =>
        apply parseLine_without_list
        show findModuleList (nm ++ ',' :: (pad a ++ ',' :: pad b) ++ '[' :: rest) = none
        rw [findModuleList_skip hB, hml]
      | some ml =>
        have hn2 : ',' ∉ nm.dropWhile isSpaceRune :=
          fun hm => hn ((List.dropWhile_suffix _).subset hm)
        rw [parseLine_split _ _ rest ml _ [] rfl hB hml h hn2]
        split_ifs with h1 h2 <;> first | exact ⟨_, rfl⟩ | exact absurd rfl h2
  · have hB : '[' ∉ nm ++ ',' :: pad a := by
      simp only [List.mem_append, List.mem_cons, not_or]
      exact ⟨hb, by decide, hpad a⟩
    exact parseLine_without_comma _ _ rest rfl hB (clean_of_missing_connection nm hn a)

theorem parseLine_comma_before_list (line : String)
    (h : ',' ∉ line.toList.takeWhile fun c => c != '[') : ∃ err, parseLine line = .error err := by
  by_cases hb : '[' ∈ line.toList
  · obtain ⟨B, rest, hL, hB⟩ := mem_split_first hb
    have ht : (line.toList.takeWhile fun c => c != '[') = B := by
      rw [hL, List.takeWhile_append_of_pos]
      · simp
      · intro c hc
        have : c ≠ '[' := fun e => hB (e ▸ hc)
        simpa using this
    rw [ht] at h
    exact parseLine_without_comma line B rest hL hB
      fun hm => h (mem_trimSpace (mem_trimRightComma (mem_trimSpace hm)))
  · apply parseLine_without_list
    cases hml : findModuleList line.toList with
    | none => rfl
    | some ml => exact absurd (findModuleList_mem hml) hb

/-- C23: `parseLine` returns an error for a line without a bracketed module
list, without a comma before the `[`, with nothing but white space before
its first comma (no name), with nothing but spaces between the name and the
separator before the `[` (no connection string), or with nothing but
commas and white space between the brackets (no module); and every
`DatabaseConfig` it returns has a non-empty name, a non-empty connection
string and at least one module, each module non-empty with no white space
at either end, and passes `DatabaseConfig.Validate`. -/
theorem parseLine_rejects_malformed :
    (∀ (line : String) (dc : DatabaseConfig), parseLine line = .ok dc →
        dc.Name ≠ "" ∧ dc.ConnectionString ≠ "" ∧ dc.ActiveModules ≠ []
          ∧ (∀ a ∈ dc.ActiveModules, a ≠ "" ∧ Trimmed a.toList) ∧ dc.Validate = none)
      ∧ (∀ line : String, '[' ∉ line.toList ∨ ']' ∉ line.toList →
          ∃ err, parseLine line = .error err)
      ∧ (∀ line : String, ',' ∉ (line.toList.takeWhile fun c => c != '[') →
          ∃ err, parseLine line = .error err)
      ∧ (∀ line : String,
          (∀ c ∈ line.toList.takeWhile (fun c => c != ','), isSpaceRune c = true) →
          ∃ err, parseLine line = .error err)
      ∧ (∀ (name rest : String) (a b : Nat), ',' ∉ name.toList → '[' ∉ name.toList →
          (∃ err, parseLine (String.mk
              (name.toList ++ ',' :: (pad a ++ ',' :: pad b) ++ '[' :: rest.toList)) = .error err)
            ∧ ∃ err, parseLine (String.mk (name.toList ++ ',' :: pad a ++ '[' :: rest.toList))
                = .error err)
      ∧ ∀ pre inner post : String, '[' ∉ pre.toList →
          (∀ c ∈ inner.toList, c = ',' ∨ (isSpaceRune c = true ∧ c ≠ '\n')) →
          ∃ err, parseLine (String.mk (pre.toList ++ '[' :: (inner.toList ++ ']' :: post.toList)))
            = .error err := by
  refine ⟨?_, ?_, parseLine_comma_before_list, parseLine_blank_name, ?_, ?_⟩
  · intro line dc h
    obtain ⟨ml, n, c, _, _, h3, h4, h5, h6⟩ := parseLine_ok h
    refine ⟨h4, h5, h6, ?_, (DatabaseConfig_Validate_none dc).mpr ⟨h4, h5, h6⟩⟩
    intro a ha
    rw [h3] at ha
    exact mem_parseModules ha
  · intro line h
    apply parseLine_without_list
    cases hml : findModuleList line.toList with
    | none => rfl
    | some ml =>
      rcases h with h | h
      · exact absurd (findModuleList_mem hml) h
      · exact absurd (findModuleList_mem_close hml) h
  · intro name rest a b hn hb
    exact parseLine_blank_connection name.toList hn hb a b rest.toList
  · intro pre inner post hp hi
    exact parseLine_without_modules _ pre.toList inner.toList post.toList rfl hp hi

/-! ## Configuration: the file -/

theorem trimSpace_eq_nil_iff (t : List Char) :
    trimSpace t = [] ↔ ∀ c ∈ t, isSpaceRune c = true := by
  constructor
  · intro h
    rw [trimSpace_eq, List.rdropWhile_eq_nil_iff] at h
    have hd := List.head?_dropWhile_not isSpaceRune t
    cases hx : t.dropWhile isSpaceRune with
    | nil => exact List.dropWhile_eq_nil_iff.mp hx
    | cons x xs =>
      rw [hx] at hd h
      simp only [List.head?_cons] at hd
      have := h x (List.mem_cons_self _ _)
      rw [hd] at this
      cases this
  · exact trimSpace_blank

theorem trimSpace_head_hash (t : List Char) :
    (trimSpace t).head? = some '#' ↔ (t.dropWhile isSpaceRune).head? = some '#' := by
  rw [trimSpace_eq]
  generalize t.dropWhile isSpaceRune = d
  cases d with
  | nil => simp [List.rdropWhile]
  | cons x xs =>
    obtain ⟨r, hr⟩ := List.rdropWhile_prefix isSpaceRune (x :: xs)
    cases hy : (x :: xs).rdropWhile isSpaceRune with
    | nil =>
      have hall := List.rdropWhile_eq_nil_iff.mp hy
      have hx := hall x (List.mem_cons_self _ _)
      simp only [List.head?_nil, List.head?_cons, Option.some.injEq]
      constructor
      · intro h; cases h
      · rintro rfl
        exact absurd hx (by decide)
    | cons y ys =>
      rw [hy] at hr
      simp only [List.cons_append, List.cons.injEq] at hr
      simp [hr.1]

theorem skipsLine_trimmed (text : String) :
    skipsLine (String.mk (trimSpace text.toList)) = true ↔
      (∀ c ∈ text.toList, isSpaceRune c = true)
        ∨ (text.toList.dropWhile isSpaceRune).head? = some '#' := by
  unfold skipsLine
  rw [Bool.or_eq_true, ← trimSpace_eq_nil_iff, ← trimSpace_head_hash]
  constructor
  · rintro (h | h)
    · left
      have := congrArg String.toList (beq_iff_eq.mp h)
      exact this
    · right
      exact beq_iff_eq.mp h
  · rintro (h | h)
    · left
      rw [h]
      rfl
    · right
      exact beq_iff_eq.mpr h

theorem remainingLines_cons (text : String) (rest : List String) :
    remainingLines (text :: rest)
      = if skipsLine (String.mk (trimSpace text.toList)) = true then remainingLines rest
        else String.mk (trimSpace text.toList) :: remainingLines rest := by
  unfold remainingLines
  rw [List.map_cons, List.filter_cons]
  cases skipsLine (String.mk (trimSpace text.toList)) <;> rfl

theorem scanConfig_ok (lines : List String) :
    ∀ (k : Nat) (dbs : List DatabaseConfig),
      (∀ l ∈ remainingLines lines, ∃ dc, parseLine l = .ok dc) →
      scanConfig k dbs lines
        = .ok (dbs ++ (remainingLines lines).filterMap fun l => (parseLine l).toOption) := by
  induction lines with
  | nil => intro k dbs _; simp [scanConfig, remainingLines]
  | cons text rest ih =>
    intro k dbs h
    rw [remainingLines_cons] at h ⊢
    rw [scanConfig]
    by_cases hs : skipsLine (String.mk (trimSpace text.toList)) = true
    · rw [if_pos hs] at h ⊢
      simp only [hs, ↓reduceIte]
      exact ih _ _ h
    · rw [if_neg hs] at h ⊢
      simp only [hs, Bool.false_eq_true, ↓reduceIte]
      obtain ⟨dc, hdc⟩ := h _ (List.mem_cons_self _ _)
      rw [hdc]
      simp only
      rw [ih _ _ fun l hl => h l (List.mem_cons_of_mem _ hl), List.filterMap_cons, hdc]
      simp [Except.toOption]

theorem scanConfig_error (pre : List String) (bad : String) (post : List String) (err : String)
    (hs : skipsLine (String.mk (trimSpace bad.toList)) = false)
    (hp : parseLine (String.mk (trimSpace bad.toList)) = .error err) :
    ∀ (k : Nat) (dbs : List DatabaseConfig),
      (∀ l ∈ remainingLines pre, ∃ dc, parseLine l = .ok dc) →
      scanConfig k dbs (pre ++ bad :: post)
        = .error { Line := k + pre.length + 1, Content := String.mk (trimSpace bad.toList),
                   Err := err } := by
  induction pre with
  | nil =>
    intro k dbs _
    simp only [List.nil_append, scanConfig, hs, Bool.false_eq_true, ↓reduceIte, hp,
      List.length_nil, Nat.add_zero]
  | cons text rest ih =>
    intro k dbs h
    rw [remainingLines_cons] at h
    rw [List.cons_append, scanConfig]
    have hk : k + 1 + rest.length + 1 = k + (text :: rest).length + 1 := by
      simp only [List.length_cons]; omega
    by_cases hsk : skipsLine (String.mk (trimSpace text.toList)) = true
    · rw [if_pos hsk] at h
      simp only [hsk, ↓reduceIte]
      rw [ih _ _ h, hk]
    · rw [if_neg hsk] at h
      simp only [hsk, Bool.false_eq_true, ↓reduceIte]
      obtain ⟨dc, hdc⟩ := h _ (List.mem_cons_self _ _)
      rw [hdc]
      simp only
      rw [ih _ _ fun l hl => h l (List.mem_cons_of_mem _ hl), hk]

/-- C24 as stated fails: both lines of the sample file parse, yet
`LoadConfig` returns no databases but the error of `Config.Validate`, the
two lines naming the same database. -/
theorem LoadConfig_rejects_parsed_lines :
    ((remainingLines duplicateNamesFile.lines).map fun l => (parseLine l).toOption)
        = [some { Name := "db1", ConnectionString := "postgres://h/db1",
                  ActiveModules := ["pgb_mail"] },
            some { Name := "db1", ConnectionString := "postgres://h/db2",
                   ActiveModules := ["pgb_notify"] }]
      ∧ (LoadConfig duplicateNamesFile "pgbridge.conf" none).1
          = .error (.other "configuration validation failed: duplicate database name: 'db1'") := by
  exact ⟨rfl, rfl⟩

/-- C24 as amended: `LoadConfig` skips a line exactly when it is blank or
its first non-space character is `#`; when some line it does not skip fails
to parse, it returns for the first such line a `ParseError` with the
1-based position of the line in the file (skipped lines counted) and the
trimmed line; when every such line parses, the scanner reports no error
and the databases pass `Config.Validate`, it returns the databases of
those lines in file order. -/
theorem LoadConfig_lines (file : ConfigFile) (filepath : String) (log : Option LoggerRef)
    (hopen : file.openErr = none) :
    (∀ text : String,
        skipsLine (String.mk (trimSpace text.toList)) = true ↔
          (∀ c ∈ text.toList, isSpaceRune c = true)
            ∨ (text.toList.dropWhile isSpaceRune).head? = some '#')
      ∧ (∀ (pre : List String) (bad : String) (post : List String) (err : String),
          file.lines = pre ++ bad :: post →
          (∀ l ∈ remainingLines pre, ∃ dc, parseLine l = .ok dc) →
          skipsLine (String.mk (trimSpace bad.toList)) = false →
          parseLine (String.mk (trimSpace bad.toList)) = .error err →
          (LoadConfig file filepath log).1
            = .error (.parse { Line := pre.length + 1,
                               Content := String.mk (trimSpace bad.toList), Err := err }))
      ∧ ((∀ l ∈ remainingLines file.lines, ∃ dc, parseLine l = .ok dc) →
          file.scanErr = none →
          Config.Validate
              { Databases := (remainingLines file.lines).filterMap
                  fun l => (parseLine l).toOption } = none →
          (LoadConfig file filepath log).1
            = .ok { Databases := (remainingLines file.lines).filterMap
                      fun l => (parseLine l).toOption }) := by
  refine ⟨skipsLine_trimmed, ?_, ?_⟩
  · intro pre bad post err hl hpre hs hp
    unfold LoadConfig
    rw [hopen, hl, scanConfig_error pre bad post err hs hp 0 [] hpre]
    simp
  · intro hall hscan hval
    unfold LoadConfig
    rw [hopen, scanConfig_ok file.lines 0 [] hall, hscan]
    simp only [List.nil_append, hval]

/-- Witness for C24: line 5 of the sample file is the first that does not
parse; lines 1, 3 and 4 are skipped and line 2 parses. -/
theorem LoadConfig_lines_witness :
    (LoadConfig brokenLineFile "pgbridge.conf" none).1
      = .error (.parse
          { Line := 5, Content := "invalid line without proper format",
            Err := "invalid format: module list not found or malformed (expected [module1, module2, ...])" }) := by
  refine (LoadConfig_lines brokenLineFile "pgbridge.conf" none rfl).2.1
    ["# Comment line 1", "db1, postgres://h/db1, [pgb_mail]", "", "  # Comment line 4"]
    "  invalid line without proper format " ["db2, postgres://h/db2, [pgb_notify]"] _ rfl ?_ rfl
    rfl
  intro l hl
  have e : remainingLines
      ["# Comment line 1", "db1, postgres://h/db1, [pgb_mail]", "", "  # Comment line 4"]
      = ["db1, postgres://h/db1, [pgb_mail]"] := rfl
  rw [e, List.mem_singleton] at hl
  subst hl
  exact ⟨_, rfl⟩

/-! ## Configuration: round trip of a line -/

theorem splitComma_eq_splitRune (s : List Char) : splitComma s = splitRune ',' s := by
  induction s with
  | nil => rfl
  | cons x xs ih =>
    simp only [splitComma, splitRune, ih]

theorem mem_joinComma {ps : List (List Char)} {c : Char} (h : c ∈ joinComma ps) :
    c = ',' ∨ ∃ p ∈ ps, c ∈ p := by
  induction ps with
  | nil => cases h
  | cons p rest ih =>
    cases rest with
    | nil => exact Or.inr ⟨p, List.mem_cons_self _ _, h⟩
    | cons q rest2 =>
      rw [joinComma, List.mem_append, List.mem_cons] at h
      rcases h with h | h | h
      · exact Or.inr ⟨p, List.mem_cons_self _ _, h⟩
      · exact Or.inl h
      · rcases ih h with e | ⟨p2, hp2, hc⟩
        · exact Or.inl e
        · exact Or.inr ⟨p2, List.mem_cons_of_mem _ hp2, hc⟩

theorem splitComma_joinComma {ps : List (List Char)} (hne : ps ≠ [])
    (hp : ∀ p ∈ ps, ',' ∉ p) : splitComma (joinComma ps) = ps := by
  rw [splitComma_eq_splitRune]
  induction ps with
  | nil => exact absurd rfl hne
  | cons p rest ih =>
    cases rest with
    | nil => exact splitRune_whole ',' (hp p (List.mem_cons_self _ _))
    | cons q rest2 =>
      rw [joinComma, splitRune_append ',' (hp p (List.mem_cons_self _ _)),
        ih (by simp) fun p2 h2 => hp p2 (List.mem_cons_of_mem _ h2)]

theorem string_toList_ne_nil {s : String} (h : s ≠ "") : s.toList ≠ [] := by
  intro e
  exact h (String.ext e)

theorem parseModules_moduleListText (items : List (Nat × String × Nat)) (hne : items ≠ [])
    (hm : ∀ item ∈ items,
      item.2.1 ≠ "" ∧ Trimmed item.2.1.toList ∧ ',' ∉ item.2.1.toList) :
    parseModules (moduleListText items) = items.map fun item => item.2.1 := by
  unfold parseModules moduleListText
  rw [splitComma_joinComma (by simpa using hne)]
  · rw [List.map_map]
    have hmap : (items.map
          ((fun part => String.mk (trimSpace part)) ∘
            fun item : Nat × String × Nat => pad item.1 ++ item.2.1.toList ++ pad item.2.2))
        = items.map fun item => item.2.1 := by
      apply List.map_congr_left
      intro item hi
      obtain ⟨h1, h2, _⟩ := hm item hi
      simp only [Function.comp_apply]
      rw [trimSpace_padded h2 (string_toList_ne_nil h1) (pad_space _) (pad_space _)]
      rfl
    rw [hmap, List.filter_eq_self]
    intro a ha
    obtain ⟨item, hi, rfl⟩ := List.mem_map.mp ha
    simpa using (hm item hi).1
  · intro p hp hc
    obtain ⟨item, hi, rfl⟩ := List.mem_map.mp hp
    simp only [List.mem_append] at hc
    rcases hc with (hc | hc) | hc
    · exact absurd (pad_mem hc) (by decide)
    · exact (hm item hi).2.2 hc
    · exact absurd (pad_mem hc) (by decide)

theorem trimmed_between {u v : List Char} (mid : List Char) (hu : u ≠ []) (hv : v ≠ [])
    (hu1 : ∀ c, u.head? = some c → isSpaceRune c = false)
    (hv1 : ∀ c, v.getLast? = some c → isSpaceRune c = false) : Trimmed (u ++ mid ++ v) := by
  constructor
  · intro c hc
    rw [List.append_assoc, List.head?_append_of_ne_nil _ hu] at hc
    exact hu1 c hc
  · intro c hc
    rw [List.getLast?_append_of_ne_nil _ hv] at hc
    exact hv1 c hc

theorem clean_of_line (name conn : List Char) (a b c d e : Nat) (hn : name ≠ [])
    (hnt : Trimmed name) (hc : conn ≠ []) (hct : Trimmed conn)
    (hlast : conn.getLast? ≠ some ',') :
    trimSpace (trimRightComma (trimSpace
        (pad a ++ name ++ pad b ++ [','] ++ pad c ++ conn ++ pad d ++ [','] ++ pad e)))
      = (name ++ pad b) ++ ',' :: (pad c ++ conn) := by
  have hcore : Trimmed (name ++ (pad b ++ [','] ++ pad c) ++ conn) :=
    trimmed_between _ hn hc hnt.1 hct.2
  have hcore2 : Trimmed (name ++ (pad b ++ [','] ++ pad c ++ conn ++ pad d) ++ [',']) :=
    trimmed_between _ hn (by simp) hnt.1 (by
      intro x hx
      simp only [List.getLast?_singleton, Option.some.injEq] at hx
      subst hx
      decide)
  have e1 : pad a ++ name ++ pad b ++ [','] ++ pad c ++ conn ++ pad d ++ [','] ++ pad e
      = pad a ++ (name ++ (pad b ++ [','] ++ pad c ++ conn ++ pad d) ++ [',']) ++ pad e := by
    simp [List.append_assoc]
  rw [e1, trimSpace_padded hcore2 (by simp) (pad_space a) (pad_space e)]
  unfold trimRightComma
  rw [List.rdropWhile_concat_pos _ _ _ (by decide)]
  have e2 : name ++ (pad b ++ [','] ++ pad c ++ conn ++ pad d)
      = [] ++ (name ++ (pad b ++ [','] ++ pad c) ++ conn) ++ pad d := by
    simp [List.append_assoc]
  have hkeep : (name ++ (pad b ++ [','] ++ pad c ++ conn ++ pad d)).rdropWhile (fun ch => ch == ',')
      = name ++ (pad b ++ [','] ++ pad c ++ conn ++ pad d) := by
    rw [List.rdropWhile_eq_self_iff]
    intro hne
    have hl : (name ++ (pad b ++ [','] ++ pad c ++ conn ++ pad d)).getLast?
        ≠ some ',' := by
      cases d with
      | zero =>
        have : name ++ (pad b ++ [','] ++ pad c ++ conn ++ pad 0)
            = (name ++ (pad b ++ [','] ++ pad c)) ++ conn := by simp [pad, List.append_assoc]
        rw [this, List.getLast?_append_of_ne_nil _ hc]
        exact hlast
      | succ k =>
        have : name ++ (pad b ++ [','] ++ pad c ++ conn ++ pad (k + 1))
            = (name ++ (pad b ++ [','] ++ pad c ++ conn ++ pad k)) ++ [' '] := by
          simp [pad, List.replicate_succ', List.append_assoc]
        rw [this, List.getLast?_concat]
        decide
    rw [List.getLast?_eq_getLast _ hne] at hl
    simpa using hl
  rw [hkeep, e2, trimSpace_padded hcore (by simp [hn]) (by simp) (pad_space d)]
  simp [List.append_assoc]

/-- The round trip of a line whose modules hold no newline, which the `.`
of the regular expression would not match. -/
theorem parseLine_of_configLine (name connStr : String) (items : List (Nat × String × Nat))
    (a b c d e f : Nat)
    (hname : name ≠ "" ∧ Trimmed name.toList ∧ ',' ∉ name.toList ∧ '[' ∉ name.toList)
    (hconn : connStr ≠ "" ∧ Trimmed connStr.toList ∧ '[' ∉ connStr.toList
      ∧ connStr.toList.getLast? ≠ some ',')
    (hitems : items ≠ [])
    (hmod : ∀ item ∈ items,
      item.2.1 ≠ "" ∧ Trimmed item.2.1.toList ∧ ',' ∉ item.2.1.toList ∧ ']' ∉ item.2.1.toList
        ∧ '\n' ∉ item.2.1.toList) :
    parseLine (configLine name connStr items a b c d e f)
      = .ok { Name := name, ConnectionString := connStr,
              ActiveModules := items.map fun item => item.2.1 } := by
  obtain ⟨hn1, hn2, hn3, hn4⟩ := hname
  obtain ⟨hc1, hc2, hc3, hc4⟩ := hconn
  have hpadb : ∀ k, '[' ∉ pad k := fun k hm => absurd (pad_mem hm) (by decide)
  have hpadc : ∀ k, ',' ∉ pad k := fun k hm => absurd (pad_mem hm) (by decide)
  have hL : (configLine name connStr items a b c d e f).toList
      = (pad a ++ name.toList ++ pad b ++ [','] ++ pad c ++ connStr.toList ++ pad d ++ [',']
          ++ pad e) ++ '[' :: (moduleListText items ++ ']' :: pad f) := by
    simp [configLine, String.toList, List.append_assoc]
  have hB : '[' ∉ pad a ++ name.toList ++ pad b ++ [','] ++ pad c ++ connStr.toList ++ pad d
      ++ [','] ++ pad e := by
    simp only [List.mem_append, List.mem_singleton, not_or]
    exact ⟨⟨⟨⟨⟨⟨⟨⟨hpadb a, hn4⟩, hpadb b⟩, by decide⟩, hpadb c⟩, hc3⟩, hpadb d⟩, by decide⟩,
      hpadb e⟩
  have hin : ∀ ch ∈ moduleListText items,
      ch = ',' ∨ ch = ' ' ∨ ∃ item ∈ items, ch ∈ item.2.1.toList := by
    intro ch hch
    rcases mem_joinComma hch with h | ⟨p, hp, hcp⟩
    · exact Or.inl h
    · obtain ⟨item, hi, rfl⟩ := List.mem_map.mp hp
      simp only [List.mem_append] at hcp
      rcases hcp with (h | h) | h
      · exact Or.inr (Or.inl (pad_mem h))
      · exact Or.inr (Or.inr ⟨item, hi, h⟩)
      · exact Or.inr (Or.inl (pad_mem h))
  have h1 : ']' ∉ moduleListText items := by
    intro hm
    rcases hin _ hm with h | h | ⟨item, hi, h⟩
    · exact absurd h (by decide)
    · exact absurd h (by decide)
    · exact (hmod item hi).2.2.2.1 h
  have h2 : '\n' ∉ moduleListText items := by
    intro hm
    rcases hin _ hm with h | h | ⟨item, hi, h⟩
    · exact absurd h (by decide)
    · exact absurd h (by decide)
    · exact (hmod item hi).2.2.2.2 h
  have hnc : ',' ∉ name.toList ++ pad b := by
    simp only [List.mem_append, not_or]
    exact ⟨hn3, hpadc b⟩
  rw [parseLine_split _ _ _ _ _ _ hL hB (findModuleList_match h1 h2 (pad f))
      (clean_of_line name.toList connStr.toList a b c d e (string_toList_ne_nil hn1) hn2
        (string_toList_ne_nil hc1) hc2 hc4) hnc,
    parseModules_moduleListText items hitems fun item hi =>
      ⟨(hmod item hi).1, (hmod item hi).2.1, (hmod item hi).2.2.1⟩]
  have e1 : trimSpace (name.toList ++ pad b) = name.toList := by
    have := trimSpace_padded (l := []) hn2 (string_toList_ne_nil hn1) (by simp) (pad_space b)
    simpa using this
  have e2 : trimSpace (pad c ++ connStr.toList) = connStr.toList := by
    have := trimSpace_padded (r := []) hc2 (string_toList_ne_nil hc1) (pad_space c) (by simp)
    simpa using this
  rw [e1, e2]
  have e3 : String.mk name.toList = name := rfl
  have e4 : String.mk connStr.toList = connStr := rfl
  rw [e3, e4, if_neg hn1, if_neg hc1, if_neg (by simpa using hitems)]

theorem trimmed_of_ends (s : List Char)
    (h : (s.head?.map isSpaceRune).getD false = false
      ∧ (s.getLast?.map isSpaceRune).getD false = false) : Trimmed s := by
  constructor
  · intro c hc
    have := h.1
    rw [hc] at this
    exact this
  · intro c hc
    have := h.2
    rw [hc] at this
    exact this

theorem joinComma_mem {ps : List (List Char)} {p : List Char} {c : Char} (hp : p ∈ ps)
    (hc : c ∈ p) : c ∈ joinComma ps := by
  induction ps with
  | nil => cases hp
  | cons q rest ih =>
    cases rest with
    | nil =>
      simp only [List.mem_singleton] at hp
      subst hp
      exact hc
    | cons q2 rest2 =>
      rw [joinComma, List.mem_append, List.mem_cons]
      rcases List.mem_cons.mp hp with h | h
      · subst h
        exact Or.inl hc
      · exact Or.inr (Or.inr (ih h))

theorem configLine_mem_module {name connStr : String} {items : List (Nat × String × Nat)}
    {a b c d e f : Nat} {item : Nat × String × Nat} {ch : Char} (hi : item ∈ items)
    (hc : ch ∈ item.2.1.toList) : ch ∈ (configLine name connStr items a b c d e f).toList := by
  have h1 : ch ∈ moduleListText items := by
    unfold moduleListText
    exact joinComma_mem (List.mem_map.mpr ⟨item, hi, rfl⟩)
      (List.mem_append_left _ (List.mem_append_right _ hc))
  simp [configLine, String.toList, h1]

/-- C22: for a name, a connection string and a non-empty list of modules,
each non-empty with no white space at either end, where the name has no
comma and no `[`, the connection string has no `[` and does not end with a
comma, and no module has a comma or a `]`, `parseLine` applied to the
configuration line `name,connStr,[modules]`, with any number of spaces
around the separators, around each module and at both ends, returns exactly
that name, that connection string (the commas inside it kept) and those
modules in the same order.  A configuration line is a line the scanner of
`LoadConfig` yields, so it holds no newline. -/
theorem parseLine_round_trip (name connStr : String) (items : List (Nat × String × Nat))
    (a b c d e f : Nat)
    (hname : name ≠ "" ∧ Trimmed name.toList ∧ ',' ∉ name.toList ∧ '[' ∉ name.toList)
    (hconn : connStr ≠ "" ∧ Trimmed connStr.toList ∧ '[' ∉ connStr.toList
      ∧ connStr.toList.getLast? ≠ some ',')
    (hitems : items ≠ [])
    (hmod : ∀ item ∈ items,
      item.2.1 ≠ "" ∧ Trimmed item.2.1.toList ∧ ',' ∉ item.2.1.toList ∧ ']' ∉ item.2.1.toList)
    (hline : ScannerLine (configLine name connStr items a b c d e f)) :
    parseLine (configLine name connStr items a b c d e f)
      = .ok { Name := name, ConnectionString := connStr,
              ActiveModules := items.map fun item => item.2.1 } := by
  apply parseLine_of_configLine name connStr items a b c d e f hname hconn hitems
  intro item hi
  obtain ⟨h1, h2, h3, h4⟩ := hmod item hi
  refine ⟨h1, h2, h3, h4, ?_⟩
  intro hn
  exact hline (configLine_mem_module hi hn)


/-- Witness for C22: a line with spaces everywhere and commas inside the
connection string. -/
theorem parseLine_round_trip_witness :
    configLine "db1" "host=h,port=5432 dbname=x" [(1, "pgb_mail", 0), (2, "pgb_notify", 1)]
        1 0 2 1 1 3
        = " db1,  host=h,port=5432 dbname=x , [ pgb_mail,  pgb_notify ]   "
      ∧ parseLine " db1,  host=h,port=5432 dbname=x , [ pgb_mail,  pgb_notify ]   "
          = .ok { Name := "db1", ConnectionString := "host=h,port=5432 dbname=x",
                  ActiveModules := ["pgb_mail", "pgb_notify"] } :=
  ⟨by decide,
    parseLine_round_trip "db1" "host=h,port=5432 dbname=x"
      [(1, "pgb_mail", 0), (2, "pgb_notify", 1)] 1 0 2 1 1 3
      ⟨by decide, trimmed_of_ends _ (by decide), by decide, by decide⟩
      ⟨by decide, trimmed_of_ends _ (by decide), by decide, by decide⟩ (by decide)
      (by
        intro item hi
        simp only [List.mem_cons, List.mem_singleton, List.not_mem_nil, or_false] at hi
        rcases hi with rfl | rfl <;>
          exact ⟨by decide, trimmed_of_ends _ (by decide), by decide, by decide⟩)
      (by decide)⟩

/-! ## Mail: the recipients -/

theorem trimSpace_around {l s r : List Char} (hs : Trimmed s)
    (hl : ∀ c ∈ l, isSpaceRune c = true) (hr : ∀ c ∈ r, isSpaceRune c = true) :
    trimSpace (l ++ s ++ r) = s := by
  by_cases hne : s = []
  · subst hne
    apply trimSpace_blank
    intro c hc
    simp only [List.append_nil, List.mem_append] at hc
    rcases hc with h | h
    · exact hl c h
    · exact hr c h
  · exact trimSpace_padded hs hne hl hr

theorem parseEmailList_joined (items : List (List Char × List Char × List Char))
    (h : ∀ item ∈ items, (∀ c ∈ item.1, isSpaceRune c = true) ∧ Trimmed item.2.1
      ∧ ',' ∉ item.2.1 ∧ ∀ c ∈ item.2.2, isSpaceRune c = true) :
    MailModule.parseEmailList
        (String.mk (joinComma (items.map fun item => item.1 ++ item.2.1 ++ item.2.2)))
      = (items.map fun item => String.mk item.2.1).filter fun a => a != "" := by
  unfold MailModule.parseEmailList
  have e0 : ∀ x : List Char, (String.mk x).toList = x := fun _ => rfl
  rw [e0]
  by_cases hne : items = []
  · subst hne
    decide
  · rw [splitComma_joinComma (by simpa using hne)]
    · rw [List.map_map]
      congr 1
      apply List.map_congr_left
      intro item hi
      obtain ⟨h1, h2, _, h4⟩ := h item hi
      simp only [Function.comp_apply]
      rw [trimSpace_around h2 h1 h4]
    · intro p hp hc
      obtain ⟨item, hi, rfl⟩ := List.mem_map.mp hp
      obtain ⟨h1, _, h3, h4⟩ := h item hi
      simp only [List.mem_append] at hc
      rcases hc with (hc | hc) | hc
      · exact absurd (h1 _ hc) (by decide)
      · exact h3 hc
      · exact absurd (h4 _ hc) (by decide)

theorem joinComma_splitComma (s : List Char) : joinComma (splitComma s) = s := by
  induction s with
  | nil => rfl
  | cons c cs ih =>
    rw [splitComma]
    cases hsp : splitComma cs with
    | nil => exact absurd hsp (splitComma_ne_nil cs)
    | cons q rest =>
      rw [hsp] at ih
      by_cases hc : c = ','
      · rw [if_pos hc, joinComma, ih, hc]
        rfl
      · rw [if_neg hc]
        cases rest with
        | nil =>
          simp only [joinComma] at ih ⊢
          rw [ih]
        | cons q2 rest2 =>
          simp only [joinComma] at ih ⊢
          rw [← ih]
          rfl

theorem rdropWhile_rest (p : Char → Bool) (q : List Char) :
    ∃ r, q = q.rdropWhile p ++ r ∧ ∀ c ∈ r, p c = true := by
  induction q using List.reverseRecOn with
  | nil => exact ⟨[], by simp, by simp⟩
  | append_singleton q x ih =>
    by_cases hx : p x = true
    · obtain ⟨r, h1, h2⟩ := ih
      refine ⟨r ++ [x], ?_, ?_⟩
      · rw [List.rdropWhile_concat_pos _ _ _ hx, ← List.append_assoc, ← h1]
      · intro c hc
        rcases List.mem_append.mp hc with h | h
        · exact h2 c h
        · simp only [List.mem_singleton] at h
          subst h
          exact hx
    · exact ⟨[], by rw [List.rdropWhile_concat_neg _ _ _ hx, List.append_nil], by simp⟩

theorem trimSpace_parts (piece : List Char) :
    ∃ l r, piece = l ++ trimSpace piece ++ r ∧ (∀ c ∈ l, isSpaceRune c = true)
      ∧ ∀ c ∈ r, isSpaceRune c = true := by
  obtain ⟨r, h1, h2⟩ := rdropWhile_rest isSpaceRune (piece.dropWhile isSpaceRune)
  refine ⟨piece.takeWhile isSpaceRune, r, ?_, fun c hc => (List.mem_takeWhile_imp hc), h2⟩
  rw [trimSpace_eq, List.append_assoc, ← h1, List.takeWhile_append_dropWhile]

theorem parseEmailList_items (pieces : List (List Char)) (hp : ∀ p ∈ pieces, ',' ∉ p) :
    ∃ items : List (List Char × List Char × List Char),
      pieces = items.map (fun item => item.1 ++ item.2.1 ++ item.2.2)
        ∧ ∀ item ∈ items, (∀ c ∈ item.1, isSpaceRune c = true) ∧ Trimmed item.2.1
          ∧ ',' ∉ item.2.1 ∧ ∀ c ∈ item.2.2, isSpaceRune c = true := by
  induction pieces with
  | nil => exact ⟨[], rfl, by simp⟩
  | cons p rest ih =>
    obtain ⟨items, h1, h2⟩ := ih fun q hq => hp q (List.mem_cons_of_mem _ hq)
    obtain ⟨l, r, e, hl, hr⟩ := trimSpace_parts p
    refine ⟨(l, trimSpace p, r) :: items, ?_, ?_⟩
    · rw [List.map_cons, ← h1, ← e]
    · intro item hi
      rcases List.mem_cons.mp hi with h | h
      · subst h
        exact ⟨hl, trimSpace_trimmed p,
          fun hc => hp p (List.mem_cons_self _ _) (mem_trimSpace hc), hr⟩
      · exact h2 item h

/-- C27: `collectRecipients` is the parsed To list, then the parsed Cc list,
then the parsed Bcc list.  `parseEmailList` splits at commas, trims every
piece and drops the empty ones, keeping the order: for a header made of
pieces joined by commas, each piece an address (possibly empty) without
comma and without white space at its ends, with white space around it, the
result is the non-empty addresses in the order of the header; and every
header is of that form.  No address returned is empty or has white space at
either end, and the empty string and a string of commas and spaces only
give the empty list. -/
theorem collectRecipients_parsed (mail : MailMessage) :
    MailModule.collectRecipients mail
        = MailModule.parseEmailList mail.HeaderTo ++ MailModule.parseEmailList mail.HeaderCC
          ++ MailModule.parseEmailList mail.HeaderBCC
      ∧ (∀ items : List (List Char × List Char × List Char),
          (∀ item ∈ items, (∀ c ∈ item.1, isSpaceRune c = true) ∧ Trimmed item.2.1
            ∧ ',' ∉ item.2.1 ∧ ∀ c ∈ item.2.2, isSpaceRune c = true) →
          MailModule.parseEmailList
              (String.mk (joinComma (items.map fun item => item.1 ++ item.2.1 ++ item.2.2)))
            = (items.map fun item => String.mk item.2.1).filter fun a => a != "")
      ∧ (∀ s : String, ∃ items : List (List Char × List Char × List Char),
          s = String.mk (joinComma (items.map fun item => item.1 ++ item.2.1 ++ item.2.2))
            ∧ ∀ item ∈ items, (∀ c ∈ item.1, isSpaceRune c = true) ∧ Trimmed item.2.1
              ∧ ',' ∉ item.2.1 ∧ ∀ c ∈ item.2.2, isSpaceRune c = true)
      ∧ (∀ a ∈ MailModule.collectRecipients mail, a ≠ "" ∧ Trimmed a.toList)
      ∧ MailModule.parseEmailList "" = []
      ∧ ∀ s : String, (∀ c ∈ s.toList, c = ',' ∨ c = ' ') → MailModule.parseEmailList s = [] := by
  have he : MailModule.parseEmailList "" = [] := by decide
  have h1 : MailModule.collectRecipients mail
      = MailModule.parseEmailList mail.HeaderTo ++ MailModule.parseEmailList mail.HeaderCC
        ++ MailModule.parseEmailList mail.HeaderBCC := by
    unfold MailModule.collectRecipients
    by_cases ht : mail.HeaderTo = "" <;> by_cases hc : mail.HeaderCC = "" <;>
      by_cases hb : mail.HeaderBCC = "" <;> simp [ht, hc, hb, he]
  refine ⟨h1, parseEmailList_joined, ?_, ?_, he, ?_⟩
  · intro s
    obtain ⟨items, e, h⟩ := parseEmailList_items (splitComma s.toList)
      fun p hp hc => (mem_splitComma hp ',' hc).2 rfl
    refine ⟨items, ?_, h⟩
    rw [← e, joinComma_splitComma]
    rfl
  · intro a ha
    rw [h1] at ha
    simp only [List.mem_append] at ha
    rcases ha with (ha | ha) | ha <;> exact mem_parseEmailList ha
  · intro s hs
    apply parseEmailList_blank
    intro c hc
    rcases hs c hc with e | e
    · exact Or.inl e
    · right; subst e; decide

/-- Witness for C27: the headers of the sample mail give its five addresses
in the order To, Cc, Bcc; a header with spaces around the addresses and an
empty piece gives the two addresses. -/
theorem collectRecipients_parsed_witness :
    MailModule.collectRecipients recipientsMail
        = ["to1@example.com", "to2@example.com", "cc1@example.com", "bcc1@example.com",
            "bcc2@example.com"]
      ∧ String.mk (joinComma
            ([(pad 2, "user1@example.com".toList, pad 2), (pad 1, [], []),
                (pad 2, "user2@example.com".toList, pad 2)].map
              fun item => item.1 ++ item.2.1 ++ item.2.2))
          = "  user1@example.com  , ,  user2@example.com  "
      ∧ MailModule.parseEmailList "  user1@example.com  , ,  user2@example.com  "
          = ["user1@example.com", "user2@example.com"] :=
  ⟨by decide, by decide,
    (collectRecipients_parsed recipientsMail).2.1
      [(pad 2, "user1@example.com".toList, pad 2), (pad 1, [], []),
        (pad 2, "user2@example.com".toList, pad 2)]
      (by
        intro item hi
        simp only [List.mem_cons, List.mem_singleton, List.not_mem_nil, or_false] at hi
        rcases hi with rfl | rfl | rfl <;>
          exact ⟨pad_space _, trimmed_of_ends _ (by decide), by decide, by first | exact pad_space _ | simp⟩)⟩

end PgBridge
